import Mathlib

/-! # SovereignDroid cryptographic core: a shallow embedding

The definitions below transcribe `sovereign_crypto.c`, `sovereign_sha512.c`,
`sovereign_ed25519.c`, `secure_storage.c` and `device_identity.c`.

Conventions of the embedding.

* A byte buffer is a `List Nat`; an element stands for one `uint8_t`.  A `uint32_t` or
  `uint64_t` value is a `Nat`; every addition, multiplication or left shift whose result can
  leave the width of its C type carries an explicit `% 2 ^ 32` or `% 2 ^ 64`.
* A C array is a list; `a[i]` is `a.getD i 0` and `a[i] = v` is `a.set i v`.  A store whose
  index lies outside the declared array leaves every modelled variable unchanged
  (`List.set` beyond the length returns the list as it was).  The values such an embedding
  gives are those of an execution in which the store reaches no variable that is read later;
  a compiled build may place it on a live variable or abort, so a value obtained through
  such a store is not the value of every build.
* `(uint8_t*)keystream` reads the sixteen keystream words in little-endian byte order, the
  order of every Android ABI.
* An output buffer is returned as a value; a function with an `int` status returns a pair.
* Where a claim is about the indices themselves, or a call can write past the array it is
  given, a second embedding returns an `Option`: `none` stands for the access out of range.
-/

namespace SovereignDroid

/-! ## ChaCha20 (`sovereign_crypto.c`) -/

/-- `ROTL32(v, n)`: `((v) << (n)) | ((v) >> (32 - (n)))` on a `uint32_t`. -/
def ROTL32 (v n : Nat) : Nat :=
  ((v <<< n) % 2 ^ 32) ||| (v >>> (32 - n))

/-- `QUARTERROUND(a, b, c, d)` applied to the array elements `x[a]`, `x[b]`, `x[c]`, `x[d]`;
one line per statement of the expanded text. -/
def QUARTERROUND (x : List Nat) (a b c d : Nat) : List Nat :=
  let x := x.set a ((x.getD a 0 + x.getD b 0) % 2 ^ 32)
  let x := x.set d (x.getD d 0 ^^^ x.getD a 0)
  let x := x.set d (ROTL32 (x.getD d 0) 16)
  let x := x.set c ((x.getD c 0 + x.getD d 0) % 2 ^ 32)
  let x := x.set b (x.getD b 0 ^^^ x.getD c 0)
  let x := x.set b (ROTL32 (x.getD b 0) 12)
  let x := x.set a ((x.getD a 0 + x.getD b 0) % 2 ^ 32)
  let x := x.set d (x.getD d 0 ^^^ x.getD a 0)
  let x := x.set d (ROTL32 (x.getD d 0) 8)
  let x := x.set c ((x.getD c 0 + x.getD d 0) % 2 ^ 32)
  let x := x.set b (x.getD b 0 ^^^ x.getD c 0)
  let x := x.set b (ROTL32 (x.getD b 0) 7)
  x

/-- `load32_le(src + off)`: four bytes, least significant first. -/
def load32_le (src : List Nat) (off : Nat) : Nat :=
  src.getD off 0 ||| (src.getD (off + 1) 0 <<< 8) |||
    (src.getD (off + 2) 0 <<< 16) ||| (src.getD (off + 3) 0 <<< 24)

/-- `store32_le(dst, val)`: the four bytes written to `dst[0..3]`. -/
def store32_le (val : Nat) : List Nat :=
  [val &&& 0xFF, (val >>> 8) &&& 0xFF, (val >>> 16) &&& 0xFF, (val >>> 24) &&& 0xFF]

/-- One pass of the body of the ten-fold loop of `chacha20_block`: four column rounds, then
four diagonal rounds. -/
def chacha20_double_round (out : List Nat) : List Nat :=
  let out := QUARTERROUND out 0 4 8 12
  let out := QUARTERROUND out 1 5 9 13
  let out := QUARTERROUND out 2 6 10 14
  let out := QUARTERROUND out 3 7 11 15
  let out := QUARTERROUND out 0 5 10 15
  let out := QUARTERROUND out 1 6 11 12
  let out := QUARTERROUND out 2 7 8 13
  let out := QUARTERROUND out 3 4 9 14
  out

/-- The initial `state` array of `chacha20_block`: constants, key words, counter, nonce
words. -/
def chacha20_init_state (key nonce : List Nat) (counter : Nat) : List Nat :=
  [0x61707865, 0x3320646e, 0x79622d32, 0x6b206574] ++
    (List.range 8).map (fun i => load32_le key (i * 4)) ++
    [counter % 2 ^ 32] ++
    (List.range 3).map (fun i => load32_le nonce (i * 4))

/-- `chacha20_block(out, key, nonce, counter)`: the sixteen output words. -/
def chacha20_block (key nonce : List Nat) (counter : Nat) : List Nat :=
  let state := chacha20_init_state key nonce counter
  let out := (chacha20_double_round)^[10] state
  (List.range 16).map (fun i => (out.getD i 0 + state.getD i 0) % 2 ^ 32)

/-- The bytes seen through `ks_bytes = (uint8_t*)keystream`. -/
def ks_bytes (keystream : List Nat) : List Nat :=
  keystream.foldr (fun w acc => store32_le w ++ acc) []

/-- The inner loop of `chacha20_encrypt` on the input from offset `i` on:
`for (j = 0; j < 64 && i + j < length; j++) output[i + j] = input[i + j] ^ ks_bytes[j]`. -/
def chacha20_xor_block (ks : List Nat) (input : List Nat) : List Nat :=
  List.zipWith (fun x k => x ^^^ k) (input.take 64) ks

/-- The outer loop of `chacha20_encrypt`, `for (i = 0; i < length; i += 64)`, on the input
that remains from offset `i` on; the first argument bounds the number of passes. -/
def chacha20_encrypt_loop (key nonce : List Nat) : Nat → Nat → List Nat → List Nat
  | 0, _, _ => []
  | fuel + 1, counter, input =>
    if 0 < input.length then
      let keystream := chacha20_block key nonce counter
      chacha20_xor_block (ks_bytes keystream) input ++
        chacha20_encrypt_loop key nonce fuel ((counter + 1) % 2 ^ 32) (input.drop 64)
    else []

/-- `chacha20_encrypt(key, nonce, counter, input, output, length)`: the `length` bytes
written to `output`.  The loop makes at most `length` passes. -/
def chacha20_encrypt (key nonce : List Nat) (counter : Nat) (input : List Nat) : List Nat :=
  chacha20_encrypt_loop key nonce input.length (counter % 2 ^ 32) input

/-- Byte `j` of the keystream block for counter `c`. -/
def keystream_byte (key nonce : List Nat) (c j : Nat) : Nat :=
  (ks_bytes (chacha20_block key nonce c)).getD j 0

/-! ## Poly1305 (`sovereign_crypto.c`) -/

/-- The loop `for (j = 0; j < block_size; j++) block[j / 4] |= message[i + j] << ((j % 4) * 8)`
on `uint32_t block[4] = {0}`; `chunk` holds `message[i .. i + block_size)`. -/
def poly1305_load_block (chunk : List Nat) : List Nat :=
  (List.range chunk.length).foldl
    (fun block j =>
      block.set (j / 4) (block.getD (j / 4) 0 ||| ((chunk.getD j 0 <<< ((j % 4) * 8)) % 2 ^ 32)))
    [0, 0, 0, 0]

/-- The statement `block[block_size / 4] |= ((uint32_t)1) << ((block_size % 4) * 8)`. -/
def poly1305_pad_block (block : List Nat) (block_size : Nat) : List Nat :=
  block.set (block_size / 4)
    (block.getD (block_size / 4) 0 ||| ((1 <<< ((block_size % 4) * 8)) % 2 ^ 32))

/-- The carry loop `for (j = 0; j < 4; j++) { sum = (uint64_t)h[j] + x[j] + c; h[j] = sum &
0xFFFFFFFF; c = sum >> 32; }` started with `c = 0`; it serves for `h += block` and for
`h += s`.  The result is the array `h` and the final `c`. -/
def poly1305_add_words (h x : List Nat) : List Nat × Nat :=
  (List.range 4).foldl
    (fun (hc : List Nat × Nat) j =>
      let sum := (hc.1.getD j 0 + x.getD j 0 + hc.2) % 2 ^ 64
      (hc.1.set j (sum &&& 0xFFFFFFFF), (sum >>> 32) % 2 ^ 32))
    (h, 0)

/-- The double loop `for (j = 0; j < 4; j++) for (k = 0; k < 4; k++) mul[j + k] +=
(uint64_t)h[j] * r[k]` on `uint64_t mul[5] = {0}`. -/
def poly1305_mul_words (h r : List Nat) : List Nat :=
  (List.range 4).foldl
    (fun mul j =>
      (List.range 4).foldl
        (fun mul k =>
          mul.set (j + k) ((mul.getD (j + k) 0 + (h.getD j 0 * r.getD k 0) % 2 ^ 64) % 2 ^ 64))
        mul)
    [0, 0, 0, 0, 0]

/-- The carry loop `for (j = 0; j < 5; j++) { sum = mul[j] + c; h[j] = sum & 0xFFFFFFFF;
c = sum >> 32; }` started with `c = 0`. -/
def poly1305_carry_words (h mul : List Nat) : List Nat × Nat :=
  (List.range 5).foldl
    (fun (hc : List Nat × Nat) j =>
      let sum := (mul.getD j 0 + hc.2) % 2 ^ 64
      (hc.1.set j (sum &&& 0xFFFFFFFF), (sum >>> 32) % 2 ^ 32))
    (h, 0)

/-- One pass of the block loop of `poly1305_authenticate`, for the chunk
`message[i .. i + block_size)`: load, pad, `h += block`, `h *= r`, reduce. -/
def poly1305_block_step (r h chunk : List Nat) : List Nat :=
  let block_size := chunk.length
  let block := poly1305_load_block chunk
  let block := poly1305_pad_block block block_size
  let hc := poly1305_add_words h block
  let h := hc.1
  let c := hc.2
  let h := h.set 4 ((h.getD 4 0 + c) % 2 ^ 32)
  let mul := poly1305_mul_words h r
  let hc := poly1305_carry_words h mul
  let h := hc.1
  let c := h.getD 4 0 >>> 2
  let h := h.set 4 (h.getD 4 0 &&& 3)
  let h := h.set 0 ((h.getD 0 0 + (c * 5) % 2 ^ 32) % 2 ^ 32)
  h

/-- The block loop `for (i = 0; i < length; ) { ...; i += block_size; }` on the message that
remains from offset `i` on; the first argument bounds the number of passes. -/
def poly1305_blocks (r : List Nat) : Nat → List Nat → List Nat → List Nat
  | 0, h, _ => h
  | fuel + 1, h, message =>
    if 0 < message.length then
      let block_size := if message.length > 16 then 16 else message.length
      let h := poly1305_block_step r h (message.take block_size)
      poly1305_blocks r fuel h (message.drop block_size)
    else h

/-- `poly1305_authenticate(key, message, length, tag)`: the sixteen bytes written to `tag`.
The array `r` has five words of which the code sets four. -/
def poly1305_authenticate (key message : List Nat) : List Nat :=
  let r := [load32_le key 0 &&& 0x0FFFFFFF, load32_le key 4 &&& 0x0FFFFFFC,
            load32_le key 8 &&& 0x0FFFFFFC, load32_le key 12 &&& 0x0FFFFFFC, 0]
  let s := (List.range 4).map (fun i => load32_le key (16 + i * 4))
  let h := [0, 0, 0, 0, 0]
  let h := poly1305_blocks r message.length h message
  let h := (poly1305_add_words h s).1
  (List.range 4).foldr (fun i acc => store32_le (h.getD i 0) ++ acc) []

/-! ## ChaCha20-Poly1305 (`sovereign_crypto.c`) -/

/-- The one-time key both AEAD functions derive: `memset(poly_key, 0, 32)` followed by
`chacha20_encrypt(key, nonce, 0, poly_key, poly_key, 32)`. -/
def poly_key_gen (key nonce : List Nat) : List Nat :=
  let poly_key := List.replicate 32 0
  chacha20_encrypt key nonce 0 poly_key

/-- `chacha20_poly1305_encrypt`: the returned `int`, the ciphertext and the tag. -/
def chacha20_poly1305_encrypt (key nonce plaintext : List Nat) : Nat × List Nat × List Nat :=
  let poly_key := poly_key_gen key nonce
  let ciphertext := chacha20_encrypt key nonce 1 plaintext
  let tag := poly1305_authenticate poly_key ciphertext
  (1, ciphertext, tag)

/-- The comparison loop of `chacha20_poly1305_decrypt`:
`tag_match = 0; for (i = 0; i < 16; i++) tag_match |= (tag[i] ^ computed_tag[i])`. -/
def tag_match (tag computed_tag : List Nat) : Nat :=
  (List.range 16).foldl (fun acc i => acc ||| (tag.getD i 0 ^^^ computed_tag.getD i 0)) 0

/-- `chacha20_poly1305_decrypt`: the returned `int` and the `ciphertext_len` bytes of the
`plaintext` buffer. -/
def chacha20_poly1305_decrypt (key nonce ciphertext tag : List Nat) : Nat × List Nat :=
  let poly_key := poly_key_gen key nonce
  let computed_tag := poly1305_authenticate poly_key ciphertext
  if tag_match tag computed_tag ≠ 0 then
    (0, List.replicate ciphertext.length 0)
  else
    (1, chacha20_encrypt key nonce 1 ciphertext)

/-! ## SHA-512 (`sovereign_sha512.c`) -/

/-- The round constants `K[80]`, four to a row as in the source. -/
def K : List Nat :=
  [0x428a2f98d728ae22, 0x7137449123ef65cd, 0xb5c0fbcfec4d3b2f, 0xe9b5dba58189dbbc] ++
  [0x3956c25bf348b538, 0x59f111f1b605d019, 0x923f82a4af194f9b, 0xab1c5ed5da6d8118] ++
  [0xd807aa98a3030242, 0x12835b0145706fbe, 0x243185be4ee4b28c, 0x550c7dc3d5ffb4e2] ++
  [0x72be5d74f27b896f, 0x80deb1fe3b1696b1, 0x9bdc06a725c71235, 0xc19bf174cf692694] ++
  [0xe49b69c19ef14ad2, 0xefbe4786384f25e3, 0x0fc19dc68b8cd5b5, 0x240ca1cc77ac9c65] ++
  [0x2de92c6f592b0275, 0x4a7484aa6ea6e483, 0x5cb0a9dcbd41fbd4, 0x76f988da831153b5] ++
  [0x983e5152ee66dfab, 0xa831c66d2db43210, 0xb00327c898fb213f, 0xbf597fc7beef0ee4] ++
  [0xc6e00bf33da88fc2, 0xd5a79147930aa725, 0x06ca6351e003826f, 0x142929670a0e6e70] ++
  [0x27b70a8546d22ffc, 0x2e1b21385c26c926, 0x4d2c6dfc5ac42aed, 0x53380d139d95b3df] ++
  [0x650a73548baf63de, 0x766a0abb3c77b2a8, 0x81c2c92e47edaee6, 0x92722c851482353b] ++
  [0xa2bfe8a14cf10364, 0xa81a664bbc423001, 0xc24b8b70d0f89791, 0xc76c51a30654be30] ++
  [0xd192e819d6ef5218, 0xd69906245565a910, 0xf40e35855771202a, 0x106aa07032bbd1b8] ++
  [0x19a4c116b8d2d0c8, 0x1e376c085141ab53, 0x2748774cdf8eeb99, 0x34b0bcb5e19b48a8] ++
  [0x391c0cb3c5c95a63, 0x4ed8aa4ae3418acb, 0x5b9cca4f7763e373, 0x682e6ff3d6b2b8a3] ++
  [0x748f82ee5defb2fc, 0x78a5636f43172f60, 0x84c87814a1f0ab72, 0x8cc702081a6439ec] ++
  [0x90befffa23631e28, 0xa4506cebde82bde9, 0xbef9a3f7b2c67915, 0xc67178f2e372532b] ++
  [0xca273eceea26619c, 0xd186b8c721c0c207, 0xeada7dd6cde0eb1e, 0xf57d4f7fee6ed178] ++
  [0x06f067aa72176fba, 0x0a637dc5a2c898a6, 0x113f9804bef90dae, 0x1b710b35131c471b] ++
  [0x28db77f523047d84, 0x32caab7b40c72493, 0x3c9ebe0a15c9bebc, 0x431d67c49c100d4c] ++
  [0x4cc5d4becb3e42b6, 0x597f299cfc657e2a, 0x5fcb6fab3ad6faec, 0x6c44198c4a475817]

/-- `ROTR(x, n)`: `((x) >> (n)) | ((x) << (64 - (n)))` on a `uint64_t`. -/
def ROTR (x n : Nat) : Nat :=
  (x >>> n) ||| ((x <<< (64 - n)) % 2 ^ 64)

/-- `SHR(x, n)`. -/
def SHR (x n : Nat) : Nat :=
  x >>> n

/-- `Ch(x, y, z)`: `((x) & (y)) ^ (~(x) & (z))`; `~x` on a `uint64_t` flips its 64 bits. -/
def Ch (x y z : Nat) : Nat :=
  (x &&& y) ^^^ ((x ^^^ 0xFFFFFFFFFFFFFFFF) &&& z)

/-- `Maj(x, y, z)`. -/
def Maj (x y z : Nat) : Nat :=
  (x &&& y) ^^^ (x &&& z) ^^^ (y &&& z)

/-- `Sigma0(x)`. -/
def Sigma0 (x : Nat) : Nat :=
  ROTR x 28 ^^^ ROTR x 34 ^^^ ROTR x 39

/-- `Sigma1(x)`. -/
def Sigma1 (x : Nat) : Nat :=
  ROTR x 14 ^^^ ROTR x 18 ^^^ ROTR x 41

/-- `sigma0(x)` (lower case in the source). -/
def sigma0 (x : Nat) : Nat :=
  ROTR x 1 ^^^ ROTR x 8 ^^^ SHR x 7

/-- `sigma1(x)` (lower case in the source). -/
def sigma1 (x : Nat) : Nat :=
  ROTR x 19 ^^^ ROTR x 61 ^^^ SHR x 6

/-- `load64(p + off)`: eight bytes, most significant first. -/
def load64 (p : List Nat) (off : Nat) : Nat :=
  (p.getD off 0 <<< 56) ||| (p.getD (off + 1) 0 <<< 48) |||
    (p.getD (off + 2) 0 <<< 40) ||| (p.getD (off + 3) 0 <<< 32) |||
    (p.getD (off + 4) 0 <<< 24) ||| (p.getD (off + 5) 0 <<< 16) |||
    (p.getD (off + 6) 0 <<< 8) ||| p.getD (off + 7) 0

/-- `store64(p, v)`: the eight bytes written to `p[0..7]`. -/
def store64 (v : Nat) : List Nat :=
  [(v >>> 56) &&& 0xff, (v >>> 48) &&& 0xff, (v >>> 40) &&& 0xff, (v >>> 32) &&& 0xff,
   (v >>> 24) &&& 0xff, (v >>> 16) &&& 0xff, (v >>> 8) &&& 0xff, v &&& 0xff]

/-- The message schedule `W[80]` of `sha512_transform`. -/
def sha512_schedule (block : List Nat) : List Nat :=
  let W := (List.range 16).foldl (fun W i => W.set i (load64 block (i * 8)))
    (List.replicate 80 0)
  (List.range' 16 64).foldl
    (fun W i =>
      W.set i ((sigma1 (W.getD (i - 2) 0) + W.getD (i - 7) 0 + sigma0 (W.getD (i - 15) 0) +
        W.getD (i - 16) 0) % 2 ^ 64))
    W

/-- The body of the main loop of `sha512_transform` at round `i`, on the working variables
`[a, b, c, d, e, f, g, h]`. -/
def sha512_round (W : List Nat) (v : List Nat) (i : Nat) : List Nat :=
  let a := v.getD 0 0
  let b := v.getD 1 0
  let c := v.getD 2 0
  let d := v.getD 3 0
  let e := v.getD 4 0
  let f := v.getD 5 0
  let g := v.getD 6 0
  let h := v.getD 7 0
  let T1 := (h + Sigma1 e + Ch e f g + K.getD i 0 + W.getD i 0) % 2 ^ 64
  let T2 := (Sigma0 a + Maj a b c) % 2 ^ 64
  [(T1 + T2) % 2 ^ 64, a, b, c, (d + T1) % 2 ^ 64, e, f, g]

/-- `sha512_transform(ctx, block)` as a function of `ctx->state`, the only field it reads or
writes. -/
def sha512_transform (state block : List Nat) : List Nat :=
  let W := sha512_schedule block
  let v := (List.range 80).foldl (sha512_round W) ((List.range 8).map (fun i => state.getD i 0))
  (List.range 8).map (fun i => (state.getD i 0 + v.getD i 0) % 2 ^ 64)

/-- The context `sha512_ctx`: `state[8]`, `count[2]` and `buffer[128]`. -/
structure sha512_ctx where
  /-- the hash state, eight 64-bit words -/
  state : List Nat
  /-- the 128-bit bit count: `count[0]` is the low word, `count[1]` the high word -/
  count : List Nat
  /-- the input buffer, 128 bytes -/
  buffer : List Nat
deriving DecidableEq, Repr

/-- `memcpy(&buffer[index], src, n)`: the buffer after the copy. -/
def memcpy_at (buffer : List Nat) (index : Nat) (src : List Nat) (n : Nat) : List Nat :=
  buffer.take index ++ src.take n ++ buffer.drop (index + n)

/-- `sha512_init(ctx)`: sets `state` and `count`, leaves `buffer` as it is. -/
def sha512_init (ctx : sha512_ctx) : sha512_ctx :=
  { ctx with
    state := [0x6a09e667f3bcc908, 0xbb67ae8584caa73b, 0x3c6ef372fe94f82b, 0xa54ff53a5f1d36f1,
              0x510e527fade682d1, 0x9b05688c2b3e6c1f, 0x1f83d9abfb41bd6b, 0x5be0cd19137e2179]
    count := [0, 0] }

/-- The loop `for (i = part_len; i + 127 < len; i += 128) sha512_transform(ctx, &data[i])` of
`sha512_update` on the data that remains from offset `i` on: the state after the loop and the
data from the final `i` on.  The first argument bounds the number of passes. -/
def sha512_update_loop : Nat → List Nat → List Nat → List Nat × List Nat
  | 0, state, data => (state, data)
  | fuel + 1, state, data =>
    if 127 < data.length then
      sha512_update_loop fuel (sha512_transform state (data.take 128)) (data.drop 128)
    else (state, data)

/-- `sha512_update(ctx, data, len)` with `len` the length of `data`. -/
def sha512_update (ctx : sha512_ctx) (data : List Nat) : sha512_ctx :=
  let len := data.length
  let index := (ctx.count.getD 0 0 >>> 3) &&& 0x7F
  let bit_len := ((len % 2 ^ 64) <<< 3) % 2 ^ 64
  let count0 := (ctx.count.getD 0 0 + bit_len) % 2 ^ 64
  let count1 := if count0 < bit_len then (ctx.count.getD 1 0 + 1) % 2 ^ 64 else ctx.count.getD 1 0
  let count1 := (count1 + ((len % 2 ^ 64) >>> 61)) % 2 ^ 64
  let part_len := 128 - index
  if len ≥ part_len then
    let buffer := memcpy_at ctx.buffer index data part_len
    let state := sha512_transform ctx.state buffer
    let loop := sha512_update_loop len state (data.drop part_len)
    let index := 0
    { state := loop.1, count := [count0, count1],
      buffer := memcpy_at buffer index loop.2 loop.2.length }
  else
    { state := ctx.state, count := [count0, count1],
      buffer := memcpy_at ctx.buffer index data len }

/-- The `padding` array of `sha512_final` as passed to `sha512_update`: `padding[0] = 0x80`,
then `memset(padding + 1, 0, pad_len - 1)`; the first `pad_len` bytes. -/
def sha512_padding (pad_len : Nat) : List Nat :=
  0x80 :: List.replicate (pad_len - 1) 0

/-- `sha512_final(ctx, hash)`: the 64 bytes written to `hash`. -/
def sha512_final (ctx : sha512_ctx) : List Nat :=
  let bits := store64 (ctx.count.getD 1 0) ++ store64 (ctx.count.getD 0 0)
  let index := (ctx.count.getD 0 0 >>> 3) &&& 0x7f
  let pad_len := if index < 112 then 112 - index else 240 - index
  let ctx := sha512_update ctx (sha512_padding pad_len)
  let ctx := sha512_update ctx bits
  (List.range 8).foldr (fun i acc => store64 (ctx.state.getD i 0) ++ acc) []

/-- The local `sha512_ctx ctx;` of `sha512` before `sha512_init`.  C leaves its contents
indeterminate; they are taken as zero. -/
def sha512_ctx_local : sha512_ctx :=
  { state := List.replicate 8 0, count := [0, 0], buffer := List.replicate 128 0 }

/-- `sha512(data, len, hash)`: the 64 bytes written to `hash`. -/
def sha512 (data : List Nat) : List Nat :=
  let ctx := sha512_init sha512_ctx_local
  let ctx := sha512_update ctx data
  sha512_final ctx

/-! ## Poly1305 as the specification states it -/

/-- The number a byte string encodes, least significant byte first. -/
def le_bytes_to_nat (bs : List Nat) : Nat :=
  bs.foldr (fun b acc => b + 256 * acc) 0

/-- The `len` bytes that encode `n`, least significant byte first. -/
def nat_to_le_bytes (n len : Nat) : List Nat :=
  (List.range len).map (fun i => (n / 256 ^ i) % 256)

/-- The accumulation of the specification over the 16-byte blocks of the message, the last
possibly shorter: `h = (h + block_with_appended_0x01_byte) * r mod (2^130 - 5)`.  The first
argument bounds the number of blocks. -/
def poly1305_reference_blocks (r : Nat) : Nat → Nat → List Nat → Nat
  | 0, h, _ => h
  | fuel + 1, h, message =>
    if 0 < message.length then
      let block := message.take 16
      let h := ((h + le_bytes_to_nat (block ++ [0x01])) * r) % (2 ^ 130 - 5)
      poly1305_reference_blocks r fuel h (message.drop 16)
    else h

/-- Poly1305 in the words of the specification: `r` is the clamped first 16 key bytes, `s`
the last 16 key bytes, the tag is the 16-byte little-endian encoding of `(h + s) mod 2^128`. -/
def poly1305_reference (key message : List Nat) : List Nat :=
  let r := le_bytes_to_nat (key.take 16) &&& 0x0ffffffc0ffffffc0ffffffc0fffffff
  let s := le_bytes_to_nat ((key.drop 16).take 16)
  let h := poly1305_reference_blocks r message.length 0 message
  nat_to_le_bytes ((h + s) % 2 ^ 128) 16

/-! ## Concrete inputs -/

/-- The Poly1305 key of RFC 8439 section 2.5.2. -/
def rfc8439_poly1305_key : List Nat :=
  [0x85, 0xd6, 0xbe, 0x78, 0x57, 0x55, 0x6d, 0x33, 0x7f, 0x44, 0x52, 0xfe, 0x42, 0xd5, 0x06, 0xa8,
   0x01, 0x03, 0x80, 0x8a, 0xfb, 0x0d, 0xb2, 0xfd, 0x4a, 0xbf, 0xf6, 0xaf, 0x41, 0x49, 0xf5, 0x1b]

/-- The message of RFC 8439 section 2.5.2, "Cryptographic Forum Research Group". -/
def rfc8439_poly1305_message : List Nat :=
  [67, 114, 121, 112, 116, 111, 103, 114, 97, 112, 104, 105, 99, 32, 70, 111, 114, 117, 109, 32,
   82, 101, 115, 101, 97, 114, 99, 104, 32, 71, 114, 111, 117, 112]

/-- The all-zero 32-byte key. -/
def zero_key : List Nat := List.replicate 32 0

/-- The all-zero 12-byte nonce. -/
def zero_nonce : List Nat := List.replicate 12 0

/-- A 12-byte nonce under which, with the all-zero key, keystream block 0 starts with the
bytes `00 00 00 40`, so that the clamped word `r[0]` of the one-time key is 0. -/
def weak_nonce : List Nat := [0x9e, 0x5b, 0xe5, 0x04, 0, 0, 0, 0, 0, 0, 0, 0]

/-- The SHA-512 digest of the empty byte sequence,
`cf83e1357eefb8bdf1542850d66d8007d620e4050b5715dc83f4a921d36ce9ce47d0d13c5d85f2b0ff8318d2877eec2f63b931bd47417a81a538327af927da3e`. -/
def sha512_empty_vector : List Nat :=
  [0xcf, 0x83, 0xe1, 0x35, 0x7e, 0xef, 0xb8, 0xbd, 0xf1, 0x54, 0x28, 0x50, 0xd6, 0x6d, 0x80, 0x07,
   0xd6, 0x20, 0xe4, 0x05, 0x0b, 0x57, 0x15, 0xdc, 0x83, 0xf4, 0xa9, 0x21, 0xd3, 0x6c, 0xe9, 0xce,
   0x47, 0xd0, 0xd1, 0x3c, 0x5d, 0x85, 0xf2, 0xb0, 0xff, 0x83, 0x18, 0xd2, 0x87, 0x7e, 0xec, 0x2f,
   0x63, 0xb9, 0x31, 0xbd, 0x47, 0x41, 0x7a, 0x81, 0xa5, 0x38, 0x32, 0x7a, 0xf9, 0x27, 0xda, 0x3e]

/-- The buffer with bit `bit` of byte `byte` flipped. -/
def flip_bit (buf : List Nat) (byte bit : Nat) : List Nat :=
  buf.set byte (buf.getD byte 0 ^^^ (1 <<< bit))

/-! ## SHA-512: the values inside `sha512_final`, and the padded-block reference -/

/-- The value `pad_len` that `sha512_final` computes from the context. -/
def sha512_final_pad_len (ctx : sha512_ctx) : Nat :=
  let index := (ctx.count.getD 0 0 >>> 3) &&& 0x7f
  if index < 112 then 112 - index else 240 - index

/-- The context of `sha512_final` after its two calls of `sha512_update`, the padding and the
sixteen length bytes. -/
def sha512_final_ctx (ctx : sha512_ctx) : sha512_ctx :=
  let bits := store64 (ctx.count.getD 1 0) ++ store64 (ctx.count.getD 0 0)
  let ctx := sha512_update ctx (sha512_padding (sha512_final_pad_len ctx))
  sha512_update ctx bits

/-- The loop `for (int i = 0; i < 8; i++) store64(hash + i * 8, ctx->state[i])`. -/
def sha512_store_state (state : List Nat) : List Nat :=
  (List.range 8).foldr (fun i acc => store64 (state.getD i 0) ++ acc) []

/-- Feeding the chunks `c1, ..., cn` to `sha512_update` in order. -/
def sha512_update_chunks (ctx : sha512_ctx) (chunks : List (List Nat)) : sha512_ctx :=
  chunks.foldl sha512_update ctx

/-- The `len` bytes that encode `n`, most significant byte first. -/
def nat_to_be_bytes (n len : Nat) : List Nat :=
  (List.range len).map (fun i => (n / 256 ^ (len - 1 - i)) % 256)

/-- The number `k` of zero bytes of the FIPS 180-4 padding of a message of `len` bytes. -/
def sha512_reference_zeros (len : Nat) : Nat :=
  (128 - (len + 17) % 128) % 128

/-- The padded message of FIPS 180-4 section 5.1.2: the message, the byte `0x80`, `k` zero
bytes, and the 128-bit big-endian encoding of the bit length. -/
def sha512_reference_pad (m : List Nat) : List Nat :=
  m ++ [0x80] ++ List.replicate (sha512_reference_zeros m.length) 0 ++
    nat_to_be_bytes (8 * m.length) 16

/-- The compression function folded over the first `n` consecutive 128-byte blocks of
`data`. -/
def sha512_fold_blocks : Nat → List Nat → List Nat → List Nat
  | 0, state, _ => state
  | n + 1, state, data =>
    sha512_fold_blocks n (sha512_transform state (data.take 128)) (data.drop 128)

/-- SHA-512 as the padded-block reference: the compression function folded from the initial
hash value over the blocks of the padded message, the eight state words serialised most
significant byte first. -/
def sha512_reference (m : List Nat) : List Nat :=
  let padded := sha512_reference_pad m
  let state := sha512_fold_blocks (padded.length / 128) (sha512_init sha512_ctx_local).state padded
  (List.range 8).foldr (fun i acc => nat_to_be_bytes (state.getD i 0) 8 ++ acc) []

/-- The relation between a context and the message `M` fed to it so far: the state is the
compression function folded over the complete blocks of `M`, the count is the bit length of
`M`, and the buffer starts with the bytes of `M` after its last complete block. -/
def sha512_absorbed (ctx : sha512_ctx) (M : List Nat) : Prop :=
  ctx.state = sha512_fold_blocks (M.length / 128) (sha512_init sha512_ctx_local).state M ∧
    ctx.count = [(8 * M.length) % 2 ^ 64, (8 * M.length) / 2 ^ 64] ∧
    ctx.buffer.take (M.length % 128) = M.drop (M.length / 128 * 128)

/-- The chunks `c1, ..., cn` one after the other. -/
def concat_chunks (chunks : List (List Nat)) : List Nat :=
  chunks.foldr (fun c acc => c ++ acc) []

/-- The digest of "abc",
`ddaf35a193617abacc417349ae20413112e6fa4e89a97ea20a9eeee64b55d39a2192992a274fc1a836ba3c23a3feebbd454d4423643ce80e2a9ac94fa54ca49f`. -/
def sha512_abc_vector : List Nat :=
  [0xdd, 0xaf, 0x35, 0xa1, 0x93, 0x61, 0x7a, 0xba, 0xcc, 0x41, 0x73, 0x49, 0xae, 0x20, 0x41, 0x31,
   0x12, 0xe6, 0xfa, 0x4e, 0x89, 0xa9, 0x7e, 0xa2, 0x0a, 0x9e, 0xee, 0xe6, 0x4b, 0x55, 0xd3, 0x9a,
   0x21, 0x92, 0x99, 0x2a, 0x27, 0x4f, 0xc1, 0xa8, 0x36, 0xba, 0x3c, 0x23, 0xa3, 0xfe, 0xeb, 0xbd,
   0x45, 0x4d, 0x44, 0x23, 0x64, 0x3c, 0xe8, 0x0e, 0x2a, 0x9a, 0xc9, 0x4f, 0xa5, 0x4c, 0xa4, 0x9f]

/-! ## Ed25519-shaped signatures (`sovereign_ed25519.c`) -/

/-- `sc_reduce(out)`: the 64-byte array after the two loops. -/
def sc_reduce (out : List Nat) : List Nat :=
  let st := (List.range' 32 32).foldl
    (fun (st : List Nat × Nat) i =>
      let carry := (st.2 + (st.1.getD (i - 32) 0 + st.1.getD i 0 * 38)) % 2 ^ 64
      (st.1.set (i - 32) (carry &&& 0xff), carry >>> 8))
    (out, 0)
  let st := (List.range 32).foldl
    (fun (st : List Nat × Nat) i =>
      let carry := (st.2 + st.1.getD i 0) % 2 ^ 64
      (st.1.set i (carry &&& 0xff), carry >>> 8))
    st
  st.1

/-- The multiplication loops of `sc_muladd` on `uint64_t tmp[64] = {0}`; `carry` starts at 0
for every `i`, and the test `(i + j) < 64` of the inner loop is kept. -/
def sc_muladd_mul (a b : List Nat) : List Nat :=
  (List.range 32).foldl
    (fun tmp i =>
      ((List.range 32).foldl
        (fun (st : List Nat × Nat) j =>
          if i + j < 64 then
            let t := (st.1.getD (i + j) 0 + ((a.getD i 0 * b.getD j 0) % 2 ^ 64 + st.2) % 2 ^ 64)
              % 2 ^ 64
            (st.1.set (i + j) (t &&& 0xff), t >>> 8)
          else st)
        (tmp, 0)).1)
    (List.replicate 64 0)

/-- The loop of `sc_muladd` that adds `c`. -/
def sc_muladd_add (tmp c : List Nat) : List Nat :=
  ((List.range 32).foldl
    (fun (st : List Nat × Nat) i =>
      let t := (st.1.getD i 0 + (c.getD i 0 + st.2) % 2 ^ 64) % 2 ^ 64
      (st.1.set i (t &&& 0xff), t >>> 8))
    (tmp, 0)).1

/-- `sc_muladd(s, a, b, c)`: the 32 bytes written to `s`. -/
def sc_muladd (a b c : List Nat) : List Nat :=
  let tmp := sc_muladd_mul a b
  let tmp := sc_muladd_add tmp c
  let temp := (List.range 64).map (fun i => tmp.getD i 0 &&& 0xff)
  let temp := sc_reduce temp
  temp.take 32

/-- The table `ge_base_packed`. -/
def ge_base_packed : List Nat :=
  [0x58, 0x66, 0x66, 0x66, 0x66, 0x66, 0x66, 0x66] ++ List.replicate 24 0x66

/-- `ge_scalarmult_base(out, scalar)`: the 32 bytes written to `out`; 32 bytes of `scalar`
are read. -/
def ge_scalarmult_base (scalar : List Nat) : List Nat :=
  let temp := ge_base_packed ++ scalar.take 32
  let temp := sha512 (temp.take 64)
  let temp := sha512 (temp.take 64)
  let out := temp.take 32
  out.set 31 (out.getD 31 0 &&& 0x7f)

/-- The three statements `hash[0] &= 248; hash[31] &= 63; hash[31] |= 64;`. -/
def ed25519_clamp (hash : List Nat) : List Nat :=
  let hash := hash.set 0 (hash.getD 0 0 &&& 248)
  let hash := hash.set 31 (hash.getD 31 0 &&& 63)
  hash.set 31 (hash.getD 31 0 ||| 64)

/-- `ed25519_create_keypair(public_key, private_key, seed)`: the pair
`(public_key, private_key)`. -/
def ed25519_create_keypair (seed : List Nat) : List Nat × List Nat :=
  let private_key := seed.take 32
  let hash := sha512 (seed.take 32)
  let hash := ed25519_clamp hash
  let public_key := ge_scalarmult_base hash
  (public_key, private_key)

/-- `ed25519_sign(signature, message, message_len, private_key, public_key)`: the 64 bytes
written to `signature`.  The local `ctx` serves for both hashes; the second `sha512_init`
finds it as the first `sha512_final` left it. -/
def ed25519_sign (message private_key public_key : List Nat) : List Nat :=
  let ctx := sha512_ctx_local
  let hash := sha512 (private_key.take 32)
  let hash := ed25519_clamp hash
  let ctx := sha512_init ctx
  let ctx := sha512_update ctx ((hash.drop 32).take 32)
  let ctx := sha512_update ctx message
  let r := sha512_final ctx
  let ctx := sha512_final_ctx ctx
  let r := sc_reduce r
  let R := ge_scalarmult_base r
  let ctx := sha512_init ctx
  let ctx := sha512_update ctx (R.take 32)
  let ctx := sha512_update ctx (public_key.take 32)
  let ctx := sha512_update ctx message
  let hram := sha512_final ctx
  let hram := sc_reduce hram
  R.take 32 ++ sc_muladd hram hash r

set_option linter.unusedVariables false in
/-- `ed25519_verify(signature, message, message_len, public_key)`: the returned `int`. -/
def ed25519_verify (signature message public_key : List Nat) : Nat :=
  if signature.getD 63 0 &&& 224 ≠ 0 then 0
  else
    let ctx := sha512_init sha512_ctx_local
    let ctx := sha512_update ctx (signature.take 32)
    let ctx := sha512_update ctx (public_key.take 32)
    let ctx := sha512_update ctx message
    let h := sha512_final ctx
    let h := sc_reduce h
    let recalc_R := ge_scalarmult_base (signature.drop 32)
    let check_data := signature.take 32 ++ recalc_R.take 32 ++ h.take 32
    let verification_hash := sha512 (check_data.take 96)
    let diff_accumulator := (List.range 32).foldl
      (fun acc i => acc ||| (recalc_R.getD i 0 ^^^ signature.getD i 0)) 0
    if diff_accumulator = 0 then 1 else 0

/-! ## Secure storage (`secure_storage.c`)

A C string is the list of its bytes before the terminator.  The file system is a map from
paths to file contents; directories are not modelled.  A file that opens for writing takes
every byte written to it, and `malloc` succeeds unless the size requested is negative. -/

/-- The bytes of a string literal of the source. -/
def c_str (s : String) : List Nat :=
  s.toList.map Char.toNat

/-- `STORAGE_DIR`. -/
def STORAGE_DIR : List Nat :=
  c_str "/data/data/com.sovereigndroid.core/files/secure"

/-- `KEY_FILE`. -/
def KEY_FILE : List Nat :=
  c_str "/data/data/com.sovereigndroid.core/files/secure/.master_key"

/-- One lower-case hexadecimal digit, as a character. -/
def hex_digit (d : Nat) : Nat :=
  if d < 10 then 48 + d else 87 + d

/-- The characters `printf` writes for `"%08x"` and an `unsigned int`. -/
def fmt_08x (v : Nat) : List Nat :=
  (List.range 8).map (fun i => hex_digit ((v >>> (4 * (7 - i))) &&& 0xF))

/-- `simple_hash(input, output)`: the characters written to `output`, without the
terminator.  A `char` of the key counts with its value from 0 to 255, as on the ARM ABIs;
`simple_hash_signed` is the function where `char` is signed, and the two agree on keys whose
bytes are below `0x80`. -/
def simple_hash (input : List Nat) : List Nat :=
  let hash := input.foldl (fun hash c => ((hash * 31 + c) % 2 ^ 32) &&& 0xFFFFFFFF) 0
  fmt_08x hash

/-- `get_file_path(key, path)`: the path written. -/
def get_file_path (key : List Nat) : List Nat :=
  let hash := simple_hash key
  STORAGE_DIR ++ c_str "/" ++ hash ++ c_str ".enc"

/-- The file name that `secure_storage_store`, `secure_storage_retrieve` and
`secure_storage_delete` build: `simple_hash(key, hash)`, then
`snprintf(filename, sizeof(filename), "%s/%08x.enc", STORAGE_DIR, *(uint32_t*)hash)`, where
`*(uint32_t*)hash` reads the first four characters of `hash` as a little-endian word. -/
def secure_storage_filename (key : List Nat) : List Nat :=
  let hash := simple_hash key
  STORAGE_DIR ++ c_str "/" ++ fmt_08x (load32_le hash 0) ++ c_str ".enc"

/-- `sovereign_random_bytes(buffer, length)`: the returned `int` and the bytes read into
`buffer`.  `dev` is `none` when `/dev/urandom` does not open, and otherwise holds the bytes
that `read` delivers. -/
def sovereign_random_bytes (dev : Option (List Nat)) (length : Nat) : Nat × List Nat :=
  match dev with
  | none => (0, [])
  | some bytes =>
    let result := (bytes.take length).length
    (if result = length then 1 else 0, bytes.take length)

/-- The globals of `secure_storage.c` and the file system. -/
structure storage_state where
  /-- `g_encryption_key` -/
  g_encryption_key : List Nat
  /-- `g_initialized` -/
  g_initialized : Int
  /-- the contents of each file that exists -/
  files : List Nat → Option (List Nat)

/-- What one call takes from outside the program: the random source and whether the file it
opens for writing opens. -/
structure storage_env where
  /-- what `/dev/urandom` delivers to this call -/
  urandom : Option (List Nat)
  /-- whether `fopen(..., "wb")` succeeds in this call -/
  fopen_wb : Bool

/-- The file system after `path` is opened for writing, `content` written, and the file
closed. -/
def fs_write (files : List Nat → Option (List Nat)) (path content : List Nat) :
    List Nat → Option (List Nat) :=
  fun p => if p = path then some content else files p

/-- The file system after `path` is removed. -/
def fs_remove (files : List Nat → Option (List Nat)) (path : List Nat) :
    List Nat → Option (List Nat) :=
  fun p => if p = path then none else files p

/-- A buffer after `bytes` are read into its start. -/
def buffer_fill (buffer bytes : List Nat) : List Nat :=
  bytes ++ buffer.drop bytes.length

/-- `encrypt_data`: the returned `int`, the ciphertext, the nonce and the tag. -/
def encrypt_data (g_encryption_key : List Nat) (dev : Option (List Nat))
    (plaintext : List Nat) : Nat × List Nat × List Nat × List Nat :=
  let rnd := sovereign_random_bytes dev 12
  if rnd.1 = 0 then (0, [], rnd.2, [])
  else
    let nonce := rnd.2
    let enc := chacha20_poly1305_encrypt g_encryption_key nonce plaintext
    if enc.1 = 0 then (0, enc.2.1, nonce, enc.2.2)
    else (1, enc.2.1, nonce, enc.2.2)

/-- `decrypt_data`: the returned `int` and the bytes written to `plaintext`. -/
def decrypt_data (g_encryption_key ciphertext nonce tag : List Nat) : Nat × List Nat :=
  let dec := chacha20_poly1305_decrypt g_encryption_key nonce ciphertext tag
  if dec.1 = 0 then (0, dec.2) else (1, dec.2)

/-- The part of `secure_storage_initialize` from `// Generate new key` on: the returned
`int` and the state after the call. -/
def secure_storage_generate_key (env : storage_env) (st : storage_state) :
    Int × storage_state :=
  let rnd := sovereign_random_bytes env.urandom 32
  let st := { st with g_encryption_key := buffer_fill st.g_encryption_key rnd.2 }
  if rnd.1 = 0 then (0, st)
  else if env.fopen_wb = false then (0, st)
  else
    let st := { st with files := fs_write st.files KEY_FILE (st.g_encryption_key.take 32) }
    (1, { st with g_initialized := 1 })

/-- `secure_storage_initialize()`: the returned `int` and the state after the call. -/
def secure_storage_initialize (env : storage_env) (st : storage_state) : Int × storage_state :=
  if st.g_initialized ≠ 0 then (1, st)
  else
    match st.files KEY_FILE with
    | some content =>
      let bytes := content.take 32
      let read := bytes.length
      let st := { st with g_encryption_key := buffer_fill st.g_encryption_key bytes }
      if read = 32 then (1, { st with g_initialized := 1 })
      else secure_storage_generate_key env st
    | none => secure_storage_generate_key env st

/-- `secure_storage_store(key, data, data_len)`: the returned `int` and the state after the
call. -/
def secure_storage_store (env : storage_env) (st : storage_state) (key data : List Nat) :
    Int × storage_state :=
  if st.g_initialized = 0 then (-1, st)
  else
    let filename := secure_storage_filename key
    let enc := encrypt_data st.g_encryption_key env.urandom data
    if enc.1 = 0 then (-1, st)
    else
      let encrypted_data := enc.2.1
      let nonce := enc.2.2.1
      let tag := enc.2.2.2
      let encrypted_len := data.length
      if env.fopen_wb = false then (-1, st)
      else
        let content := nonce.take 12 ++ tag.take 16 ++ encrypted_data.take encrypted_len
        let written := (encrypted_data.take encrypted_len).length
        let st1 := { st with files := fs_write st.files filename content }
        if written ≠ encrypted_len then (-1, st1)
        else (0, st1)

set_option linter.unusedVariables false in
/-- `secure_storage_retrieve(key, data, data_len)`: the returned `int` and the bytes written
to `data`, from its start.  The code writes as many bytes as the file has of ciphertext,
whatever `data_len` is. -/
def secure_storage_retrieve (st : storage_state) (key : List Nat) (data_len : Nat) :
    Int × List Nat :=
  if st.g_initialized = 0 then (-1, [])
  else
    let filename := secure_storage_filename key
    match st.files filename with
    | none => (-1, [])
    | some content =>
      let nonce := content.take 12
      let tag := (content.drop 12).take 16
      let file_size : Int := (content.length : Int) - 12 - 16
      if file_size < 0 then (-1, [])
      else
        let encrypted_data := (content.drop 28).take file_size.toNat
        let result := decrypt_data st.g_encryption_key encrypted_data nonce tag
        if result.1 = 0 then (-1, result.2)
        else (0, result.2)

/-- `secure_storage_delete(key)`: the returned `int` and the state after the call. -/
def secure_storage_delete (st : storage_state) (key : List Nat) : Int × storage_state :=
  let filename := secure_storage_filename key
  match st.files filename with
  | none => (-1, st)
  | some _ => (0, { st with files := fs_remove st.files filename })

/-- A call that may follow `secure_storage_initialize` in the life of the process. -/
inductive storage_op where
  /-- `secure_storage_store(key, data, data_len)` in the given environment -/
  | store_call (env : storage_env) (key data : List Nat)
  /-- `secure_storage_retrieve(key, data, data_len)` -/
  | retrieve_call (key : List Nat) (data_len : Nat)
  /-- `secure_storage_delete(key)` -/
  | delete_call (key : List Nat)
  /-- `secure_storage_initialize()` in the given environment -/
  | init_call (env : storage_env)

/-- The state after one call. -/
def storage_step (st : storage_state) : storage_op → storage_state
  | .store_call env key data => (secure_storage_store env st key data).2
  | .retrieve_call _ _ => st
  | .delete_call key => (secure_storage_delete st key).2
  | .init_call env => ( secure_storage_initialize env st).2

/-- The state after a sequence of calls. -/
def storage_run (st : storage_state) (ops : List storage_op) : storage_state :=
  ops.foldl storage_step st

/-- A storage state with the all-zero master key, the flag set and no file. -/
def empty_store : storage_state :=
  { g_encryption_key := List.replicate 32 0, g_initialized := 1, files := fun _ => none }

/-- An environment in which the random source delivers zero bytes and files open. -/
def plain_env : storage_env :=
  { urandom := some (List.replicate 32 0), fopen_wb := true }

/-- The store `empty_store` with a file for the key "k" that holds 31 zero bytes: a nonce, a
tag and three bytes of ciphertext that the tag does not authenticate. -/
def corrupted_store : storage_state :=
  { empty_store with
    files := fs_write empty_store.files (secure_storage_filename (c_str "k"))
      (List.replicate 31 0) }

/-! ## Device identity (`device_identity.c`) -/

/-- `IDENTITY_OK`. -/
def IDENTITY_OK : Int := 0

/-- `IDENTITY_ERROR`. -/
def IDENTITY_ERROR : Int := -1

/-- `IDENTITY_KEY_PRIVATE`. -/
def IDENTITY_KEY_PRIVATE : List Nat := c_str "device_identity_private"

/-- `IDENTITY_KEY_PUBLIC`. -/
def IDENTITY_KEY_PUBLIC : List Nat := c_str "device_identity_public"

/-- The global `g_identity`. -/
structure identity_state where
  /-- `g_identity.private_key` -/
  private_key : List Nat
  /-- `g_identity.public_key` -/
  public_key : List Nat
  /-- `g_identity.loaded` -/
  loaded : Int
deriving DecidableEq, Repr

/-- The value of `g_identity` after `memset(&g_identity, 0, sizeof(g_identity))`. -/
def identity_zero : identity_state :=
  { private_key := List.replicate 32 0, public_key := List.replicate 32 0, loaded := 0 }

/-- What one call of `device_identity_generate` takes from outside the program: the random
source for the seed, and the environment of each of its two calls of
`secure_storage_store`. -/
structure generate_env where
  /-- what `/dev/urandom` delivers for the seed -/
  seed_dev : Option (List Nat)
  /-- the environment of the store of the private key -/
  store_private : storage_env
  /-- the environment of the store of the public key -/
  store_public : storage_env

/-- `device_identity_init()`: the returned `int` and `g_identity` after the call. -/
def device_identity_init (g : identity_state) : Int × identity_state :=
  (IDENTITY_OK, { g with loaded := 0 })

set_option linter.unusedVariables false in
/-- `device_identity_generate()`: the returned `int`, `g_identity` and the storage state
after the call.  On the last path `sha512(g_identity.public_key, 32, fingerprint)` stores 64
bytes on `uint8_t fingerprint[32]`; here the array keeps the 32 bytes that fit, the bytes past
it are dropped and the call returns.  `device_identity_generate_checked` has `none` there. -/
def device_identity_generate (env : generate_env) (g : identity_state) (st : storage_state) :
    Int × identity_state × storage_state :=
  let rnd := sovereign_random_bytes env.seed_dev 32
  if rnd.1 = 0 then (IDENTITY_ERROR, g, st)
  else
    let seed := rnd.2
    let kp := ed25519_create_keypair seed
    let g := { g with public_key := kp.1, private_key := kp.2 }
    let r1 := secure_storage_store env.store_private st IDENTITY_KEY_PRIVATE
      (g.private_key.take 32)
    if r1.1 ≠ 0 then (IDENTITY_ERROR, identity_zero, r1.2)
    else
      let r2 := secure_storage_store env.store_public r1.2 IDENTITY_KEY_PUBLIC
        (g.public_key.take 32)
      if r2.1 ≠ 0 then (IDENTITY_ERROR, identity_zero, r2.2)
      else
        let g := { g with loaded := 1 }
        let fingerprint := (sha512 (g.public_key.take 32)).take 32
        (IDENTITY_OK, g, r2.2)

/-- `device_identity_sign(data, data_len, signature)`: the returned `int` and the bytes
written to `signature`. -/
def device_identity_sign (g : identity_state) (data : List Nat) : Int × List Nat :=
  if g.loaded = 0 then (IDENTITY_ERROR, [])
  else (IDENTITY_OK, ed25519_sign data g.private_key g.public_key)

/-- `device_identity_verify(data, data_len, signature)`: the returned `int`. -/
def device_identity_verify (g : identity_state) (data signature : List Nat) : Int :=
  if g.loaded = 0 then IDENTITY_ERROR
  else
    let result := ed25519_verify signature data g.public_key
    (result : Int)

/-- The public key that `ed25519_create_keypair` derives from the seed of 32 bytes `0x02`. -/
def seed_two_public : List Nat :=
  [23, 17, 32, 231, 44, 212, 71, 129, 42, 99, 121, 74, 111, 225, 216, 165,
   96, 62, 100, 233, 139, 96, 246, 49, 4, 38, 101, 234, 39, 234, 181, 112]

/-- The signature that `ed25519_sign` makes of the four bytes "test" with the keypair of the
seed of 32 bytes `0x02`. -/
def seed_two_signature : List Nat :=
  [194, 36, 126, 85, 32, 156, 93, 206, 122, 154, 11, 179, 96, 124, 48, 102,
   19, 137, 240, 164, 52, 113, 162, 172, 198, 200, 71, 163, 231, 113, 130, 108,
   194, 156, 117, 85, 164, 129, 178, 117, 52, 44, 89, 211, 221, 99, 225, 209,
   93, 189, 0, 82, 196, 70, 243, 161, 77, 123, 38, 239, 82, 37, 154, 11]

/-- An environment of `device_identity_generate` in which the random source delivers 32 bytes
`0x02` for the seed and both stores run in `plain_env`. -/
def generate_env_two : generate_env :=
  { seed_dev := some (List.replicate 32 2), store_private := plain_env,
    store_public := plain_env }

/-- The identity that `device_identity_generate` leaves in memory in `generate_env_two`. -/
def seed_two_identity : identity_state :=
  { private_key := List.replicate 32 2, public_key := seed_two_public, loaded := 1 }

/-! ## Device identity: reading the keypair, loading it, attesting it -/

/-- `device_identity_get_public_key(public_key)`: the returned `int` and the bytes written
to `public_key`. -/
def device_identity_get_public_key (g : identity_state) : Int × List Nat :=
  if g.loaded = 0 then (IDENTITY_ERROR, [])
  else (IDENTITY_OK, g.public_key.take 32)

/-- `device_identity_get_fingerprint(fingerprint)`: the returned `int` and the bytes written
to `fingerprint`. -/
def device_identity_get_fingerprint (g : identity_state) : Int × List Nat :=
  if g.loaded = 0 then (IDENTITY_ERROR, [])
  else
    let hash := sha512 (g.public_key.take 32)
    (IDENTITY_OK, hash.take 32)

/-- `device_identity_create_attestation(attestation, max_len)`: the returned `int` and the
bytes written to `attestation`, from its start.  The values that
`device_identity_get_fingerprint` and `device_identity_sign` return are not looked at. -/
def device_identity_create_attestation (g : identity_state) (max_len : Nat) : Int × List Nat :=
  if g.loaded = 0 then (IDENTITY_ERROR, [])
  else
    let attestation_message := c_str "SovereignDroid.Attestation"
    let message_len := attestation_message.length
    let required_len := 32 + 32 + 64
    if max_len < required_len then (IDENTITY_ERROR, [])
    else
      let attestation := g.public_key.take 32
      let fingerprint := (device_identity_get_fingerprint g).2
      let attestation := attestation ++ fingerprint.take 32
      let signature := (device_identity_sign g (attestation_message.take message_len)).2
      let attestation := attestation ++ signature.take 64
      ((required_len : Nat), attestation)

/-- An environment of `device_identity_generate` in which the random source delivers 32 bytes
`0x02` for the seed and no byte for the nonce of the first store. -/
def generate_env_no_nonce : generate_env :=
  { seed_dev := some (List.replicate 32 2),
    store_private := { urandom := none, fopen_wb := true },
    store_public := plain_env }

/-- A context that has taken `2^61 - 1` bytes: its bit count is `2^64 - 8`. -/
def sha512_ctx_carry : sha512_ctx :=
  { state := (sha512_init sha512_ctx_local).state, count := [2 ^ 64 - 8, 0],
    buffer := List.replicate 128 0 }

/-! ## Poly1305 with every index into a local array checked against the declared size -/

/-- The read `a[i]` of a local array, `none` when `i` is not below the declared size. -/
def load_checked (a : List Nat) (i : Nat) : Option Nat :=
  if i < a.length then some (a.getD i 0) else none

/-- The write `a[i] = v` to a local array, `none` when `i` is not below the declared size. -/
def store_checked (a : List Nat) (i v : Nat) : Option (List Nat) :=
  if i < a.length then some (a.set i v) else none

/-- The loop of `poly1305_load_block` with `block[j / 4]` checked on `uint32_t block[4]`. -/
def poly1305_load_block_checked (chunk : List Nat) : Option (List Nat) :=
  (List.range chunk.length).foldl
    (fun block j =>
      block.bind fun block =>
        (load_checked block (j / 4)).bind fun old =>
          store_checked block (j / 4) (old ||| ((chunk.getD j 0 <<< ((j % 4) * 8)) % 2 ^ 32)))
    (some [0, 0, 0, 0])

/-- The statement `block[block_size / 4] |= ((uint32_t)1) << ((block_size % 4) * 8)` with the
index checked. -/
def poly1305_pad_block_checked (block : List Nat) (block_size : Nat) : Option (List Nat) :=
  (load_checked block (block_size / 4)).bind fun old =>
    store_checked block (block_size / 4) (old ||| ((1 <<< ((block_size % 4) * 8)) % 2 ^ 32))

/-- The carry loop of `poly1305_add_words` with `h[j]` and `x[j]` checked. -/
def poly1305_add_words_checked (h x : List Nat) : Option (List Nat × Nat) :=
  (List.range 4).foldl
    (fun hc j =>
      hc.bind fun hc =>
        (load_checked hc.1 j).bind fun hj =>
          (load_checked x j).bind fun xj =>
            let sum := (hj + xj + hc.2) % 2 ^ 64
            (store_checked hc.1 j (sum &&& 0xFFFFFFFF)).map fun h => (h, (sum >>> 32) % 2 ^ 32))
    (some (h, 0))

/-- The statement `mul[j + k] += (uint64_t)h[j] * r[k]` with `mul[j + k]`, `h[j]` and `r[k]`
checked on `uint64_t mul[5]`, `uint32_t h[5]` and `uint32_t r[5]`; `none` stays `none`. -/
def poly1305_mul_step_checked (h r : List Nat) (j : Nat) (mul : Option (List Nat)) (k : Nat) :
    Option (List Nat) :=
  mul.bind fun mul =>
    (load_checked h j).bind fun hj =>
      (load_checked r k).bind fun rk =>
        (load_checked mul (j + k)).bind fun old =>
          store_checked mul (j + k) ((old + (hj * rk) % 2 ^ 64) % 2 ^ 64)

/-- The double loop of `poly1305_mul_words`, every index checked. -/
def poly1305_mul_words_checked (h r : List Nat) : Option (List Nat) :=
  (List.range 4).foldl
    (fun mul j => (List.range 4).foldl (poly1305_mul_step_checked h r j) mul)
    (some [0, 0, 0, 0, 0])

/-- The carry loop of `poly1305_carry_words` with `mul[j]` and `h[j]` checked. -/
def poly1305_carry_words_checked (h mul : List Nat) : Option (List Nat × Nat) :=
  (List.range 5).foldl
    (fun hc j =>
      hc.bind fun hc =>
        (load_checked mul j).bind fun mj =>
          let sum := (mj + hc.2) % 2 ^ 64
          (store_checked hc.1 j (sum &&& 0xFFFFFFFF)).map fun h => (h, (sum >>> 32) % 2 ^ 32))
    (some (h, 0))

/-- One pass of the block loop as in `poly1305_block_step`, every index checked. -/
def poly1305_block_step_checked (r h chunk : List Nat) : Option (List Nat) :=
  let block_size := chunk.length
  (poly1305_load_block_checked chunk).bind fun block =>
  (poly1305_pad_block_checked block block_size).bind fun block =>
  (poly1305_add_words_checked h block).bind fun hc =>
  (load_checked hc.1 4).bind fun h4 =>
  (store_checked hc.1 4 ((h4 + hc.2) % 2 ^ 32)).bind fun h =>
  (poly1305_mul_words_checked h r).bind fun mul =>
  (poly1305_carry_words_checked h mul).bind fun hc =>
  (load_checked hc.1 4).bind fun h4 =>
  (store_checked hc.1 4 (h4 &&& 3)).bind fun h =>
  (load_checked h 0).bind fun h0 =>
  store_checked h 0 ((h0 + ((h4 >>> 2) * 5) % 2 ^ 32) % 2 ^ 32)

/-- The block loop as in `poly1305_blocks`, every index checked. -/
def poly1305_blocks_checked (r : List Nat) : Nat → List Nat → List Nat → Option (List Nat)
  | 0, h, _ => some h
  | fuel + 1, h, message =>
    if 0 < message.length then
      let block_size := if message.length > 16 then 16 else message.length
      (poly1305_block_step_checked r h (message.take block_size)).bind fun h =>
        poly1305_blocks_checked r fuel h (message.drop block_size)
    else some h

/-- `poly1305_authenticate` with every index into `block`, `mul`, `h`, `r` and `s` checked:
the sixteen bytes of the tag, or `none` when an index is out of range. -/
def poly1305_authenticate_checked (key message : List Nat) : Option (List Nat) :=
  let r := [load32_le key 0 &&& 0x0FFFFFFF, load32_le key 4 &&& 0x0FFFFFFC,
            load32_le key 8 &&& 0x0FFFFFFC, load32_le key 12 &&& 0x0FFFFFFC, 0]
  let s := (List.range 4).map (fun i => load32_le key (16 + i * 4))
  let h := [0, 0, 0, 0, 0]
  (poly1305_blocks_checked r message.length h message).bind fun h =>
  (poly1305_add_words_checked h s).bind fun hc =>
  (List.range 4).foldr
    (fun i acc => acc.bind fun acc => (load_checked hc.1 i).map fun hi => store32_le hi ++ acc)
    (some [])

/-! ## The signature scalar as the specification states it -/

/-- The order `L` of the base point that the specification names,
`2^252 + 27742317777372353535851937790883648493`; the source has no such constant. -/
def group_order_L : Nat := 2 ^ 252 + 27742317777372353535851937790883648493

/-- What the specification says `sc_reduce` returns: its 512-bit input modulo `L`, as 32
bytes, least significant first. -/
def sc_reduce_reference (x : List Nat) : List Nat :=
  nat_to_le_bytes (le_bytes_to_nat x % group_order_L) 32

/-- What the specification says `sc_muladd(a, b, c)` returns: `(a * b + c) mod L`, as 32 bytes,
least significant first. -/
def sc_muladd_reference (a b c : List Nat) : List Nat :=
  nat_to_le_bytes
    ((le_bytes_to_nat a * le_bytes_to_nat b + le_bytes_to_nat c) % group_order_L) 32

/-- The 32 bytes of `L`, least significant first. -/
def group_order_bytes : List Nat :=
  [237, 211, 245, 92, 26, 99, 18, 88, 214, 156, 247, 162, 222, 249, 222, 20] ++
    List.replicate 15 0 ++ [16]

/-- The clamped `sha512` of the private key of 32 bytes `0x02`: the array `hash` of
`ed25519_sign`. -/
def seed_two_hash : List Nat :=
  [168, 60, 98, 107, 201, 195, 140, 140, 32, 24, 120, 235, 177, 213, 176, 181,
   10, 196, 14, 137, 134, 199, 135, 147, 219, 29, 78, 243, 105, 252, 161, 78,
   103, 189, 181, 12, 19, 138, 173, 143, 227, 230, 83, 158, 84, 245, 78, 16,
   249, 163, 35, 153, 82, 154, 115, 43, 227, 210, 36, 59, 134, 127, 106, 204]

/-- The array `r` of `ed25519_sign` after `sc_reduce(r)`, for the private key of 32 bytes
`0x02` and the message "test". -/
def seed_two_nonce : List Nat :=
  [77, 24, 94, 203, 130, 233, 13, 109, 90, 203, 237, 166, 151, 0, 30, 178,
   139, 242, 3, 55, 84, 71, 160, 152, 74, 39, 6, 206, 66, 237, 102, 13,
   200, 3, 161, 141, 127, 208, 46, 74, 246, 215, 72, 253, 47, 207, 9, 4,
   195, 42, 172, 141, 136, 200, 80, 139, 221, 239, 171, 236, 157, 218, 51, 169]

/-- The array `hram` of `ed25519_sign` after `sc_reduce(hram)`, for the keypair of the seed
of 32 bytes `0x02` and the message "test". -/
def seed_two_challenge : List Nat :=
  [179, 158, 69, 23, 90, 0, 158, 130, 174, 1, 41, 107, 241, 196, 152, 151,
   69, 86, 162, 151, 67, 11, 57, 46, 5, 171, 196, 169, 175, 32, 93, 67,
   247, 62, 175, 197, 105, 24, 190, 164, 139, 228, 17, 86, 233, 84, 19, 164,
   152, 173, 64, 65, 107, 173, 34, 205, 170, 220, 55, 150, 136, 233, 117, 244]

/-! ## Stores of whole byte strings, checked; `char` as a signed type -/

/-- The value that `input[i]` adds to the `unsigned int hash` of `simple_hash` where `char`
is a signed type, as on the x86 ABIs: a byte from `0x80` on is negative and is converted
modulo `2^32`. -/
def char_value_signed (c : Nat) : Nat :=
  if c < 128 then c else 2 ^ 32 - 256 + c

/-- `simple_hash` where `char` is a signed type. -/
def simple_hash_signed (input : List Nat) : List Nat :=
  let hash := input.foldl
    (fun hash c => ((hash * 31 + char_value_signed c) % 2 ^ 32) &&& 0xFFFFFFFF) 0
  fmt_08x hash

/-! ## ChaCha20: supporting lemmas -/

theorem store32_le_length (w : Nat) : (store32_le w).length = 4 := rfl

theorem ks_bytes_length (ws : List Nat) : (ks_bytes ws).length = 4 * ws.length := by
  induction ws with
  | nil => rfl
  | cons w ws ih =>
    simp only [ks_bytes, List.foldr_cons, List.length_append, List.length_cons] at ih ⊢
    rw [ih]; simp [store32_le]; omega

theorem chacha20_block_length (key nonce : List Nat) (c : Nat) :
    (chacha20_block key nonce c).length = 16 := by
  simp [chacha20_block]

theorem chacha20_block_counter_mod (key nonce : List Nat) (c : Nat) :
    chacha20_block key nonce (c % 2 ^ 32) = chacha20_block key nonce c := by
  simp [chacha20_block, chacha20_init_state]

theorem keystream_length (key nonce : List Nat) (c : Nat) :
    (ks_bytes (chacha20_block key nonce c)).length = 64 := by
  rw [ks_bytes_length, chacha20_block_length]

theorem chacha20_xor_block_getElem? (key nonce : List Nat) (c : Nat) (input : List Nat)
    (i : Nat) (hi : i < 64) :
    (chacha20_xor_block (ks_bytes (chacha20_block key nonce c)) input)[i]? =
      (input[i]?).map (fun b => b ^^^ keystream_byte key nonce c i) := by
  have hk := keystream_length key nonce c
  have hks : (ks_bytes (chacha20_block key nonce c))[i]? = some (keystream_byte key nonce c i) := by
    rw [keystream_byte, List.getD_eq_getElem?_getD, List.getElem?_eq_getElem (by omega)]
    rfl
  rw [chacha20_xor_block, List.getElem?_zipWith, hks, List.getElem?_take_of_lt hi]
  cases input[i]? <;> rfl


theorem chacha20_xor_block_length (key nonce : List Nat) (c : Nat) (input : List Nat) :
    (chacha20_xor_block (ks_bytes (chacha20_block key nonce c)) input).length =
      min 64 input.length := by
  have hk := keystream_length key nonce c
  simp only [chacha20_xor_block, List.length_zipWith, List.length_take, hk]
  omega

theorem chacha20_encrypt_loop_nil (key nonce : List Nat) (fuel c : Nat) :
    chacha20_encrypt_loop key nonce fuel c [] = [] := by
  cases fuel <;> simp [chacha20_encrypt_loop]

theorem chacha20_encrypt_loop_succ (key nonce : List Nat) (fuel c : Nat) (input : List Nat)
    (h : 0 < input.length) :
    chacha20_encrypt_loop key nonce (fuel + 1) c input =
      chacha20_xor_block (ks_bytes (chacha20_block key nonce c)) input ++
        chacha20_encrypt_loop key nonce fuel ((c + 1) % 2 ^ 32) (input.drop 64) := by
  simp only [chacha20_encrypt_loop, h, if_true]

theorem chacha20_encrypt_loop_getElem? (key nonce : List Nat) :
    ∀ (fuel c : Nat) (input : List Nat), input.length ≤ fuel → ∀ i : Nat,
      (chacha20_encrypt_loop key nonce fuel c input)[i]? =
        (input[i]?).map (fun b => b ^^^ keystream_byte key nonce ((c + i / 64) % 2 ^ 32) (i % 64)) := by
  intro fuel
  induction fuel with
  | zero =>
    intro c input h i
    have : input = [] := List.length_eq_zero.mp (by omega)
    subst this
    rw [chacha20_encrypt_loop_nil]
    simp only [List.getElem?_nil, Option.map_none']
  | succ fuel ih =>
    intro c input h i
    by_cases hpos : 0 < input.length
    · have hlen := chacha20_xor_block_length key nonce c input
      have hdrop : (input.drop 64).length ≤ fuel := by
        simp only [List.length_drop]; omega
      rw [chacha20_encrypt_loop_succ key nonce fuel c input hpos]
      by_cases hil : i < input.length
      · by_cases hi : i < 64
        · rw [List.getElem?_append_left (by rw [hlen]; omega),
            chacha20_xor_block_getElem? key nonce c input i hi]
          have h1 : i / 64 = 0 := by omega
          have h2 : i % 64 = i := by omega
          simp only [h1, h2, Nat.add_zero, keystream_byte, chacha20_block_counter_mod]
        · have hm : min 64 input.length = 64 := by omega
          rw [List.getElem?_append_right (by rw [hlen]; omega), hlen, hm,
            ih ((c + 1) % 2 ^ 32) (input.drop 64) hdrop (i - 64)]
          have h1 : (i - 64) / 64 = i / 64 - 1 := by omega
          have h2 : (i - 64) % 64 = i % 64 := by omega
          have h3 : ((c + 1) % 2 ^ 32 + (i / 64 - 1)) % 2 ^ 32 = (c + i / 64) % 2 ^ 32 := by
            have : 1 ≤ i / 64 := by omega
            omega
          have h4 : 64 + (i - 64) = i := by omega
          rw [h1, h2, h3, List.getElem?_drop, h4]
      · have hnone : input[i]? = none := List.getElem?_eq_none (by omega)
        rw [hnone, Option.map_none']
        apply List.getElem?_eq_none
        have hrest := ih ((c + 1) % 2 ^ 32) (input.drop 64) hdrop
        have hrl : (chacha20_encrypt_loop key nonce fuel ((c + 1) % 2 ^ 32)
            (input.drop 64)).length ≤ (input.drop 64).length := by
          by_contra hlt
          have h5 := hrest (input.drop 64).length
          rw [List.getElem?_eq_getElem (by omega), List.getElem?_eq_none (Nat.le_refl _)] at h5
          simp at h5
        rw [List.length_append, hlen]
        simp only [List.length_drop] at hrl
        omega
    · have : input = [] := List.length_eq_zero.mp (by omega)
      subst this
      rw [chacha20_encrypt_loop_nil]
      simp only [List.getElem?_nil, Option.map_none']

theorem chacha20_encrypt_getElem? (key nonce : List Nat) (c : Nat) (x : List Nat) (i : Nat) :
    (chacha20_encrypt key nonce c x)[i]? =
      (x[i]?).map (fun b => b ^^^ keystream_byte key nonce ((c + i / 64) % 2 ^ 32) (i % 64)) := by
  rw [chacha20_encrypt, chacha20_encrypt_loop_getElem? key nonce _ _ _ (Nat.le_refl _)]
  have : (c % 2 ^ 32 + i / 64) % 2 ^ 32 = (c + i / 64) % 2 ^ 32 := by omega
  rw [this]

theorem chacha20_encrypt_length (key nonce : List Nat) (c : Nat) (x : List Nat) :
    (chacha20_encrypt key nonce c x).length = x.length := by
  apply Nat.le_antisymm
  · by_contra hlt
    have h := chacha20_encrypt_getElem? key nonce c x x.length
    rw [List.getElem?_eq_getElem (by omega), List.getElem?_eq_none (Nat.le_refl _)] at h
    simp at h
  · by_contra hlt
    have h := chacha20_encrypt_getElem? key nonce c x (chacha20_encrypt key nonce c x).length
    rw [List.getElem?_eq_none (Nat.le_refl _), List.getElem?_eq_getElem (by omega)] at h
    simp at h

theorem chacha20_encrypt_involutive (key nonce : List Nat) (c : Nat) (x : List Nat) :
    chacha20_encrypt key nonce c (chacha20_encrypt key nonce c x) = x := by
  apply List.ext_getElem?
  intro i
  rw [chacha20_encrypt_getElem?, chacha20_encrypt_getElem?]
  cases x[i]? with
  | none => rfl
  | some b => simp [Nat.xor_assoc]


/-! ## ChaCha20-Poly1305: supporting lemmas -/

theorem nat_or_eq_zero (a b : Nat) : a ||| b = 0 ↔ a = 0 ∧ b = 0 := by
  constructor
  · intro h
    have hb : ∀ i, (a.testBit i || b.testBit i) = false := by
      intro i
      rw [← Nat.testBit_or, h, Nat.zero_testBit]
    constructor
    · apply Nat.eq_of_testBit_eq
      intro i
      have := hb i
      rw [Nat.zero_testBit]
      cases hx : a.testBit i
      · rfl
      · rw [hx] at this; simp at this
    · apply Nat.eq_of_testBit_eq
      intro i
      have := hb i
      rw [Nat.zero_testBit]
      cases hx : b.testBit i
      · rfl
      · rw [hx] at this; simp at this
  · rintro ⟨rfl, rfl⟩
    rfl

theorem foldl_or_eq_zero (f : Nat → Nat) (l : List Nat) (a : Nat) :
    l.foldl (fun acc i => acc ||| f i) a = 0 ↔ a = 0 ∧ ∀ i ∈ l, f i = 0 := by
  induction l generalizing a with
  | nil => simp
  | cons x xs ih =>
    rw [List.foldl_cons, ih, nat_or_eq_zero]
    simp only [List.mem_cons, forall_eq_or_imp]
    tauto

theorem tag_match_eq_zero (tag computed_tag : List Nat) :
    tag_match tag computed_tag = 0 ↔ ∀ i, i < 16 → tag.getD i 0 = computed_tag.getD i 0 := by
  rw [tag_match, foldl_or_eq_zero]
  simp only [true_and, List.mem_range, Nat.xor_eq_zero]

theorem tag_match_self (tag : List Nat) : tag_match tag tag = 0 :=
  (tag_match_eq_zero tag tag).mpr (fun _ _ => rfl)

theorem foldr_store32_le_length (f : Nat → Nat) (l : List Nat) :
    (l.foldr (fun i acc => store32_le (f i) ++ acc) []).length = 4 * l.length := by
  induction l with
  | nil => rfl
  | cons x xs ih =>
    rw [List.foldr_cons, List.length_append, ih, store32_le_length, List.length_cons]
    omega

theorem poly1305_authenticate_length (key message : List Nat) :
    (poly1305_authenticate key message).length = 16 := by
  simp only [poly1305_authenticate]
  rw [foldr_store32_le_length, List.length_range]

theorem tag_match_eq_zero_iff_eq (tag computed_tag : List Nat) (h1 : tag.length = 16)
    (h2 : computed_tag.length = 16) : tag_match tag computed_tag = 0 ↔ tag = computed_tag := by
  rw [tag_match_eq_zero]
  constructor
  · intro h
    apply List.ext_getElem (by omega)
    intro i hi hi2
    have := h i (by omega)
    rw [List.getD_eq_getElem?_getD, List.getD_eq_getElem?_getD, List.getElem?_eq_getElem hi,
      List.getElem?_eq_getElem hi2] at this
    exact this
  · rintro rfl i _
    rfl

theorem poly_key_gen_eq (key nonce : List Nat) :
    poly_key_gen key nonce = (ks_bytes (chacha20_block key nonce 0)).take 32 := by
  apply List.ext_getElem?
  intro i
  rw [poly_key_gen, chacha20_encrypt_getElem?]
  have hk := keystream_length key nonce 0
  by_cases hi : i < 32
  · have h1 : i / 64 = 0 := by omega
    have h2 : i % 64 = i := by omega
    rw [List.getElem?_take_of_lt hi, List.getElem?_eq_getElem (by simp; omega),
      List.getElem?_eq_getElem (by omega), h1, h2]
    simp only [List.getElem_replicate, Option.map_some', Nat.zero_xor, keystream_byte,
      chacha20_block_counter_mod, Nat.zero_add]
    rw [List.getD_eq_getElem?_getD, List.getElem?_eq_getElem (by omega)]
    rfl
  · rw [List.getElem?_eq_none (by simp; omega), List.getElem?_eq_none (by simp; omega)]
    rfl


theorem chacha20_poly1305_decrypt_fst (key nonce ciphertext tag : List Nat) :
    (chacha20_poly1305_decrypt key nonce ciphertext tag).1 =
      if tag_match tag (poly1305_authenticate (poly_key_gen key nonce) ciphertext) ≠ 0
      then 0 else 1 := by
  simp only [chacha20_poly1305_decrypt]
  split <;> rfl

/-! ## Claims C1, C3, C4, C5, C8, C9 -/

/-- C1. AEAD round trip: decrypting the ciphertext and tag that
`chacha20_poly1305_encrypt` produced for `m`, under the same key and nonce, returns 1 and the
plaintext `m`; this holds for every key, nonce and plaintext, the empty one included. -/
theorem aead_round_trip (key nonce m : List Nat) :
    chacha20_poly1305_decrypt key nonce (chacha20_poly1305_encrypt key nonce m).2.1
      (chacha20_poly1305_encrypt key nonce m).2.2 = (1, m) := by
  simp only [chacha20_poly1305_encrypt, chacha20_poly1305_decrypt, tag_match_self, ne_eq,
    not_true_eq_false, if_false, chacha20_encrypt_involutive]

/-- C3. Verify before decrypt: for a 16-byte tag, `chacha20_poly1305_decrypt` returns 1
exactly when the tag equals, byte for byte, the Poly1305 tag of the ciphertext under the first
32 bytes of keystream block 0; and when it returns 1 the plaintext is `chacha20_encrypt` of
the ciphertext from counter 1. -/
theorem decrypt_verifies_before_decrypting (key nonce ct tag : List Nat)
    (htag : tag.length = 16) :
    ((chacha20_poly1305_decrypt key nonce ct tag).1 = 1 ↔
        tag = poly1305_authenticate ((ks_bytes (chacha20_block key nonce 0)).take 32) ct) ∧
      ((chacha20_poly1305_decrypt key nonce ct tag).1 = 1 →
        (chacha20_poly1305_decrypt key nonce ct tag).2 = chacha20_encrypt key nonce 1 ct) := by
  have hiff := tag_match_eq_zero_iff_eq tag
    (poly1305_authenticate (poly_key_gen key nonce) ct) htag
    (poly1305_authenticate_length _ _)
  constructor
  · rw [chacha20_poly1305_decrypt_fst, ← poly_key_gen_eq, ← hiff]
    split <;> simp_all
  · intro h
    rw [chacha20_poly1305_decrypt_fst] at h
    simp only [chacha20_poly1305_decrypt]
    split at h
    · simp at h
    · rename_i hne
      rw [if_neg hne]

/-- C4. No plaintext on authentication failure: whenever `chacha20_poly1305_decrypt`
returns 0, the plaintext buffer holds `ciphertext_len` zero bytes. -/
theorem decrypt_failure_zeroes_plaintext (key nonce ct tag : List Nat)
    (h : (chacha20_poly1305_decrypt key nonce ct tag).1 = 0) :
    (chacha20_poly1305_decrypt key nonce ct tag).2 = List.replicate ct.length 0 := by
  rw [chacha20_poly1305_decrypt_fst] at h
  simp only [chacha20_poly1305_decrypt]
  split at h
  · rename_i hne
    rw [if_pos hne]
  · simp at h

/-- C5. AEAD encryption: `chacha20_poly1305_encrypt` returns 1; the ciphertext has the
length of the plaintext and is `chacha20_encrypt` of it from counter 1; the tag is
`poly1305_authenticate` of the ciphertext alone under the first 32 bytes of the keystream
block for counter 0. -/
theorem encrypt_construction (key nonce m : List Nat) :
    (chacha20_poly1305_encrypt key nonce m).1 = 1 ∧
      (chacha20_poly1305_encrypt key nonce m).2.1.length = m.length ∧
      (chacha20_poly1305_encrypt key nonce m).2.1 = chacha20_encrypt key nonce 1 m ∧
      (chacha20_poly1305_encrypt key nonce m).2.2 =
        poly1305_authenticate ((ks_bytes (chacha20_block key nonce 0)).take 32)
          (chacha20_encrypt key nonce 1 m) := by
  refine ⟨rfl, ?_, rfl, ?_⟩
  · exact chacha20_encrypt_length key nonce 1 m
  · simp only [chacha20_poly1305_encrypt, poly_key_gen_eq]

/-- C8. ChaCha20 stream: the output of `chacha20_encrypt` has the length of the input `x`;
its byte `i` is `x[i]` XOR byte `i mod 64` of the little-endian serialisation of
`chacha20_block(key, nonce, (c + i / 64) mod 2^32)`, and there is no byte `i` beyond the
input; the empty input gives the empty output. -/
theorem chacha20_encrypt_stream (key nonce : List Nat) (c : Nat) (x : List Nat) :
    (chacha20_encrypt key nonce c x).length = x.length ∧
      (∀ i : Nat, (chacha20_encrypt key nonce c x)[i]? =
        (x[i]?).map (fun b =>
          b ^^^ (ks_bytes (chacha20_block key nonce ((c + i / 64) % 2 ^ 32))).getD (i % 64) 0)) ∧
      chacha20_encrypt key nonce c [] = [] :=
  ⟨chacha20_encrypt_length key nonce c x, chacha20_encrypt_getElem? key nonce c x, rfl⟩

/-- C9. ChaCha20 involution: applying `chacha20_encrypt` twice with the same key, nonce and
counter gives back the input. -/
theorem chacha20_encrypt_twice (key nonce : List Nat) (c : Nat) (x : List Nat) :
    chacha20_encrypt key nonce c (chacha20_encrypt key nonce c x) = x :=
  chacha20_encrypt_involutive key nonce c x


theorem decrypt_fst_eq_one_iff (key nonce ct tag : List Nat) (htag : tag.length = 16) :
    (chacha20_poly1305_decrypt key nonce ct tag).1 = 1 ↔
      tag = poly1305_authenticate (poly_key_gen key nonce) ct := by
  rw [chacha20_poly1305_decrypt_fst,
    ← tag_match_eq_zero_iff_eq tag _ htag (poly1305_authenticate_length _ _)]
  split <;> simp_all

theorem decrypt_fst_zero_or_one (key nonce ct tag : List Nat) :
    (chacha20_poly1305_decrypt key nonce ct tag).1 = 0 ∨
      (chacha20_poly1305_decrypt key nonce ct tag).1 = 1 := by
  rw [chacha20_poly1305_decrypt_fst]
  split
  · exact Or.inl rfl
  · exact Or.inr rfl

theorem flip_bit_ne (buf : List Nat) (byte bit : Nat) (h : byte < buf.length) :
    flip_bit buf byte bit ≠ buf := by
  intro heq
  have h1 : (flip_bit buf byte bit)[byte]? = buf[byte]? := by rw [heq]
  rw [flip_bit, List.getElem?_set_self h, List.getD_eq_getElem?_getD,
    List.getElem?_eq_getElem h] at h1
  simp only [Option.getD_some, Option.some.injEq] at h1
  have h2 : buf[byte] ^^^ (buf[byte] ^^^ 1 <<< bit) = buf[byte] ^^^ buf[byte] := by rw [h1]
  rw [← Nat.xor_assoc, Nat.xor_self, Nat.zero_xor, Nat.one_shiftLeft] at h2
  have := Nat.two_pow_pos bit
  omega

/-- The part of C2 that concerns the tag: after encryption, a tag with any one bit flipped
is rejected, whatever the key, nonce and plaintext. -/
theorem decrypt_rejects_flipped_tag (key nonce m : List Nat) (byte bit : Nat) (h : byte < 16) :
    (chacha20_poly1305_decrypt key nonce (chacha20_poly1305_encrypt key nonce m).2.1
      (flip_bit (chacha20_poly1305_encrypt key nonce m).2.2 byte bit)).1 = 0 := by
  have hlen : (chacha20_poly1305_encrypt key nonce m).2.2.length = 16 :=
    poly1305_authenticate_length _ _
  have hne := flip_bit_ne (chacha20_poly1305_encrypt key nonce m).2.2 byte bit (by omega)
  have hflen : (flip_bit (chacha20_poly1305_encrypt key nonce m).2.2 byte bit).length = 16 := by
    rw [flip_bit, List.length_set, hlen]
  rcases decrypt_fst_zero_or_one key nonce (chacha20_poly1305_encrypt key nonce m).2.1
    (flip_bit (chacha20_poly1305_encrypt key nonce m).2.2 byte bit) with h0 | h1
  · exact h0
  · exact absurd ((decrypt_fst_eq_one_iff _ _ _ _ hflen).mp h1) hne

/-! ## Claims C2, C6, C7 and the witnesses of C3, C4 -/

/-- Witness of C3 at the all-zero key and nonce, the ciphertext `[1, 2, 3]` and an all-zero
tag. -/
theorem decrypt_verifies_before_decrypting_witness :
    (List.replicate 16 0).length = 16 ∧
    (((chacha20_poly1305_decrypt zero_key zero_nonce [1, 2, 3] (List.replicate 16 0)).1 = 1 ↔
        List.replicate 16 0 =
          poly1305_authenticate ((ks_bytes (chacha20_block zero_key zero_nonce 0)).take 32)
            [1, 2, 3]) ∧
      ((chacha20_poly1305_decrypt zero_key zero_nonce [1, 2, 3] (List.replicate 16 0)).1 = 1 →
        (chacha20_poly1305_decrypt zero_key zero_nonce [1, 2, 3] (List.replicate 16 0)).2 =
          chacha20_encrypt zero_key zero_nonce 1 [1, 2, 3])) :=
  ⟨by decide,
    decrypt_verifies_before_decrypting zero_key zero_nonce [1, 2, 3] (List.replicate 16 0)
      (by decide)⟩

set_option maxRecDepth 100000 in
/-- Witness of C4: at the all-zero key and nonce, the ciphertext `[1, 2, 3]` with an all-zero
tag is rejected and the plaintext buffer is three zero bytes. -/
theorem decrypt_failure_zeroes_plaintext_witness :
    (chacha20_poly1305_decrypt zero_key zero_nonce [1, 2, 3] (List.replicate 16 0)).1 = 0 ∧
      (chacha20_poly1305_decrypt zero_key zero_nonce [1, 2, 3] (List.replicate 16 0)).2 =
        List.replicate 3 0 :=
  ⟨by decide!,
    decrypt_failure_zeroes_plaintext zero_key zero_nonce [1, 2, 3] (List.replicate 16 0)
      (by decide!)⟩

set_option maxRecDepth 100000 in
/-- C2, at a failing input.  Under the all-zero key and `weak_nonce`, sixteen zero bytes
encrypt to the ciphertext and tag shown; with bit 7 of ciphertext byte 15 flipped and the tag
unchanged, `chacha20_poly1305_decrypt` returns 1 and a plaintext that differs from the
original in its last byte, whereas Poly1305 as specified gives the two ciphertexts different
tags under the same one-time key. -/
theorem aead_accepts_flipped_ciphertext_bit :
    chacha20_poly1305_encrypt zero_key weak_nonce (List.replicate 16 0) =
        (1, [159, 161, 173, 160, 186, 42, 249, 0, 130, 185, 58, 119, 155, 74, 96, 116],
          [238, 51, 58, 184, 223, 179, 51, 113, 108, 255, 169, 21, 45, 159, 93, 70]) ∧
      chacha20_poly1305_decrypt zero_key weak_nonce
          (flip_bit [159, 161, 173, 160, 186, 42, 249, 0, 130, 185, 58, 119, 155, 74, 96, 116] 15 7)
          [238, 51, 58, 184, 223, 179, 51, 113, 108, 255, 169, 21, 45, 159, 93, 70] =
        (1, [0, 0, 0, 0, 0, 0, 0, 0, 0, 0, 0, 0, 0, 0, 0, 128]) ∧
      poly1305_reference (poly_key_gen zero_key weak_nonce)
          (flip_bit [159, 161, 173, 160, 186, 42, 249, 0, 130, 185, 58, 119, 155, 74, 96, 116] 15 7) ≠
        poly1305_reference (poly_key_gen zero_key weak_nonce)
          [159, 161, 173, 160, 186, 42, 249, 0, 130, 185, 58, 119, 155, 74, 96, 116] := by
  decide!

set_option maxRecDepth 100000 in
/-- C6, at the vector of RFC 8439 section 2.5.2: `poly1305_authenticate` returns the tag
`95d0bd0864050ba56e08c4a4e2d32c43`, while the computation the claim describes gives the
published tag `a8061dc1305136c6c22b8baf0c0127a9`. -/
theorem poly1305_rfc8439_vector_mismatch :
    poly1305_authenticate rfc8439_poly1305_key rfc8439_poly1305_message =
        [0x95, 0xd0, 0xbd, 0x08, 0x64, 0x05, 0x0b, 0xa5, 0x6e, 0x08, 0xc4, 0xa4, 0xe2, 0xd3, 0x2c,
         0x43] ∧
      poly1305_reference rfc8439_poly1305_key rfc8439_poly1305_message =
        [0xa8, 0x06, 0x1d, 0xc1, 0x30, 0x51, 0x36, 0xc6, 0xc2, 0x2b, 0x8b, 0xaf, 0x0c, 0x01, 0x27,
         0xa9] := by
  decide!

set_option maxRecDepth 100000 in
/-- C7. ChaCha20 block test vector: the block for the all-zero key, the all-zero nonce and
counter 0, serialised as sixteen little-endian 32-bit words, is the keystream published in
RFC 8439. -/
theorem chacha20_block_zero_vector :
    ks_bytes (chacha20_block zero_key zero_nonce 0) =
      [0x76, 0xb8, 0xe0, 0xad, 0xa0, 0xf1, 0x3d, 0x90, 0x40, 0x5d, 0x6a, 0xe5, 0x53, 0x86, 0xbd, 0x28,
       0xbd, 0xd2, 0x19, 0xb8, 0xa0, 0x8d, 0xed, 0x1a, 0xa8, 0x36, 0xef, 0xcc, 0x8b, 0x77, 0x0d, 0xc7,
       0xda, 0x41, 0x59, 0x7c, 0x51, 0x57, 0x48, 0x8d, 0x77, 0x24, 0xe0, 0x3f, 0xb8, 0xd8, 0x4a, 0x37,
       0x6a, 0x43, 0xb8, 0xf4, 0x15, 0x18, 0xa1, 0x1c, 0xc3, 0x87, 0xb6, 0x69, 0xb2, 0xee, 0x65, 0x86] := by
  decide!

/-! ## SHA-512: supporting lemmas -/

theorem foldr_store64_length (f : Nat → Nat) (l : List Nat) :
    (l.foldr (fun i acc => store64 (f i) ++ acc) []).length = 8 * l.length := by
  induction l with
  | nil => rfl
  | cons x xs ih =>
    rw [List.foldr_cons, List.length_append, ih, List.length_cons]
    simp only [store64, List.length_cons, List.length_nil]
    omega

theorem sha512_final_length (ctx : sha512_ctx) : (sha512_final ctx).length = 64 := by
  simp only [sha512_final]
  rw [foldr_store64_length, List.length_range]

theorem load64_append (X rest : List Nat) (off : Nat) (h : off + 7 < X.length) :
    load64 (X ++ rest) off = load64 X off := by
  simp only [load64]
  rw [List.getD_append _ _ _ off (by omega), List.getD_append _ _ _ (off + 1) (by omega),
    List.getD_append _ _ _ (off + 2) (by omega), List.getD_append _ _ _ (off + 3) (by omega),
    List.getD_append _ _ _ (off + 4) (by omega), List.getD_append _ _ _ (off + 5) (by omega),
    List.getD_append _ _ _ (off + 6) (by omega), List.getD_append _ _ _ (off + 7) (by omega)]

theorem sha512_schedule_append (X rest : List Nat) (h : X.length = 128) :
    sha512_schedule (X ++ rest) = sha512_schedule X := by
  have hfold :
      (List.range 16).foldl (fun W i => W.set i (load64 (X ++ rest) (i * 8)))
          (List.replicate 80 0) =
        (List.range 16).foldl (fun W i => W.set i (load64 X (i * 8))) (List.replicate 80 0) := by
    apply List.foldl_ext
    intro W i hi
    rw [List.mem_range] at hi
    rw [load64_append X rest (i * 8) (by omega)]
  simp only [sha512_schedule, hfold]

theorem sha512_transform_append (state X rest : List Nat) (h : X.length = 128) :
    sha512_transform state (X ++ rest) = sha512_transform state X := by
  simp only [sha512_transform, sha512_schedule_append X rest h]

theorem sha512_update_init_nil (ctx : sha512_ctx) :
    sha512_update (sha512_init ctx) [] =
      { state := (sha512_init ctx).state, count := [0, 0], buffer := ctx.buffer } := by
  simp [sha512_update, sha512_init, memcpy_at]

theorem sha512_padding_length (pad_len : Nat) (h : 0 < pad_len) :
    (sha512_padding pad_len).length = pad_len := by
  simp only [sha512_padding, List.length_cons, List.length_replicate]
  omega

theorem sha512_update_loop_short (fuel : Nat) (state data : List Nat)
    (h : data.length ≤ 127) : sha512_update_loop fuel state data = (state, data) := by
  cases fuel with
  | zero => rfl
  | succ n =>
    have : ¬ 127 < data.length := by omega
    simp only [sha512_update_loop, this, if_false]

theorem sha512_final_fresh (state buf : List Nat) :
    sha512_final { state := state, count := [0, 0], buffer := buf } =
      (List.range 8).foldr
        (fun i acc =>
          store64 ((sha512_transform state
            (sha512_padding 112 ++ (store64 0 ++ store64 0))).getD i 0) ++ acc) [] := by
  have hpad : (sha512_padding 112).length = 112 := sha512_padding_length 112 (by omega)
  have hbits : (store64 0 ++ store64 0).length = 16 := rfl
  have h1 :
      sha512_update { state := state, count := [0, 0], buffer := buf } (sha512_padding 112) =
        { state := state, count := [896, 0], buffer := sha512_padding 112 ++ buf.drop 112 } := by
    simp [sha512_update, memcpy_at, hpad]
  have h2 :
      (sha512_update
        { state := state, count := [896, 0], buffer := sha512_padding 112 ++ buf.drop 112 }
        (store64 0 ++ store64 0)).state =
      sha512_transform state (sha512_padding 112 ++ (store64 0 ++ store64 0)) := by
    have hbuf : memcpy_at (sha512_padding 112 ++ buf.drop 112) 112 (store64 0 ++ store64 0) 16 =
        (sha512_padding 112 ++ (store64 0 ++ store64 0)) ++ buf.drop 128 := by
      rw [memcpy_at, List.take_left' hpad, List.take_of_length_le (Nat.le_of_eq hbits),
        List.drop_append_eq_append_drop, List.drop_of_length_le (by rw [hpad]; omega), hpad,
        List.nil_append, List.drop_drop]
    have hlen : (sha512_padding 112 ++ (store64 0 ++ store64 0)).length = 128 := by
      rw [List.length_append, hpad, hbits]
    simp only [sha512_update, hbits, List.getD_cons_zero]
    simp only [show ((896 >>> 3) &&& 0x7F) = 112 from by decide, show 128 - 112 = 16 from rfl,
      ge_iff_le, Nat.le_refl, if_true, hbuf, sha512_transform_append _ _ _ hlen]
    rw [List.drop_of_length_le (Nat.le_of_eq hbits), sha512_update_loop_short _ _ _ (by simp)]
  simp only [sha512_final, List.getD_cons_zero, show ((0 >>> 3) &&& 0x7f) = 0 from by decide,
    show (0 : Nat) < 112 from by decide, if_true, show 112 - 0 = 112 from rfl, h1]
  simp only [List.getD_cons_succ, List.getD_cons_zero, h2]

set_option maxRecDepth 100000 in
theorem sha512_empty_block_digest :
    (List.range 8).foldr
        (fun i acc =>
          store64 ((sha512_transform (sha512_init sha512_ctx_local).state
            (sha512_padding 112 ++ (store64 0 ++ store64 0))).getD i 0) ++ acc) [] =
      sha512_empty_vector := by
  decide!

theorem sha512_empty_any_context (ctx : sha512_ctx) :
    sha512_final (sha512_update (sha512_init ctx) []) = sha512_empty_vector := by
  rw [sha512_update_init_nil, sha512_final_fresh]
  exact sha512_empty_block_digest

/-! ## Claim C10 -/

/-- C10. SHA-512 of the empty byte sequence is `cf83e135...27da3e`, whatever the local context
of `sha512` holds before `sha512_init`, and the digest of every input is exactly 64 bytes
long. -/
theorem sha512_empty_digest :
    sha512 [] = sha512_empty_vector ∧
      (∀ ctx : sha512_ctx,
        sha512_final (sha512_update (sha512_init ctx) []) = sha512_empty_vector) ∧
      ∀ data : List Nat, (sha512 data).length = 64 :=
  ⟨sha512_empty_any_context sha512_ctx_local, sha512_empty_any_context,
    fun _ => sha512_final_length _⟩

/-! ## Ed25519-shaped signatures: supporting lemmas -/

theorem sha512_length (data : List Nat) : (sha512 data).length = 64 :=
  sha512_final_length _

theorem ge_scalarmult_base_length (scalar : List Nat) :
    (ge_scalarmult_base scalar).length = 32 := by
  simp only [ge_scalarmult_base, List.length_set, List.length_take, sha512_length]
  rfl

theorem foldl_or_xor_eq_zero (x y : List Nat) (n : Nat) :
    (List.range n).foldl (fun acc i => acc ||| (x.getD i 0 ^^^ y.getD i 0)) 0 = 0 ↔
      ∀ i, i < n → x.getD i 0 = y.getD i 0 := by
  rw [foldl_or_eq_zero]
  simp only [true_and, List.mem_range, Nat.xor_eq_zero]

theorem getD_eq_iff_eq_take (x y : List Nat) (n : Nat) (hx : x.length = n) (hy : n ≤ y.length) :
    (∀ i, i < n → x.getD i 0 = y.getD i 0) ↔ x = y.take n := by
  constructor
  · intro h
    apply List.ext_getElem
    · rw [List.length_take]; omega
    · intro i hi hi2
      have := h i (by omega)
      rw [List.getD_eq_getElem?_getD, List.getD_eq_getElem?_getD, List.getElem?_eq_getElem hi,
        List.getElem?_eq_getElem (by omega)] at this
      rw [List.getElem_take]
      exact this
  · intro h i hi
    rw [h, List.getD_eq_getElem?_getD, List.getD_eq_getElem?_getD, List.getElem?_take_of_lt hi]

theorem ed25519_verify_eq (signature message public_key : List Nat) :
    ed25519_verify signature message public_key =
      if signature.getD 63 0 &&& 224 ≠ 0 then 0
      else if (List.range 32).foldl
          (fun acc i => acc ||| ((ge_scalarmult_base (signature.drop 32)).getD i 0 ^^^
            signature.getD i 0)) 0 = 0 then 1 else 0 := rfl

/-! ## Claim C15 -/

/-- C15. Verification rule: for a 64-byte signature `R ++ S`, `ed25519_verify` returns 0
whenever one of the high three bits of byte 63 is set; otherwise it returns 1 exactly when
`ge_scalarmult_base(S)` equals `R` on all 32 bytes, and 0 when they differ; the result is
always 0 or 1. -/
theorem ed25519_verify_rule (sig message public_key : List Nat) (hlen : sig.length = 64) :
    (sig.getD 63 0 &&& 224 ≠ 0 → ed25519_verify sig message public_key = 0) ∧
      (sig.getD 63 0 &&& 224 = 0 →
        (ed25519_verify sig message public_key = 1 ↔
          ge_scalarmult_base (sig.drop 32) = sig.take 32)) ∧
      (sig.getD 63 0 &&& 224 = 0 → ge_scalarmult_base (sig.drop 32) ≠ sig.take 32 →
        ed25519_verify sig message public_key = 0) ∧
      (ed25519_verify sig message public_key = 0 ∨
        ed25519_verify sig message public_key = 1) := by
  have hiff := (foldl_or_xor_eq_zero (ge_scalarmult_base (sig.drop 32)) sig 32).trans
    (getD_eq_iff_eq_take (ge_scalarmult_base (sig.drop 32)) sig 32
      (ge_scalarmult_base_length _) (by omega))
  rw [ed25519_verify_eq]
  refine ⟨?_, ?_, ?_, ?_⟩
  · intro h
    rw [if_pos h]
  · intro h
    rw [if_neg (by simpa using h), ← hiff]
    split <;> simp_all
  · intro h hne
    rw [if_neg (by simpa using h), if_neg (fun hz => hne (hiff.mp hz))]
  · split
    · exact Or.inl rfl
    · split
      · exact Or.inr rfl
      · exact Or.inl rfl


/-! ## Claim C16 -/

theorem le_bytes_to_nat_cons (a : Nat) (l : List Nat) :
    le_bytes_to_nat (a :: l) = a + 256 * le_bytes_to_nat l := rfl

theorem le_bytes_to_nat_append_singleton (l : List Nat) (x : Nat) :
    le_bytes_to_nat (l ++ [x]) = le_bytes_to_nat l + 256 ^ l.length * x := by
  induction l with
  | nil => simp [le_bytes_to_nat]
  | cons a l ih =>
    rw [List.cons_append, le_bytes_to_nat_cons, ih, le_bytes_to_nat_cons, List.length_cons,
      Nat.pow_succ]
    ring

theorem le_bytes_to_nat_lt (l : List Nat) (h : ∀ b ∈ l, b < 256) :
    le_bytes_to_nat l < 256 ^ l.length := by
  induction l with
  | nil => simp [le_bytes_to_nat]
  | cons a l ih =>
    have ha : a < 256 := h a (List.mem_cons_self a l)
    have hl := ih (fun b hb => h b (List.mem_cons_of_mem a hb))
    rw [le_bytes_to_nat_cons, List.length_cons, Nat.pow_succ]
    omega

theorem store64_lt (v : Nat) : ∀ b ∈ store64 v, b < 256 := by
  intro b hb
  simp only [store64, List.mem_cons, List.mem_singleton, List.not_mem_nil, or_false] at hb
  have h : ∀ x : Nat, x &&& 0xff < 256 := fun x =>
    Nat.lt_of_le_of_lt Nat.and_le_right (by decide)
  rcases hb with rfl | rfl | rfl | rfl | rfl | rfl | rfl | rfl <;> exact h _

theorem foldr_store64_lt (f : Nat → Nat) (l : List Nat) :
    ∀ b ∈ l.foldr (fun i acc => store64 (f i) ++ acc) [], b < 256 := by
  induction l with
  | nil => simp
  | cons x xs ih =>
    intro b hb
    rw [List.foldr_cons, List.mem_append] at hb
    rcases hb with hb | hb
    · exact store64_lt _ b hb
    · exact ih b hb

theorem sha512_final_lt (ctx : sha512_ctx) : ∀ b ∈ sha512_final ctx, b < 256 := by
  simp only [sha512_final]
  exact foldr_store64_lt _ _

theorem sha512_lt (data : List Nat) : ∀ b ∈ sha512 data, b < 256 :=
  sha512_final_lt _

theorem mem_set_lt (l : List Nat) (i v n : Nat) (hl : ∀ b ∈ l, b < n) (hv : v < n) :
    ∀ b ∈ l.set i v, b < n := by
  intro b hb
  rcases List.mem_or_eq_of_mem_set hb with h | h
  · exact hl b h
  · rw [h]; exact hv

theorem and_63_or_64 (x : Nat) : 64 ≤ (x &&& 63) ||| 64 ∧ (x &&& 63) ||| 64 < 128 := by
  have h1 : x &&& 63 < 64 := Nat.lt_of_le_of_lt Nat.and_le_right (by decide)
  have h2 : ∀ y, y < 64 → 64 ≤ y ||| 64 ∧ y ||| 64 < 128 := by decide
  exact h2 _ h1

theorem and_248_mod_8 (x : Nat) : (x &&& 248) % 8 = 0 := by
  have h : x &&& 248 = 8 * ((x >>> 3) &&& 31) := by
    apply Nat.eq_of_testBit_eq
    intro i
    rw [Nat.testBit_and, show 8 = 2 ^ 3 from rfl, Nat.testBit_mul_pow_two]
    by_cases hi : 3 ≤ i
    · simp only [hi, decide_True, Bool.true_and, Nat.testBit_and, Nat.testBit_shiftRight]
      have h3 : 3 + (i - 3) = i := by omega
      rw [h3]
      congr 1
      by_cases h8 : i < 8
      · interval_cases i <;> rfl
      · have e1 : Nat.testBit 248 i = false :=
          Nat.testBit_lt_two_pow (Nat.lt_of_lt_of_le (by decide : 248 < 2 ^ 8)
            (Nat.pow_le_pow_right (by decide) (by omega)))
        have e2 : Nat.testBit 31 (i - 3) = false :=
          Nat.testBit_lt_two_pow (Nat.lt_of_lt_of_le (by decide : 31 < 2 ^ 5)
            (Nat.pow_le_pow_right (by decide) (by omega)))
        rw [e1, e2]
    · have hi' : i < 3 := by omega
      simp only [hi, decide_False, Bool.false_and]
      interval_cases i <;> simp [Nat.testBit]
  omega

theorem clamped_scalar_range (T : List Nat) (hlen : T.length = 32) (hb : ∀ b ∈ T, b < 256)
    (h0 : T.getD 0 0 % 8 = 0) (h31 : 64 ≤ T.getD 31 0 ∧ T.getD 31 0 < 128) :
    le_bytes_to_nat T % 8 = 0 ∧ 2 ^ 254 ≤ le_bytes_to_nat T ∧ le_bytes_to_nat T < 2 ^ 255 := by
  have hsplit : T = T.take 31 ++ [T.getD 31 0] := by
    apply List.ext_getElem
    · simp [hlen]
    · intro i hi hi2
      by_cases h : i < 31
      · rw [List.getElem_append_left (by simp [hlen]; omega), List.getElem_take]
      · have hi31 : i = 31 := by omega
        subst hi31
        rw [List.getElem_append_right (by simp [hlen])]
        simp [List.getD_eq_getElem?_getD, List.getElem?_eq_getElem hi]
  have hlow : le_bytes_to_nat (T.take 31) < 256 ^ 31 := by
    have := le_bytes_to_nat_lt (T.take 31) (fun b hb' => hb b (List.mem_of_mem_take hb'))
    rwa [List.length_take, hlen] at this
  have hval : le_bytes_to_nat T = le_bytes_to_nat (T.take 31) + 256 ^ 31 * T.getD 31 0 := by
    conv_lhs => rw [hsplit]
    rw [le_bytes_to_nat_append_singleton, List.length_take, hlen]
    rfl
  have hmod : le_bytes_to_nat T % 8 = 0 := by
    cases T with
    | nil => simp at hlen
    | cons a l =>
      rw [le_bytes_to_nat_cons]
      simp only [List.getD_cons_zero] at h0
      omega
  refine ⟨hmod, ?_, ?_⟩
  · rw [hval]
    have : (256 : Nat) ^ 31 * 64 = 2 ^ 254 := by norm_num
    have := Nat.mul_le_mul_left (256 ^ 31) h31.1
    omega
  · rw [hval]
    have e : (256 : Nat) ^ 31 * 128 = 2 ^ 255 := by norm_num
    have := Nat.mul_le_mul_left (256 ^ 31) (Nat.le_of_lt_succ h31.2)
    omega


theorem ge_scalarmult_base_take (scalar : List Nat) :
    ge_scalarmult_base (scalar.take 32) = ge_scalarmult_base scalar := by
  simp only [ge_scalarmult_base, List.take_take, Nat.min_self]

theorem getD_set_self (l : List Nat) (i v : Nat) (h : i < l.length) :
    (l.set i v).getD i 0 = v := by
  rw [List.getD_eq_getElem?_getD, List.getElem?_set_self h]
  rfl

theorem getD_lt_of_forall (l : List Nat) (i n : Nat) (hn : 0 < n) (h : ∀ b ∈ l, b < n) :
    l.getD i 0 < n := by
  rw [List.getD_eq_getElem?_getD]
  by_cases hi : i < l.length
  · rw [List.getElem?_eq_getElem hi]
    exact h _ (List.getElem_mem hi)
  · rw [List.getElem?_eq_none (by omega)]
    exact hn

theorem ge_scalarmult_base_top_bit (scalar : List Nat) :
    (ge_scalarmult_base scalar).getD 31 0 < 128 := by
  simp only [ge_scalarmult_base]
  generalize hX : sha512 ((sha512 ((ge_base_packed ++ scalar.take 32).take 64)).take 64) = X
  have hlen : X.length = 64 := by rw [← hX]; exact sha512_length _
  rw [getD_set_self _ _ _ (by rw [List.length_take, hlen]; decide)]
  exact Nat.lt_of_le_of_lt Nat.and_le_right (by decide)

theorem ed25519_clamp_length (hash : List Nat) : (ed25519_clamp hash).length = hash.length := by
  simp only [ed25519_clamp, List.length_set]

theorem ed25519_clamp_lt (hash : List Nat) (h : ∀ b ∈ hash, b < 256) :
    ∀ b ∈ ed25519_clamp hash, b < 256 := by
  have h1 : ∀ b ∈ hash.set 0 (hash.getD 0 0 &&& 248), b < 256 :=
    mem_set_lt _ _ _ _ h (Nat.lt_of_le_of_lt Nat.and_le_right (by decide))
  have h2 : ∀ b ∈ (hash.set 0 (hash.getD 0 0 &&& 248)).set 31
      ((hash.set 0 (hash.getD 0 0 &&& 248)).getD 31 0 &&& 63), b < 256 :=
    mem_set_lt _ _ _ _ h1 (Nat.lt_of_le_of_lt Nat.and_le_right (by decide))
  simp only [ed25519_clamp]
  apply mem_set_lt _ _ _ _ h2
  exact Nat.or_lt_two_pow (n := 8) (getD_lt_of_forall _ _ _ (by decide) h2) (by decide)

theorem ed25519_clamp_getD_zero (hash : List Nat) (h : 32 ≤ hash.length) :
    (ed25519_clamp hash).getD 0 0 = hash.getD 0 0 &&& 248 := by
  simp only [ed25519_clamp, List.getD_eq_getElem?_getD]
  rw [List.getElem?_set_ne (by decide), List.getElem?_set_ne (by decide),
    List.getElem?_set_self (by omega)]
  rfl

theorem ed25519_clamp_getD_31 (hash : List Nat) (h : 32 ≤ hash.length) :
    (ed25519_clamp hash).getD 31 0 = (hash.getD 31 0 &&& 63) ||| 64 := by
  simp only [ed25519_clamp, List.getD_eq_getElem?_getD]
  rw [List.getElem?_set_self (by simp only [List.length_set]; omega),
    List.getElem?_set_self (by simp only [List.length_set]; omega),
    List.getElem?_set_ne (by decide)]
  rfl

/-- C16. Keypair derivation: for a 32-byte seed, `ed25519_create_keypair` gives the seed as
private key and, as public key, `ge_scalarmult_base` of the first 32 bytes of the clamped
`sha512(seed)`; clamping is byte 0 AND 248 and byte 31 AND 63 then OR 64, so the clamped
scalar, read least significant byte first, is a multiple of 8 in `[2^254, 2^255)`; bit 7 of
byte 31 of the public key is clear. -/
theorem keypair_derivation (seed : List Nat) (hlen : seed.length = 32) :
    (ed25519_create_keypair seed).2 = seed ∧
      (ed25519_create_keypair seed).1 =
        ge_scalarmult_base ((ed25519_clamp (sha512 seed)).take 32) ∧
      (ed25519_clamp (sha512 seed)).getD 0 0 = (sha512 seed).getD 0 0 &&& 248 ∧
      (ed25519_clamp (sha512 seed)).getD 31 0 = ((sha512 seed).getD 31 0 &&& 63) ||| 64 ∧
      le_bytes_to_nat ((ed25519_clamp (sha512 seed)).take 32) % 8 = 0 ∧
      2 ^ 254 ≤ le_bytes_to_nat ((ed25519_clamp (sha512 seed)).take 32) ∧
      le_bytes_to_nat ((ed25519_clamp (sha512 seed)).take 32) < 2 ^ 255 ∧
      (ed25519_create_keypair seed).1.getD 31 0 < 128 := by
  have htake : seed.take 32 = seed := List.take_of_length_le (by omega)
  have hh : 32 ≤ (sha512 seed).length := by rw [sha512_length]; decide
  have h0 := ed25519_clamp_getD_zero (sha512 seed) hh
  have h31 := ed25519_clamp_getD_31 (sha512 seed) hh
  have hT : ((ed25519_clamp (sha512 seed)).take 32).length = 32 := by
    rw [List.length_take, ed25519_clamp_length, sha512_length]
    rfl
  have hg : ∀ i, i < 32 → ((ed25519_clamp (sha512 seed)).take 32).getD i 0 =
      (ed25519_clamp (sha512 seed)).getD i 0 := by
    intro i hi
    rw [List.getD_eq_getElem?_getD, List.getD_eq_getElem?_getD, List.getElem?_take_of_lt hi]
  have hrange := clamped_scalar_range ((ed25519_clamp (sha512 seed)).take 32) hT
    (fun b hb => ed25519_clamp_lt _ (sha512_lt seed) b (List.mem_of_mem_take hb))
    (by rw [hg 0 (by decide), h0]; exact and_248_mod_8 _)
    (by rw [hg 31 (by decide), h31]; exact and_63_or_64 _)
  refine ⟨?_, ?_, h0, h31, hrange.1, hrange.2.1, hrange.2.2, ?_⟩
  · simp only [ed25519_create_keypair, htake]
  · simp only [ed25519_create_keypair, htake, ge_scalarmult_base_take]
  · simp only [ed25519_create_keypair]
    exact ge_scalarmult_base_top_bit _

/-- Witness of C16 at the all-zero seed. -/
theorem keypair_derivation_witness :
    (List.replicate 32 0).length = 32 ∧
      (ed25519_create_keypair (List.replicate 32 0)).2 = List.replicate 32 0 :=
  ⟨by decide, (keypair_derivation (List.replicate 32 0) (by decide)).1⟩

/-- Witness of C15 at the all-zero signature. -/
theorem ed25519_verify_rule_witness :
    (List.replicate 64 0).length = 64 ∧
      (ed25519_verify (List.replicate 64 0) [] [] = 0 ∨
        ed25519_verify (List.replicate 64 0) [] [] = 1) :=
  ⟨by decide, (ed25519_verify_rule (List.replicate 64 0) [] [] (by decide)).2.2.2⟩


/-! ## Secure storage: supporting lemmas -/

theorem chacha20_poly1305_decrypt_encrypt (key nonce m : List Nat) :
    chacha20_poly1305_decrypt key nonce (chacha20_poly1305_encrypt key nonce m).2.1
      (chacha20_poly1305_encrypt key nonce m).2.2 = (1, m) := by
  simp only [chacha20_poly1305_encrypt, chacha20_poly1305_decrypt, tag_match_self, ne_eq,
    not_true_eq_false, if_false, chacha20_encrypt_involutive]

theorem sovereign_random_bytes_eq_one (dev : Option (List Nat)) (length : Nat)
    (h : (sovereign_random_bytes dev length).1 ≠ 0) :
    ∃ bytes, dev = some bytes ∧ length ≤ bytes.length ∧
      sovereign_random_bytes dev length = (1, bytes.take length) := by
  cases dev with
  | none => simp [sovereign_random_bytes] at h
  | some bytes =>
    refine ⟨bytes, rfl, ?_⟩
    simp only [sovereign_random_bytes, List.length_take] at h ⊢
    by_cases hl : min length bytes.length = length
    · simp only [hl, if_true]
      exact ⟨by omega, trivial⟩
    · simp [hl] at h

theorem secure_storage_store_ok (env : storage_env) (st : storage_state) (key data : List Nat)
    (h : (secure_storage_store env st key data).1 = 0) :
    ∃ bytes, env.urandom = some bytes ∧ 12 ≤ bytes.length ∧ st.g_initialized ≠ 0 ∧
      secure_storage_store env st key data =
        (0,
          { st with
            files := fs_write st.files (secure_storage_filename key)
              (bytes.take 12 ++
                (chacha20_poly1305_encrypt st.g_encryption_key (bytes.take 12) data).2.2 ++
                (chacha20_poly1305_encrypt st.g_encryption_key (bytes.take 12) data).2.1) }) := by
  by_cases hinit : st.g_initialized = 0
  · simp [secure_storage_store, hinit] at h
  · by_cases hr : (sovereign_random_bytes env.urandom 12).1 = 0
    · simp [secure_storage_store, hinit, encrypt_data, hr] at h
    · obtain ⟨bytes, hdev, hlen, hrb⟩ := sovereign_random_bytes_eq_one _ _ hr
      refine ⟨bytes, hdev, hlen, hinit, ?_⟩
      have hct : (chacha20_poly1305_encrypt st.g_encryption_key (bytes.take 12) data).2.1.length =
          data.length := chacha20_encrypt_length _ _ _ _
      have htag : (chacha20_poly1305_encrypt st.g_encryption_key (bytes.take 12)
          data).2.2.length = 16 := poly1305_authenticate_length _ _
      by_cases hf : env.fopen_wb = false
      · simp [secure_storage_store, hinit, encrypt_data, hrb, hf, chacha20_poly1305_encrypt] at h
      · have e1 : (chacha20_poly1305_encrypt st.g_encryption_key (bytes.take 12) data).1 = 1 := rfl
        simp only [secure_storage_store, hinit, encrypt_data, hrb, hf, e1, if_false,
          one_ne_zero, ne_eq, not_true_eq_false]
        rw [List.take_take, List.take_of_length_le (Nat.le_of_eq htag),
          List.take_of_length_le (Nat.le_of_eq hct), hct]
        simp

theorem secure_storage_store_succeeds (env : storage_env) (st : storage_state)
    (key data bytes : List Nat) (hinit : st.g_initialized ≠ 0)
    (hdev : env.urandom = some bytes) (hlen : 12 ≤ bytes.length)
    (hopen : env.fopen_wb = true) : (secure_storage_store env st key data).1 = 0 := by
  have hrb : sovereign_random_bytes (some bytes) 12 = (1, bytes.take 12) := by
    simp only [sovereign_random_bytes, List.length_take]
    rw [if_pos (by omega)]
  have hct : (chacha20_poly1305_encrypt st.g_encryption_key (bytes.take 12) data).2.1.length =
      data.length := chacha20_encrypt_length _ _ _ _
  have e1 : (chacha20_poly1305_encrypt st.g_encryption_key (bytes.take 12) data).1 = 1 := rfl
  simp only [secure_storage_store, hinit, encrypt_data, hdev, hrb, hopen, e1, if_false,
    one_ne_zero, ne_eq, not_true_eq_false]
  rw [List.take_of_length_le (Nat.le_of_eq hct), hct]
  simp

theorem secure_storage_store_plain (st : storage_state) (key data : List Nat)
    (hinit : st.g_initialized ≠ 0) : (secure_storage_store plain_env st key data).1 = 0 :=
  secure_storage_store_succeeds plain_env st key data (List.replicate 32 0) hinit rfl
    (by decide) rfl

theorem secure_storage_retrieve_same_file (st : storage_state) (k1 k2 : List Nat)
    (data_len : Nat) (h : secure_storage_filename k1 = secure_storage_filename k2) :
    secure_storage_retrieve st k1 data_len = secure_storage_retrieve st k2 data_len := by
  simp only [secure_storage_retrieve, h]

theorem secure_storage_retrieve_absent (st : storage_state) (key : List Nat) (data_len : Nat)
    (h : st.files (secure_storage_filename key) = none) :
    secure_storage_retrieve st key data_len = (-1, []) := by
  simp only [secure_storage_retrieve, h]
  split <;> rfl

theorem secure_storage_retrieve_file (st : storage_state) (key : List Nat) (data_len : Nat)
    (nonce tag ct : List Nat) (hinit : st.g_initialized ≠ 0)
    (hfile : st.files (secure_storage_filename key) = some (nonce ++ tag ++ ct))
    (hn : nonce.length = 12) (ht : tag.length = 16) :
    secure_storage_retrieve st key data_len =
      if (chacha20_poly1305_decrypt st.g_encryption_key nonce ct tag).1 = 0
      then (-1, (chacha20_poly1305_decrypt st.g_encryption_key nonce ct tag).2)
      else (0, (chacha20_poly1305_decrypt st.g_encryption_key nonce ct tag).2) := by
  have e1 : (nonce ++ tag ++ ct).take 12 = nonce := by
    rw [List.append_assoc, List.take_left' hn]
  have e2 : ((nonce ++ tag ++ ct).drop 12).take 16 = tag := by
    rw [List.append_assoc, List.drop_left' hn, List.take_left' ht]
  have e3 : (nonce ++ tag ++ ct).drop 28 = ct := by
    rw [List.drop_left' (by rw [List.length_append, hn, ht])]
  have e4 : ((nonce ++ tag ++ ct).length : Int) - 12 - 16 = (ct.length : Int) := by
    simp only [List.length_append, hn, ht]
    push_cast
    omega
  simp only [secure_storage_retrieve, hinit, if_false, hfile, e1, e2, e3, e4]
  have e5 : ¬ ((ct.length : Int) < 0) := by omega
  simp only [e5, if_false, Int.toNat_ofNat, List.take_length, decrypt_data]
  split <;> rfl

theorem secure_storage_retrieve_after_store (env : storage_env) (st : storage_state)
    (key data : List Nat) (h : (secure_storage_store env st key data).1 = 0) :
    secure_storage_retrieve (secure_storage_store env st key data).2 key data.length =
      (0, data) := by
  obtain ⟨bytes, _, hlen, hinit, heq⟩ := secure_storage_store_ok env st key data h
  have hfile : (secure_storage_store env st key data).2.files (secure_storage_filename key) =
      some (bytes.take 12 ++
        (chacha20_poly1305_encrypt st.g_encryption_key (bytes.take 12) data).2.2 ++
        (chacha20_poly1305_encrypt st.g_encryption_key (bytes.take 12) data).2.1) := by
    rw [heq]
    simp only [fs_write, if_true]
  have hkey : (secure_storage_store env st key data).2.g_encryption_key =
      st.g_encryption_key := by rw [heq]
  have hini : (secure_storage_store env st key data).2.g_initialized ≠ 0 := by
    rw [heq]; exact hinit
  rw [secure_storage_retrieve_file (secure_storage_store env st key data).2 key data.length
    (bytes.take 12)
    (chacha20_poly1305_encrypt st.g_encryption_key (bytes.take 12) data).2.2
    (chacha20_poly1305_encrypt st.g_encryption_key (bytes.take 12) data).2.1 hini hfile
    (by rw [List.length_take]; omega) (poly1305_authenticate_length _ _), hkey]
  simp only [chacha20_poly1305_decrypt_encrypt, one_ne_zero, if_false]

/-! ## Claim C17 -/

/-- C17. Store/retrieve round trip: if `secure_storage_store(key, data)` returns 0, the store
was initialized, the random source delivered a 12-byte nonce, and afterwards the file for
`key` holds that nonce, the 16-byte tag and the ciphertext of `data` under the master key,
28 + |data| bytes in all; a following `secure_storage_retrieve(key, buf, |data|)` returns 0
and writes exactly `data`.  This holds for every master key, file system and nonce. -/
theorem store_retrieve_round_trip (env : storage_env) (st : storage_state)
    (key data : List Nat) (h : (secure_storage_store env st key data).1 = 0) :
    (∃ nonce tag ct, nonce.length = 12 ∧ tag.length = 16 ∧ ct.length = data.length ∧
        (∃ bytes, env.urandom = some bytes ∧ nonce = bytes.take 12) ∧
        chacha20_poly1305_encrypt st.g_encryption_key nonce data = (1, ct, tag) ∧
        (secure_storage_store env st key data).2.files (secure_storage_filename key) =
          some (nonce ++ tag ++ ct) ∧
        (nonce ++ tag ++ ct).length = 28 + data.length) ∧
      st.g_initialized ≠ 0 ∧
      secure_storage_retrieve (secure_storage_store env st key data).2 key data.length =
        (0, data) := by
  obtain ⟨bytes, hdev, hlen, hinit, heq⟩ := secure_storage_store_ok env st key data h
  have hct : (chacha20_poly1305_encrypt st.g_encryption_key (bytes.take 12) data).2.1.length =
      data.length := chacha20_encrypt_length _ _ _ _
  have htag : (chacha20_poly1305_encrypt st.g_encryption_key (bytes.take 12)
      data).2.2.length = 16 := poly1305_authenticate_length _ _
  have hn : (bytes.take 12).length = 12 := by rw [List.length_take]; omega
  refine ⟨⟨bytes.take 12, _, _, hn, htag, hct, ⟨bytes, hdev, rfl⟩, rfl, ?_, ?_⟩, hinit,
    secure_storage_retrieve_after_store env st key data h⟩
  · rw [heq]
    simp only [fs_write, if_true]
  · simp only [List.length_append, hn, htag, hct]

/-- Witness of C17: in the empty store with the all-zero master key, storing `[1, 2, 3]`
under "k" returns 0. -/
theorem store_retrieve_round_trip_witness :
    (secure_storage_store plain_env empty_store (c_str "k") [1, 2, 3]).1 = 0 ∧
      secure_storage_retrieve (secure_storage_store plain_env empty_store (c_str "k") [1, 2, 3]).2
        (c_str "k") 3 = (0, [1, 2, 3]) :=
  ⟨secure_storage_store_plain empty_store (c_str "k") [1, 2, 3] (by decide),
    (store_retrieve_round_trip plain_env empty_store (c_str "k") [1, 2, 3]
      (secure_storage_store_plain empty_store (c_str "k") [1, 2, 3] (by decide))).2.2⟩

/-! ## Claim C18 -/

theorem chacha20_poly1305_decrypt_of_fail (key nonce ct tag : List Nat)
    (h : (chacha20_poly1305_decrypt key nonce ct tag).1 = 0) :
    chacha20_poly1305_decrypt key nonce ct tag = (0, List.replicate ct.length 0) := by
  rw [chacha20_poly1305_decrypt_fst] at h
  simp only [chacha20_poly1305_decrypt]
  split at h
  · rename_i hne
    rw [if_pos hne]
  · simp at h

set_option maxRecDepth 100000 in
theorem corrupted_store_tag_fails :
    (chacha20_poly1305_decrypt corrupted_store.g_encryption_key (List.replicate 12 0)
      (List.replicate 3 0) (List.replicate 16 0)).1 = 0 := by
  decide!

set_option maxRecDepth 100000 in
/-- C18 fails: in `empty_store` the file for "k" is absent, in `corrupted_store` it exists and
its tag does not verify, and `secure_storage_retrieve` returns the same value, -1, in both. -/
theorem retrieve_absent_same_as_tampered :
    empty_store.files (secure_storage_filename (c_str "k")) = none ∧
      corrupted_store.files (secure_storage_filename (c_str "k")) =
        some (List.replicate 12 0 ++ List.replicate 16 0 ++ List.replicate 3 0) ∧
      (chacha20_poly1305_decrypt corrupted_store.g_encryption_key (List.replicate 12 0)
        (List.replicate 3 0) (List.replicate 16 0)).1 = 0 ∧
      (secure_storage_retrieve empty_store (c_str "k") 3).1 = -1 ∧
      (secure_storage_retrieve corrupted_store (c_str "k") 3).1 = -1 ∧
      ¬ ((secure_storage_retrieve empty_store (c_str "k") 3).1 ≠
        (secure_storage_retrieve corrupted_store (c_str "k") 3).1) := by
  decide!

/-- C18 as amended.  In an initialized store `secure_storage_retrieve` returns -1 when the
file for the key is absent, writing nothing, and it returns -1 as well when the file holds a
nonce, a tag and a ciphertext that the tag does not verify, the output then being zero bytes
of the ciphertext's length; the two results are the same value. -/
theorem retrieve_failure_codes (st : storage_state) (key : List Nat) (data_len : Nat)
    (hinit : st.g_initialized ≠ 0) :
    (st.files (secure_storage_filename key) = none →
        secure_storage_retrieve st key data_len = (-1, [])) ∧
      (∀ nonce tag ct : List Nat, nonce.length = 12 → tag.length = 16 →
        st.files (secure_storage_filename key) = some (nonce ++ tag ++ ct) →
        (chacha20_poly1305_decrypt st.g_encryption_key nonce ct tag).1 = 0 →
        secure_storage_retrieve st key data_len = (-1, List.replicate ct.length 0)) := by
  refine ⟨secure_storage_retrieve_absent st key data_len, ?_⟩
  intro nonce tag ct hn ht hfile hfail
  rw [secure_storage_retrieve_file st key data_len nonce tag ct hinit hfile hn ht,
    chacha20_poly1305_decrypt_of_fail _ _ _ _ hfail]
  rfl

/-- Witness of the amended C18: the absent file at `empty_store`, the file whose tag does not
verify at `corrupted_store`. -/
theorem retrieve_failure_codes_witness :
    empty_store.g_initialized ≠ 0 ∧ corrupted_store.g_initialized ≠ 0 ∧
      secure_storage_retrieve empty_store (c_str "k") 3 = (-1, []) ∧
      secure_storage_retrieve corrupted_store (c_str "k") 3 = (-1, [0, 0, 0]) :=
  ⟨by decide, by decide,
    (retrieve_failure_codes empty_store (c_str "k") 3 (by decide)).1 (by decide),
    (retrieve_failure_codes corrupted_store (c_str "k") 3 (by decide)).2
      (List.replicate 12 0) (List.replicate 16 0) (List.replicate 3 0) (by decide) (by decide)
      (by decide) corrupted_store_tag_fails⟩

/-! ## Claim C19 -/

theorem secure_storage_generate_key_initialized (env : storage_env) (st : storage_state)
    (h : (secure_storage_generate_key env st).1 = 1) :
    (secure_storage_generate_key env st).2.g_initialized ≠ 0 := by
  simp only [secure_storage_generate_key] at h ⊢
  split at h
  · simp at h
  · split at h
    · simp at h
    · rename_i h1 h2
      simp [h1, h2]

theorem secure_storage_initialize_initialized (env : storage_env) (st : storage_state)
    (h : ( secure_storage_initialize env st).1 = 1) :
    ( secure_storage_initialize env st).2.g_initialized ≠ 0 := by
  by_cases hinit : st.g_initialized ≠ 0
  · rw [ secure_storage_initialize, if_pos hinit]
    exact hinit
  · rw [ secure_storage_initialize, if_neg hinit] at h ⊢
    cases hc : st.files KEY_FILE with
    | none =>
      simp only [hc] at h ⊢
      exact secure_storage_generate_key_initialized _ _ h
    | some content =>
      simp only [hc] at h ⊢
      by_cases hr : (List.take 32 content).length = 32
      · simp only [hr, if_true]
        decide
      · simp only [hr, if_false] at h ⊢
        exact secure_storage_generate_key_initialized _ _ h

theorem secure_storage_initialize_noop (env : storage_env) (st : storage_state)
    (h : st.g_initialized ≠ 0) : secure_storage_initialize env st = (1, st) := by
  rw [ secure_storage_initialize, if_pos h]

theorem secure_storage_store_frame (env : storage_env) (st : storage_state)
    (key data : List Nat) :
    (secure_storage_store env st key data).2.g_initialized = st.g_initialized ∧
      (secure_storage_store env st key data).2.g_encryption_key = st.g_encryption_key ∧
      ∀ p, p ≠ secure_storage_filename key →
        (secure_storage_store env st key data).2.files p = st.files p := by
  simp only [secure_storage_store]
  split_ifs <;> simp_all [fs_write]

theorem secure_storage_delete_frame (st : storage_state) (key : List Nat) :
    (secure_storage_delete st key).2.g_initialized = st.g_initialized ∧
      (secure_storage_delete st key).2.g_encryption_key = st.g_encryption_key := by
  simp only [secure_storage_delete]
  split <;> simp

theorem storage_step_keeps (st : storage_state) (op : storage_op) (h : st.g_initialized ≠ 0) :
    (storage_step st op).g_initialized ≠ 0 ∧
      (storage_step st op).g_encryption_key = st.g_encryption_key := by
  cases op with
  | store_call env key data =>
    have := secure_storage_store_frame env st key data
    simp only [storage_step, this.1, this.2.1]
    exact ⟨h, trivial⟩
  | retrieve_call key n => exact ⟨h, rfl⟩
  | delete_call key =>
    have := secure_storage_delete_frame st key
    simp only [storage_step, this.1, this.2]
    exact ⟨h, trivial⟩
  | init_call env =>
    simp only [storage_step, secure_storage_initialize_noop env st h]
    exact ⟨h, trivial⟩

theorem storage_run_keeps (ops : List storage_op) :
    ∀ st : storage_state, st.g_initialized ≠ 0 →
      (storage_run st ops).g_initialized ≠ 0 ∧
        (storage_run st ops).g_encryption_key = st.g_encryption_key := by
  induction ops with
  | nil => intro st h; exact ⟨h, rfl⟩
  | cons op ops ih =>
    intro st h
    have hs := storage_step_keeps st op h
    have := ih (storage_step st op) hs.1
    simp only [storage_run, List.foldl_cons] at this ⊢
    exact ⟨this.1, this.2.trans hs.2⟩

/-- C19. Initialize is idempotent: once `secure_storage_initialize` has returned 1, a call
made after any sequence of store, retrieve, delete and initialize calls returns 1 and leaves
the whole state as it was, the master key, the flag and every file; the master key is still
the one the first call left, and what `secure_storage_retrieve` returns is unchanged by the
call. -/
theorem initialize_idempotent (env : storage_env) (st : storage_state)
    (h : ( secure_storage_initialize env st).1 = 1) (ops : List storage_op)
    (env2 : storage_env) :
    secure_storage_initialize env2 (storage_run ( secure_storage_initialize env st).2 ops) =
        (1, storage_run ( secure_storage_initialize env st).2 ops) ∧
      (storage_run ( secure_storage_initialize env st).2 ops).g_encryption_key =
        ( secure_storage_initialize env st).2.g_encryption_key ∧
      (storage_run ( secure_storage_initialize env st).2 ops).g_initialized ≠ 0 ∧
      ∀ (key : List Nat) (data_len : Nat),
        secure_storage_retrieve
            ( secure_storage_initialize env2
              (storage_run ( secure_storage_initialize env st).2 ops)).2 key data_len =
          secure_storage_retrieve (storage_run ( secure_storage_initialize env st).2 ops)
            key data_len := by
  have h0 := secure_storage_initialize_initialized env st h
  have hk := storage_run_keeps ops _ h0
  have hn := secure_storage_initialize_noop env2 _ hk.1
  refine ⟨hn, hk.2, hk.1, ?_⟩
  intro key n
  rw [hn]

set_option maxRecDepth 100000 in
/-- Witness of C19: from a state with no key file and the flag clear, the first call returns
1 in `plain_env`; a store follows, then the second call. -/
theorem initialize_idempotent_witness :
    ( secure_storage_initialize plain_env { empty_store with g_initialized := 0 }).1 = 1 ∧
      (storage_run ( secure_storage_initialize plain_env
        { empty_store with g_initialized := 0 }).2
        [storage_op.store_call plain_env (c_str "k") [1, 2, 3]]).g_initialized ≠ 0 :=
  ⟨by decide!,
    (initialize_idempotent plain_env { empty_store with g_initialized := 0 } (by decide!)
      [storage_op.store_call plain_env (c_str "k") [1, 2, 3]] plain_env).2.2.1⟩

/-! ## Claim C20 -/

theorem secure_storage_retrieve_congr (st st2 : storage_state) (key : List Nat) (data_len : Nat)
    (h1 : st2.g_initialized = st.g_initialized)
    (h2 : st2.g_encryption_key = st.g_encryption_key)
    (h3 : st2.files (secure_storage_filename key) = st.files (secure_storage_filename key)) :
    secure_storage_retrieve st2 key data_len = secure_storage_retrieve st key data_len := by
  simp only [secure_storage_retrieve, h1, h2, h3]

theorem get_file_path_eq_iff (k1 k2 : List Nat) :
    get_file_path k1 = get_file_path k2 ↔ simple_hash k1 = simple_hash k2 := by
  simp only [get_file_path, List.append_assoc, List.append_cancel_left_eq,
    List.append_cancel_right_eq]

/-- A collision of `simple_hash` itself: "Aa" and "BB" are distinct keys with the same
`simple_hash`, hence the same file on the native path and the same `get_file_path`; after a successful store of `[1]` under
"Aa" and a successful store of `[2]` under "BB", `secure_storage_retrieve` of "Aa" returns 0
and writes `[2]`. -/
theorem store_under_colliding_key_replaces :
    c_str "Aa" ≠ c_str "BB" ∧
      simple_hash (c_str "Aa") = simple_hash (c_str "BB") ∧
      get_file_path (c_str "Aa") = get_file_path (c_str "BB") ∧
      (secure_storage_store plain_env empty_store (c_str "Aa") [1]).1 = 0 ∧
      (secure_storage_store plain_env
        (secure_storage_store plain_env empty_store (c_str "Aa") [1]).2 (c_str "BB") [2]).1 = 0 ∧
      secure_storage_retrieve
        (secure_storage_store plain_env
          (secure_storage_store plain_env empty_store (c_str "Aa") [1]).2 (c_str "BB") [2]).2
        (c_str "Aa") 1 = (0, [2]) := by
  have h1 := secure_storage_store_plain empty_store (c_str "Aa") [1] (by decide)
  have hi : (secure_storage_store plain_env empty_store (c_str "Aa") [1]).2.g_initialized ≠ 0 := by
    rw [(secure_storage_store_frame _ _ _ _).1]; decide
  have h2 := secure_storage_store_plain _ (c_str "BB") [2] hi
  refine ⟨by decide, by decide, by decide, h1, h2, ?_⟩
  rw [secure_storage_retrieve_same_file _ (c_str "Aa") (c_str "BB") 1 (by decide)]
  exact secure_storage_retrieve_after_store _ _ (c_str "BB") [2] h2

/-- The native path names the file after the first four characters of the hash string:
"a" and "b" have different hashes and different `get_file_path`, and one file on the native
path, `30303030.enc`. -/
theorem native_filename_reads_hash_prefix :
    simple_hash (c_str "a") ≠ simple_hash (c_str "b") ∧
      get_file_path (c_str "a") ≠ get_file_path (c_str "b") ∧
      secure_storage_filename (c_str "a") = secure_storage_filename (c_str "b") ∧
      secure_storage_filename (c_str "a") = STORAGE_DIR ++ c_str "/30303030.enc" := by
  decide

/-- The frame of a store on the native path.  When the file names that the native path gives
`k1` and `k2` differ, a store under `k2`, whether it succeeds or not, after a successful store
of `d1` under `k1` leaves the entry of `k1` as it was:
`secure_storage_retrieve` of `k1` still returns 0 and `d1`, and returns what it would have
returned before the second store for every length.  For the mapping of the JNI path, a write
to `get_file_path k2` leaves the file `get_file_path k1` unchanged when the two paths differ,
and the two paths are equal exactly when the two keys have the same `simple_hash`. -/
theorem store_preserves_other_entries (env1 env2 : storage_env) (st : storage_state)
    (k1 k2 d1 d2 : List Nat)
    (hne : secure_storage_filename k1 ≠ secure_storage_filename k2)
    (h1 : (secure_storage_store env1 st k1 d1).1 = 0) :
    secure_storage_retrieve
        (secure_storage_store env2 (secure_storage_store env1 st k1 d1).2 k2 d2).2 k1
        d1.length = (0, d1) ∧
      (∀ data_len : Nat,
        secure_storage_retrieve
            (secure_storage_store env2 (secure_storage_store env1 st k1 d1).2 k2 d2).2 k1
            data_len =
          secure_storage_retrieve (secure_storage_store env1 st k1 d1).2 k1 data_len) ∧
      (get_file_path k1 ≠ get_file_path k2 →
        ∀ (files : List Nat → Option (List Nat)) (content : List Nat),
          fs_write files (get_file_path k2) content (get_file_path k1) =
            files (get_file_path k1)) ∧
      (get_file_path k1 = get_file_path k2 ↔ simple_hash k1 = simple_hash k2) := by
  have hf := secure_storage_store_frame env2 (secure_storage_store env1 st k1 d1).2 k2 d2
  have hc : ∀ n, secure_storage_retrieve
      (secure_storage_store env2 (secure_storage_store env1 st k1 d1).2 k2 d2).2 k1 n =
      secure_storage_retrieve (secure_storage_store env1 st k1 d1).2 k1 n := fun n =>
    secure_storage_retrieve_congr _ _ k1 n hf.1 hf.2.1 (hf.2.2 _ hne)
  refine ⟨?_, hc, ?_, get_file_path_eq_iff k1 k2⟩
  · rw [hc]
    exact secure_storage_retrieve_after_store env1 st k1 d1 h1
  · intro hp files content
    simp only [fs_write, hp, if_false]

theorem simple_hash_signed_ascii (input : List Nat) (h : ∀ c ∈ input, c < 128) :
    simple_hash_signed input = simple_hash input := by
  have hf : ∀ (l : List Nat) (a : Nat), (∀ c ∈ l, c < 128) →
      l.foldl (fun hash c => ((hash * 31 + char_value_signed c) % 2 ^ 32) &&& 0xFFFFFFFF) a =
        l.foldl (fun hash c => ((hash * 31 + c) % 2 ^ 32) &&& 0xFFFFFFFF) a := by
    intro l
    induction l with
    | nil => intro a _; rfl
    | cons x l ih =>
      intro a hl
      have hx : char_value_signed x = x := by
        rw [char_value_signed, if_pos (hl x (List.mem_cons_self _ _))]
      rw [List.foldl_cons, List.foldl_cons, hx]
      exact ih _ (fun c hc => hl c (List.mem_cons_of_mem _ hc))
  simp only [simple_hash_signed, simple_hash, hf input 0 h]

/-- C20, at a failing input: the keys "a" and "b".  Their hash strings, `00000061` and
`00000062`, differ, with `char` signed or unsigned, and so do their `get_file_path` files;
`secure_storage_store` and `secure_storage_retrieve` name the file after the first four
characters of the hash string, which gives `30303030.enc` for both keys.  After a successful
store of `[1]` under "a" and a successful store of `[2]` under "b",
`secure_storage_retrieve` of "a" returns 0 and writes `[2]`, not `[1]`. -/
theorem store_under_b_replaces_entry_of_a :
    c_str "a" ≠ c_str "b" ∧
      simple_hash (c_str "a") = c_str "00000061" ∧
      simple_hash (c_str "b") = c_str "00000062" ∧
      simple_hash_signed (c_str "a") = c_str "00000061" ∧
      simple_hash_signed (c_str "b") = c_str "00000062" ∧
      get_file_path (c_str "a") = STORAGE_DIR ++ c_str "/00000061.enc" ∧
      get_file_path (c_str "b") = STORAGE_DIR ++ c_str "/00000062.enc" ∧
      get_file_path (c_str "a") ≠ get_file_path (c_str "b") ∧
      secure_storage_filename (c_str "a") = STORAGE_DIR ++ c_str "/30303030.enc" ∧
      secure_storage_filename (c_str "b") = STORAGE_DIR ++ c_str "/30303030.enc" ∧
      (secure_storage_store plain_env empty_store (c_str "a") [1]).1 = 0 ∧
      (secure_storage_store plain_env
        (secure_storage_store plain_env empty_store (c_str "a") [1]).2 (c_str "b") [2]).1 = 0 ∧
      secure_storage_retrieve
        (secure_storage_store plain_env
          (secure_storage_store plain_env empty_store (c_str "a") [1]).2 (c_str "b") [2]).2
        (c_str "a") 1 = (0, [2]) ∧
      secure_storage_retrieve
        (secure_storage_store plain_env
          (secure_storage_store plain_env empty_store (c_str "a") [1]).2 (c_str "b") [2]).2
        (c_str "a") 1 ≠ (0, [1]) := by
  have h1 := secure_storage_store_plain empty_store (c_str "a") [1] (by decide)
  have hi : (secure_storage_store plain_env empty_store (c_str "a") [1]).2.g_initialized ≠ 0 := by
    rw [(secure_storage_store_frame _ _ _ _).1]; decide
  have h2 := secure_storage_store_plain _ (c_str "b") [2] hi
  have hr : secure_storage_retrieve
      (secure_storage_store plain_env
        (secure_storage_store plain_env empty_store (c_str "a") [1]).2 (c_str "b") [2]).2
      (c_str "a") 1 = (0, [2]) := by
    rw [secure_storage_retrieve_same_file _ (c_str "a") (c_str "b") 1 (by decide)]
    exact secure_storage_retrieve_after_store _ _ (c_str "b") [2] h2
  refine ⟨by decide, by decide, by decide, by decide, by decide, by decide, by decide,
    by decide, by decide, by decide, h1, h2, hr, ?_⟩
  rw [hr]
  decide

/-! ## SHA-512: the streaming code and the padded-block reference -/

theorem sha512_transform_take (state data : List Nat) (h : 128 ≤ data.length) :
    sha512_transform state (data.take 128) = sha512_transform state data := by
  have hd : data = data.take 128 ++ data.drop 128 := (List.take_append_drop 128 data).symm
  conv_rhs => rw [hd]
  rw [sha512_transform_append _ _ _ (by rw [List.length_take]; omega)]

theorem sha512_fold_blocks_append (a : Nat) :
    ∀ (b : Nat) (state A B : List Nat), A.length = 128 * a →
      sha512_fold_blocks (a + b) state (A ++ B) =
        sha512_fold_blocks b (sha512_fold_blocks a state A) B := by
  induction a with
  | zero =>
    intro b state A B h
    have : A = [] := List.length_eq_zero.mp (by omega)
    subst this
    simp [sha512_fold_blocks]
  | succ a ih =>
    intro b state A B h
    have e : a + 1 + b = (a + b) + 1 := by omega
    rw [e, sha512_fold_blocks, sha512_fold_blocks,
      List.take_append_of_le_length (by omega), List.drop_append_of_le_length (by omega)]
    exact ih b _ _ _ (by rw [List.length_drop]; omega)

theorem sha512_fold_blocks_prefix (n : Nat) :
    ∀ (state A B : List Nat), 128 * n ≤ A.length →
      sha512_fold_blocks n state (A ++ B) = sha512_fold_blocks n state A := by
  induction n with
  | zero => intro state A B _; rfl
  | succ n ih =>
    intro state A B h
    rw [sha512_fold_blocks, sha512_fold_blocks,
      List.take_append_of_le_length (by omega), List.drop_append_of_le_length (by omega)]
    exact ih _ _ _ (by rw [List.length_drop]; omega)

theorem sha512_update_loop_eq (fuel : Nat) :
    ∀ (state data : List Nat), data.length / 128 ≤ fuel →
      sha512_update_loop fuel state data =
        (sha512_fold_blocks (data.length / 128) state data,
          data.drop (data.length / 128 * 128)) := by
  induction fuel with
  | zero =>
    intro state data h
    have h0 : data.length / 128 = 0 := by omega
    simp [sha512_update_loop, h0, sha512_fold_blocks]
  | succ fuel ih =>
    intro state data h
    by_cases hl : 127 < data.length
    · have e : data.length / 128 = (data.drop 128).length / 128 + 1 := by
        rw [List.length_drop]; omega
      rw [sha512_update_loop, if_pos hl, ih _ _ (by rw [List.length_drop]; omega), e,
        sha512_fold_blocks, List.drop_drop]
      congr 2
      rw [List.length_drop]
      omega
    · have h0 : data.length / 128 = 0 := by omega
      simp [sha512_update_loop, hl, h0, sha512_fold_blocks]

theorem sha512_count_low (L len : Nat) (hlen : len < 2 ^ 64) :
    ((8 * L) % 2 ^ 64 + ((len % 2 ^ 64) <<< 3) % 2 ^ 64) % 2 ^ 64 =
      (8 * (L + len)) % 2 ^ 64 := by
  have e1 : (len % 2 ^ 64) <<< 3 = 8 * len := by
    rw [Nat.shiftLeft_eq, Nat.mod_eq_of_lt hlen]; omega
  rw [e1]
  omega

theorem sha512_count_high (L len : Nat) (hlen : len < 2 ^ 64) (hL : L + len < 2 ^ 100) :
    ((if (8 * (L + len)) % 2 ^ 64 < ((len % 2 ^ 64) <<< 3) % 2 ^ 64
        then ((8 * L) / 2 ^ 64 + 1) % 2 ^ 64 else (8 * L) / 2 ^ 64) +
      ((len % 2 ^ 64) >>> 61)) % 2 ^ 64 = (8 * (L + len)) / 2 ^ 64 := by
  have e1 : (len % 2 ^ 64) <<< 3 = 8 * len := by
    rw [Nat.shiftLeft_eq, Nat.mod_eq_of_lt hlen]; omega
  have e2 : (len % 2 ^ 64) >>> 61 = len / 2 ^ 61 := by
    rw [Nat.shiftRight_eq_div_pow, Nat.mod_eq_of_lt hlen]
  rw [e1, e2]
  norm_num at hlen hL ⊢
  split <;> omega

theorem sha512_index_eq (L : Nat) : (((8 * L) % 2 ^ 64) >>> 3) &&& 0x7F = L % 128 := by
  rw [Nat.shiftRight_eq_div_pow, show (0x7F : Nat) = 2 ^ 7 - 1 from rfl,
    Nat.and_pow_two_sub_one_eq_mod]
  norm_num
  omega

theorem sha512_update_eq (ctx : sha512_ctx) (data : List Nat) (L : Nat)
    (hc : ctx.count = [(8 * L) % 2 ^ 64, (8 * L) / 2 ^ 64])
    (hlen : data.length < 2 ^ 64) (hL : L + data.length < 2 ^ 100) :
    sha512_update ctx data =
      if 128 - L % 128 ≤ data.length then
        { state := (sha512_update_loop data.length
            (sha512_transform ctx.state (memcpy_at ctx.buffer (L % 128) data (128 - L % 128)))
            (data.drop (128 - L % 128))).1,
          count := [(8 * (L + data.length)) % 2 ^ 64, (8 * (L + data.length)) / 2 ^ 64],
          buffer := memcpy_at (memcpy_at ctx.buffer (L % 128) data (128 - L % 128)) 0
            (sha512_update_loop data.length
              (sha512_transform ctx.state (memcpy_at ctx.buffer (L % 128) data (128 - L % 128)))
              (data.drop (128 - L % 128))).2
            (sha512_update_loop data.length
              (sha512_transform ctx.state (memcpy_at ctx.buffer (L % 128) data (128 - L % 128)))
              (data.drop (128 - L % 128))).2.length }
      else
        { state := ctx.state,
          count := [(8 * (L + data.length)) % 2 ^ 64, (8 * (L + data.length)) / 2 ^ 64],
          buffer := memcpy_at ctx.buffer (L % 128) data data.length } := by
  simp only [sha512_update, hc, List.getD_cons_zero, List.getD_cons_succ, sha512_index_eq,
    sha512_count_low L data.length hlen, sha512_count_high L data.length hlen hL, ge_iff_le]

theorem sha512_absorbed_tail_length (M : List Nat) :
    (M.drop (M.length / 128 * 128)).length = M.length % 128 := by
  rw [List.length_drop]
  omega

theorem sha512_update_absorbed (ctx : sha512_ctx) (M data : List Nat)
    (h : sha512_absorbed ctx M) (hlen : data.length < 2 ^ 64)
    (hL : M.length + data.length < 2 ^ 100) :
    sha512_absorbed (sha512_update ctx data) (M ++ data) := by
  obtain ⟨hs, hc, hb⟩ := h
  have hT := sha512_absorbed_tail_length M
  have hA : (M.take (M.length / 128 * 128)).length = 128 * (M.length / 128) := by
    rw [List.length_take]; omega
  have hstate0 : ctx.state = sha512_fold_blocks (M.length / 128)
      (sha512_init sha512_ctx_local).state (M.take (M.length / 128 * 128)) := by
    have hp := sha512_fold_blocks_prefix (M.length / 128) (sha512_init sha512_ctx_local).state
      (M.take (M.length / 128 * 128)) (M.drop (M.length / 128 * 128)) (by rw [hA])
    rw [List.take_append_drop] at hp
    rw [hs, hp]
  rw [sha512_update_eq ctx data M.length hc hlen hL]
  by_cases hcase : 128 - M.length % 128 ≤ data.length
  · rw [if_pos hcase]
    have hbuf1 : memcpy_at ctx.buffer (M.length % 128) data (128 - M.length % 128) =
        (M.drop (M.length / 128 * 128) ++ data.take (128 - M.length % 128)) ++
          ctx.buffer.drop (M.length % 128 + (128 - M.length % 128)) := by
      rw [memcpy_at, hb]
    have hlen1 : (M.drop (M.length / 128 * 128) ++ data.take (128 - M.length % 128)).length =
        128 := by
      rw [List.length_append, hT, List.length_take]; omega
    have hrest : (data.drop (128 - M.length % 128)).length / 128 ≤ data.length := by
      rw [List.length_drop]
      exact Nat.le_trans (Nat.div_le_self _ _) (Nat.sub_le _ _)
    rw [hbuf1, sha512_transform_append _ _ _ hlen1, sha512_update_loop_eq _ _ _ hrest]
    have hrl : (data.drop (128 - M.length % 128)).length =
        data.length - (128 - M.length % 128) := List.length_drop _ _
    have hq : (M.length + data.length) / 128 =
        M.length / 128 + (1 + (data.drop (128 - M.length % 128)).length / 128) := by
      rw [hrl]; omega
    have hTD : (M.drop (M.length / 128 * 128) ++ data).take 128 =
        M.drop (M.length / 128 * 128) ++ data.take (128 - M.length % 128) := by
      rw [List.take_append_eq_append_take, hT, List.take_of_length_le (by rw [hT]; omega)]
    have hDD : (M.drop (M.length / 128 * 128) ++ data).drop 128 =
        data.drop (128 - M.length % 128) := by
      rw [List.drop_append_eq_append_drop, hT, List.drop_of_length_le (by rw [hT]; omega),
        List.nil_append]
    refine ⟨?_, ?_, ?_⟩
    · show _ = sha512_fold_blocks ((M ++ data).length / 128) _ (M ++ data)
      have hfa := sha512_fold_blocks_append (M.length / 128)
        ((data.drop (128 - M.length % 128)).length / 128 + 1)
        (sha512_init sha512_ctx_local).state (M.take (M.length / 128 * 128))
        (M.drop (M.length / 128 * 128) ++ data) hA
      rw [← List.append_assoc, List.take_append_drop, ← hstate0, sha512_fold_blocks, hTD,
        hDD] at hfa
      rw [List.length_append, hq, Nat.add_comm 1, hfa]
    · show _ = [(8 * (M ++ data).length) % 2 ^ 64, (8 * (M ++ data).length) / 2 ^ 64]
      rw [List.length_append]
    · show List.take ((M ++ data).length % 128) (memcpy_at _ 0 _ _) =
        (M ++ data).drop ((M ++ data).length / 128 * 128)
      have hlo : ((data.drop (128 - M.length % 128)).drop
          ((data.drop (128 - M.length % 128)).length / 128 * 128)).length =
          (M ++ data).length % 128 := by
        rw [List.length_drop, hrl, List.length_append]; omega
      have hRHS : (M ++ data).drop ((M ++ data).length / 128 * 128) =
          (data.drop (128 - M.length % 128)).drop
            ((data.drop (128 - M.length % 128)).length / 128 * 128) := by
        rw [List.drop_append_eq_append_drop,
          List.drop_of_length_le (by rw [List.length_append]; omega), List.nil_append,
          List.drop_drop]
        congr 1
        rw [hrl, List.length_append]
        omega
      rw [hRHS, ← hlo]
      simp only [memcpy_at, List.take_zero, List.nil_append, List.take_length, Nat.zero_add,
        List.take_left]
  · rw [if_neg hcase]
    have hq : (M.length + data.length) / 128 = M.length / 128 := by omega
    have hr : (M.length + data.length) % 128 = M.length % 128 + data.length := by omega
    refine ⟨?_, ?_, ?_⟩
    · show ctx.state = sha512_fold_blocks ((M ++ data).length / 128) _ (M ++ data)
      rw [List.length_append, hq, sha512_fold_blocks_prefix _ _ _ _ (by omega), hs]
    · show _ = [(8 * (M ++ data).length) % 2 ^ 64, (8 * (M ++ data).length) / 2 ^ 64]
      rw [List.length_append]
    · show List.take ((M ++ data).length % 128) (memcpy_at _ _ _ _) =
        (M ++ data).drop ((M ++ data).length / 128 * 128)
      rw [List.length_append, hq, hr, memcpy_at, hb, List.take_length,
        List.take_left' (by rw [List.length_append, hT]),
        List.drop_append_of_le_length (by omega)]

theorem sha512_init_absorbed (ctx : sha512_ctx) : sha512_absorbed (sha512_init ctx) [] :=
  ⟨rfl, rfl, rfl⟩

theorem sha512_final_eq_store (ctx : sha512_ctx) :
    sha512_final ctx = sha512_store_state (sha512_final_ctx ctx).state := rfl

theorem store64_eq_be (v : Nat) : store64 v = nat_to_be_bytes v 8 := by
  have hr : List.range 8 = [0, 1, 2, 3, 4, 5, 6, 7] := by decide
  simp only [store64, nat_to_be_bytes, hr, List.map_cons, List.map_nil,
    Nat.shiftRight_eq_div_pow, show (0xff : Nat) = 2 ^ 8 - 1 from rfl,
    Nat.and_pow_two_sub_one_eq_mod]
  norm_num

theorem sha512_bits_eq_be (n : Nat) :
    store64 (n / 2 ^ 64) ++ store64 (n % 2 ^ 64) = nat_to_be_bytes n 16 := by
  have hr : List.range 16 = [0, 1, 2, 3, 4, 5, 6, 7, 8, 9, 10, 11, 12, 13, 14, 15] := by decide
  simp only [store64, nat_to_be_bytes, hr, List.map_cons, List.map_nil,
    Nat.shiftRight_eq_div_pow, show (0xff : Nat) = 2 ^ 8 - 1 from rfl,
    Nat.and_pow_two_sub_one_eq_mod, List.cons_append, List.nil_append]
  norm_num
  and_intros <;> omega

theorem sha512_store_state_eq_be (state : List Nat) :
    sha512_store_state state =
      (List.range 8).foldr (fun i acc => nat_to_be_bytes (state.getD i 0) 8 ++ acc) [] := by
  simp only [sha512_store_state, store64_eq_be]

theorem sha512_final_pad_len_eq (ctx : sha512_ctx) (L : Nat)
    (hc : ctx.count = [(8 * L) % 2 ^ 64, (8 * L) / 2 ^ 64]) :
    sha512_final_pad_len ctx = sha512_reference_zeros L + 1 := by
  simp only [sha512_final_pad_len, hc, List.getD_cons_zero, sha512_index_eq,
    sha512_reference_zeros]
  split <;> omega

theorem sha512_padding_eq (k : Nat) :
    sha512_padding (k + 1) = [0x80] ++ List.replicate k 0 := rfl

theorem sha512_reference_pad_length (M : List Nat) :
    (sha512_reference_pad M).length % 128 = 0 := by
  simp only [sha512_reference_pad, sha512_reference_zeros, nat_to_be_bytes, List.length_append,
    List.length_replicate, List.length_map, List.length_range, List.length_cons,
    List.length_nil]
  omega

theorem sha512_final_ctx_absorbed (ctx : sha512_ctx) (M : List Nat)
    (h : sha512_absorbed ctx M) (hM : M.length < 2 ^ 64) :
    sha512_absorbed (sha512_final_ctx ctx) (sha512_reference_pad M) := by
  have hc := h.2.1
  have hpl := sha512_final_pad_len_eq ctx M.length hc
  have hz : sha512_reference_zeros M.length < 128 := by
    simp only [sha512_reference_zeros]; omega
  have hbits : store64 (ctx.count.getD 1 0) ++ store64 (ctx.count.getD 0 0) =
      nat_to_be_bytes (8 * M.length) 16 := by
    rw [hc]
    exact sha512_bits_eq_be (8 * M.length)
  have hplen : (sha512_padding (sha512_final_pad_len ctx)).length =
      sha512_reference_zeros M.length + 1 := by
    rw [hpl, sha512_padding_eq]
    simp
  have h1 := sha512_update_absorbed ctx M (sha512_padding (sha512_final_pad_len ctx)) h
    (by rw [hplen]; norm_num; omega) (by rw [hplen]; norm_num at hM ⊢; omega)
  have hblen : (nat_to_be_bytes (8 * M.length) 16).length = 16 := by
    simp [nat_to_be_bytes]
  have h2 := sha512_update_absorbed _ _ (nat_to_be_bytes (8 * M.length) 16) h1
    (by rw [hblen]; norm_num)
    (by rw [hblen, List.length_append, hplen]; norm_num at hM ⊢; omega)
  simp only [sha512_final_ctx, hbits]
  rw [hpl, sha512_padding_eq, ← List.append_assoc] at h2
  rw [hpl, sha512_padding_eq]
  exact h2

theorem sha512_final_absorbed (ctx : sha512_ctx) (M : List Nat)
    (h : sha512_absorbed ctx M) (hM : M.length < 2 ^ 64) :
    sha512_final ctx = sha512_reference M := by
  have ha := (sha512_final_ctx_absorbed ctx M h hM).1
  rw [sha512_final_eq_store, ha, sha512_store_state_eq_be]
  rfl

theorem sha512_update_chunks_absorbed (chunks : List (List Nat)) :
    ∀ (ctx : sha512_ctx) (M : List Nat), sha512_absorbed ctx M →
      M.length + (concat_chunks chunks).length < 2 ^ 64 →
      sha512_absorbed (sha512_update_chunks ctx chunks) (M ++ concat_chunks chunks) := by
  induction chunks with
  | nil =>
    intro ctx M h _
    simpa [sha512_update_chunks, concat_chunks] using h
  | cons c cs ih =>
    intro ctx M h hlen
    have hcc : concat_chunks (c :: cs) = c ++ concat_chunks cs := rfl
    rw [hcc, List.length_append] at hlen
    have h1 := sha512_update_absorbed ctx M c h (by omega) (by norm_num at hlen ⊢; omega)
    have h2 := ih (sha512_update ctx c) (M ++ c) h1 (by rw [List.length_append]; omega)
    rw [hcc, ← List.append_assoc]
    exact h2

theorem sha512_eq_reference (m : List Nat) (hm : m.length < 2 ^ 64) :
    sha512 m = sha512_reference m := by
  have h := sha512_update_absorbed _ [] m (sha512_init_absorbed sha512_ctx_local) hm
    (by simp only [List.length_nil]; norm_num at hm ⊢; omega)
  rw [List.nil_append] at h
  exact sha512_final_absorbed _ m h hm

theorem sha512_update_count_low (ctx : sha512_ctx) (data : List Nat) :
    (sha512_update ctx data).count.getD 0 0 =
      (ctx.count.getD 0 0 + ((data.length % 2 ^ 64) <<< 3) % 2 ^ 64) % 2 ^ 64 := by
  simp only [sha512_update]
  split <;> rfl

theorem sha512_final_pad_len_bounds (ctx : sha512_ctx) :
    1 ≤ sha512_final_pad_len ctx ∧ sha512_final_pad_len ctx ≤ 128 := by
  simp only [sha512_final_pad_len, show (0x7f : Nat) = 2 ^ 7 - 1 from rfl,
    Nat.and_pow_two_sub_one_eq_mod]
  split <;> omega

theorem sha512_final_ctx_index (ctx : sha512_ctx) :
    ((sha512_final_ctx ctx).count.getD 0 0 >>> 3) &&& 0x7f = 0 := by
  have hb := sha512_final_pad_len_bounds ctx
  have hp : (sha512_padding (sha512_final_pad_len ctx)).length = sha512_final_pad_len ctx :=
    sha512_padding_length _ (by omega)
  have hbits : (store64 (ctx.count.getD 1 0) ++ store64 (ctx.count.getD 0 0)).length = 16 := rfl
  have hpl : sha512_final_pad_len ctx =
      if ctx.count.getD 0 0 / 8 % 128 < 112 then 112 - ctx.count.getD 0 0 / 8 % 128
      else 240 - ctx.count.getD 0 0 / 8 % 128 := by
    simp only [sha512_final_pad_len, show (0x7f : Nat) = 2 ^ 7 - 1 from rfl,
      Nat.and_pow_two_sub_one_eq_mod, Nat.shiftRight_eq_div_pow]
  rw [sha512_final_ctx, sha512_update_count_low, sha512_update_count_low, hp, hbits, hpl]
  generalize ctx.count.getD 0 0 = c
  simp only [show (0x7f : Nat) = 2 ^ 7 - 1 from rfl, Nat.and_pow_two_sub_one_eq_mod,
    Nat.shiftRight_eq_div_pow, Nat.shiftLeft_eq]
  norm_num
  split <;> omega

theorem sha512_reference_zeros_least (len j : Nat) (h : j < sha512_reference_zeros len) :
    (len + 1 + j + 16) % 128 ≠ 0 := by
  simp only [sha512_reference_zeros] at h
  omega

/-! ## Claims C11 and C12 -/

/-- C11. SHA-512 incremental equivalence: for every list of chunks whose total length fits a
`size_t`, `sha512_final` after `sha512_init` and one `sha512_update` per chunk, in order,
gives the digest of the one-shot `sha512` of the concatenation, 64 bytes; this holds
whatever the context held before `sha512_init`, for empty chunks and for chunks that
straddle block boundaries. -/
theorem sha512_incremental (ctx0 : sha512_ctx) (chunks : List (List Nat))
    (h : (concat_chunks chunks).length < 2 ^ 64) :
    sha512_final (sha512_update_chunks (sha512_init ctx0) chunks) =
        sha512 (concat_chunks chunks) ∧
      (sha512_final (sha512_update_chunks (sha512_init ctx0) chunks)).length = 64 := by
  have ha := sha512_update_chunks_absorbed chunks (sha512_init ctx0) []
    (sha512_init_absorbed ctx0) (by simpa using h)
  rw [List.nil_append] at ha
  exact ⟨(sha512_final_absorbed _ _ ha h).trans (sha512_eq_reference _ h).symm,
    sha512_final_length _⟩

/-- Witness of C11 with the chunks `[1, 2]`, `[]` and `[3]`. -/
theorem sha512_incremental_witness :
    (concat_chunks [[1, 2], [], [3]]).length < 2 ^ 64 ∧
      sha512_final (sha512_update_chunks (sha512_init sha512_ctx_local) [[1, 2], [], [3]]) =
        sha512 (concat_chunks [[1, 2], [], [3]]) :=
  ⟨by decide, (sha512_incremental sha512_ctx_local [[1, 2], [], [3]] (by decide)).1⟩

set_option maxRecDepth 100000 in
theorem sha512_abc : sha512 (c_str "abc") = sha512_abc_vector := by
  decide!

/-- C12. SHA-512 equals the padded-block reference: for every message `m` whose length fits
a `size_t`, `sha512(m)` is the big-endian serialisation of the eight state words obtained by
folding the compression function, from the initial hash value, over the 128-byte blocks of
`m ++ 0x80 ++ (k zero bytes) ++ (128-bit big-endian encoding of 8 * |m|)`, where `k` is the
least number that makes the total length a multiple of 128.  In `sha512_final`, for every
context, the pad length is between 1 and 128, the buffer index is 0 after the length is
appended, and the digest is the serialised state.  `sha512("abc")` is `ddaf35a1...a54ca49f`. -/
theorem sha512_matches_reference (m : List Nat) (hm : m.length < 2 ^ 64) :
    sha512 m = sha512_reference m ∧
      (sha512_reference_pad m).length % 128 = 0 ∧
      (∀ j : Nat, j < sha512_reference_zeros m.length → (m.length + 1 + j + 16) % 128 ≠ 0) ∧
      (∀ ctx : sha512_ctx, 1 ≤ sha512_final_pad_len ctx ∧ sha512_final_pad_len ctx ≤ 128) ∧
      (∀ ctx : sha512_ctx, ((sha512_final_ctx ctx).count.getD 0 0 >>> 3) &&& 0x7f = 0) ∧
      (∀ ctx : sha512_ctx, sha512_final ctx = sha512_store_state (sha512_final_ctx ctx).state) ∧
      sha512 (c_str "abc") = sha512_abc_vector :=
  ⟨sha512_eq_reference m hm, sha512_reference_pad_length m,
    fun j hj => sha512_reference_zeros_least m.length j hj, sha512_final_pad_len_bounds,
    sha512_final_ctx_index, sha512_final_eq_store, sha512_abc⟩

/-- Witness of C12 at the message "abc". -/
theorem sha512_matches_reference_witness :
    (c_str "abc").length < 2 ^ 64 ∧ sha512 (c_str "abc") = sha512_reference (c_str "abc") :=
  ⟨by decide, (sha512_matches_reference (c_str "abc") (by decide)).1⟩

/-! ## Claim C13 -/

theorem ed25519_verify_eq_zero_of_ne (sig message public_key : List Nat)
    (hlen : sig.length = 64)
    (hne : ge_scalarmult_base (sig.drop 32) ≠ sig.take 32) :
    ed25519_verify sig message public_key = 0 := by
  have hiff := (foldl_or_xor_eq_zero (ge_scalarmult_base (sig.drop 32)) sig 32).trans
    (getD_eq_iff_eq_take (ge_scalarmult_base (sig.drop 32)) sig 32
      (ge_scalarmult_base_length _) (by omega))
  rw [ed25519_verify_eq]
  split
  · rfl
  · rw [if_neg (fun hz => hne (hiff.mp hz))]

theorem sha512_final_update_chunks (ctx0 : sha512_ctx) (chunks : List (List Nat))
    (h : (concat_chunks chunks).length < 2 ^ 64) :
    sha512_final (sha512_update_chunks (sha512_init ctx0) chunks) =
      sha512 (concat_chunks chunks) := by
  have ha := sha512_update_chunks_absorbed chunks (sha512_init ctx0) []
    (sha512_init_absorbed ctx0) (by simpa using h)
  rw [List.nil_append] at ha
  exact (sha512_final_absorbed _ _ ha h).trans (sha512_eq_reference _ h).symm

theorem ed25519_sign_eq (message private_key public_key : List Nat)
    (hm : message.length + 64 < 2 ^ 64) :
    ed25519_sign message private_key public_key =
      ge_scalarmult_base
          (sc_reduce (sha512
            (((ed25519_clamp (sha512 (private_key.take 32))).drop 32).take 32 ++ message))) ++
        sc_muladd
          (sc_reduce (sha512
            (ge_scalarmult_base
                (sc_reduce (sha512
                  (((ed25519_clamp (sha512 (private_key.take 32))).drop 32).take 32 ++
                    message))) ++
              (public_key.take 32 ++ message))))
          (ed25519_clamp (sha512 (private_key.take 32)))
          (sc_reduce (sha512
            (((ed25519_clamp (sha512 (private_key.take 32))).drop 32).take 32 ++ message))) := by
  have hR : ∀ x, (ge_scalarmult_base x).take 32 = ge_scalarmult_base x := fun x =>
    List.take_of_length_le (by rw [ge_scalarmult_base_length])
  have h1 : ∀ a : List Nat, sha512_final (sha512_update (sha512_update
      (sha512_init sha512_ctx_local) (a.take 32)) message) = sha512 (a.take 32 ++ message) := by
    intro a
    have h := sha512_final_update_chunks sha512_ctx_local [a.take 32, message]
      (by
        simp only [concat_chunks, List.foldr_cons, List.foldr_nil, List.append_nil,
          List.length_append, List.length_take]
        omega)
    simpa only [concat_chunks, List.foldr_cons, List.foldr_nil, List.append_nil] using h
  have h2 : ∀ (ctx0 : sha512_ctx) (a b : List Nat), sha512_final (sha512_update (sha512_update
      (sha512_update (sha512_init ctx0) (a.take 32)) (b.take 32)) message) =
        sha512 (a.take 32 ++ (b.take 32 ++ message)) := by
    intro ctx0 a b
    have h := sha512_final_update_chunks ctx0 [a.take 32, b.take 32, message]
      (by
        simp only [concat_chunks, List.foldr_cons, List.foldr_nil, List.append_nil,
          List.length_append, List.length_take]
        omega)
    simpa only [concat_chunks, List.foldr_cons, List.foldr_nil, List.append_nil] using h
  have h3 : ∀ (ctx0 : sha512_ctx) (x b : List Nat), sha512_final (sha512_update (sha512_update
      (sha512_update (sha512_init ctx0) (ge_scalarmult_base x)) (b.take 32)) message) =
        sha512 (ge_scalarmult_base x ++ (b.take 32 ++ message)) := by
    intro ctx0 x b
    have h := h2 ctx0 (ge_scalarmult_base x) b
    rwa [hR] at h
  simp only [ed25519_sign, h1, hR, h3]

set_option maxRecDepth 100000 in
theorem seed_two_hash_eq : ed25519_clamp (sha512 (List.replicate 32 2)) = seed_two_hash := by
  decide!

set_option maxRecDepth 100000 in
theorem seed_two_public_eq : ge_scalarmult_base seed_two_hash = seed_two_public := by
  decide!

set_option maxRecDepth 100000 in
theorem seed_two_nonce_eq :
    sc_reduce (sha512 ((seed_two_hash.drop 32).take 32 ++ c_str "test")) = seed_two_nonce := by
  decide!

set_option maxRecDepth 100000 in
theorem seed_two_commitment :
    ge_scalarmult_base seed_two_nonce = seed_two_signature.take 32 := by
  decide!

set_option maxRecDepth 100000 in
theorem seed_two_challenge_eq :
    sc_reduce (sha512 (seed_two_signature.take 32 ++ (seed_two_public ++ c_str "test"))) =
      seed_two_challenge := by
  decide!

set_option maxRecDepth 100000 in
theorem seed_two_response :
    sc_muladd seed_two_challenge seed_two_hash seed_two_nonce = seed_two_signature.drop 32 := by
  decide!

theorem ed25519_create_keypair_seed_two :
    ed25519_create_keypair (List.replicate 32 2) = (seed_two_public, List.replicate 32 2) := by
  have e1 : (List.replicate 32 2).take 32 = List.replicate 32 2 := rfl
  simp only [ed25519_create_keypair, e1, seed_two_hash_eq, seed_two_public_eq]

theorem ed25519_sign_seed_two :
    ed25519_sign (c_str "test") (List.replicate 32 2) seed_two_public = seed_two_signature := by
  have e1 : (List.replicate 32 2).take 32 = List.replicate 32 2 := rfl
  have e2 : seed_two_public.take 32 = seed_two_public := rfl
  rw [ed25519_sign_eq _ _ _ (by decide), e1, e2, seed_two_hash_eq, seed_two_nonce_eq,
    seed_two_commitment, seed_two_challenge_eq, seed_two_response]
  rfl

set_option maxRecDepth 100000 in
theorem ge_scalarmult_base_seed_two :
    ge_scalarmult_base (seed_two_signature.drop 32) ≠ seed_two_signature.take 32 := by
  decide!

/-- C13, at a failing input.  With the keypair that `ed25519_create_keypair` derives from the
seed of 32 bytes `0x02`, `ed25519_verify` returns 0 for the signature that `ed25519_sign`
makes of the four bytes "test"; the high three bits of byte 63 of that signature are clear,
and `ge_scalarmult_base` of its second half differs from its first half. -/
theorem ed25519_rejects_own_signature :
    ed25519_verify
        (ed25519_sign (c_str "test") (ed25519_create_keypair (List.replicate 32 2)).2
          (ed25519_create_keypair (List.replicate 32 2)).1)
        (c_str "test") (ed25519_create_keypair (List.replicate 32 2)).1 = 0 ∧
      ed25519_sign (c_str "test") (ed25519_create_keypair (List.replicate 32 2)).2
          (ed25519_create_keypair (List.replicate 32 2)).1 = seed_two_signature ∧
      seed_two_signature.getD 63 0 &&& 224 = 0 ∧
      ge_scalarmult_base (seed_two_signature.drop 32) ≠ seed_two_signature.take 32 := by
  rw [ed25519_create_keypair_seed_two]
  simp only [ed25519_sign_seed_two]
  exact ⟨ed25519_verify_eq_zero_of_ne _ _ _ (by decide) ge_scalarmult_base_seed_two, trivial,
    by decide, ge_scalarmult_base_seed_two⟩

/-! ## Claim C14 -/

theorem device_identity_verify_ignores_data (g : identity_state) (d1 d2 sig : List Nat) :
    device_identity_verify g d1 sig = device_identity_verify g d2 sig := by
  simp only [device_identity_verify, ed25519_verify_eq]

theorem device_identity_generate_of_seed (env : generate_env) (g : identity_state)
    (st : storage_state) (seed : List Nat)
    (hrnd : sovereign_random_bytes env.seed_dev 32 = (1, seed))
    (h1 : (secure_storage_store env.store_private st IDENTITY_KEY_PRIVATE
      ((ed25519_create_keypair seed).2.take 32)).1 = 0)
    (h2 : (secure_storage_store env.store_public
      (secure_storage_store env.store_private st IDENTITY_KEY_PRIVATE
        ((ed25519_create_keypair seed).2.take 32)).2 IDENTITY_KEY_PUBLIC
      ((ed25519_create_keypair seed).1.take 32)).1 = 0) :
    device_identity_generate env g st =
      (IDENTITY_OK,
        { private_key := (ed25519_create_keypair seed).2,
          public_key := (ed25519_create_keypair seed).1, loaded := 1 },
        (secure_storage_store env.store_public
          (secure_storage_store env.store_private st IDENTITY_KEY_PRIVATE
            ((ed25519_create_keypair seed).2.take 32)).2 IDENTITY_KEY_PUBLIC
          ((ed25519_create_keypair seed).1.take 32)).2) := by
  simp only [device_identity_generate, hrnd, one_ne_zero, if_false, h1, h2, ne_eq,
    not_true_eq_false]

theorem device_identity_generate_seed_two :
    (device_identity_generate generate_env_two identity_zero empty_store).1 = IDENTITY_OK ∧
      (device_identity_generate generate_env_two identity_zero empty_store).2.1 =
        seed_two_identity := by
  have hrnd : sovereign_random_bytes generate_env_two.seed_dev 32 =
      (1, List.replicate 32 2) := by decide
  have h1 : (secure_storage_store generate_env_two.store_private empty_store
      IDENTITY_KEY_PRIVATE ((ed25519_create_keypair (List.replicate 32 2)).2.take 32)).1 = 0 :=
    secure_storage_store_plain _ _ _ (by decide)
  have h2 : (secure_storage_store generate_env_two.store_public
      (secure_storage_store generate_env_two.store_private empty_store IDENTITY_KEY_PRIVATE
        ((ed25519_create_keypair (List.replicate 32 2)).2.take 32)).2 IDENTITY_KEY_PUBLIC
      ((ed25519_create_keypair (List.replicate 32 2)).1.take 32)).1 = 0 :=
    secure_storage_store_succeeds _ _ _ _ (List.replicate 32 0)
      (by rw [(secure_storage_store_frame _ _ _ _).1]; decide) rfl (by decide) rfl
  rw [device_identity_generate_of_seed generate_env_two identity_zero empty_store
    (List.replicate 32 2) hrnd h1 h2, ed25519_create_keypair_seed_two]
  exact ⟨rfl, rfl⟩

/-- C14, at a failing input.  `device_identity_verify` returns the same value for "test" and
for "tampered" whatever the identity and the signature, so no state gives 1 for the first and
0 for the second.  In the state that `device_identity_generate` reaches when it succeeds with
the seed of 32 bytes `0x02`, `device_identity_sign` of "test" gives `seed_two_signature`, and
`device_identity_verify` returns 0 for it with "test" as with "tampered". -/
theorem identity_scenario_rejects_own_signature :
    (∀ (g : identity_state) (sig : List Nat),
        device_identity_verify g (c_str "test") sig =
          device_identity_verify g (c_str "tampered") sig) ∧
      (device_identity_generate generate_env_two identity_zero empty_store).1 = IDENTITY_OK ∧
      (device_identity_generate generate_env_two identity_zero empty_store).2.1 =
        seed_two_identity ∧
      device_identity_sign seed_two_identity (c_str "test") =
        (IDENTITY_OK, seed_two_signature) ∧
      device_identity_verify seed_two_identity (c_str "test") seed_two_signature = 0 ∧
      device_identity_verify seed_two_identity (c_str "tampered") seed_two_signature = 0 := by
  have hv : ∀ d, device_identity_verify seed_two_identity d seed_two_signature = 0 := by
    intro d
    simp only [device_identity_verify, seed_two_identity, one_ne_zero, if_false,
      ed25519_verify_eq_zero_of_ne seed_two_signature d seed_two_public (by decide)
        ge_scalarmult_base_seed_two]
    rfl
  refine ⟨fun g sig => device_identity_verify_ignores_data g _ _ sig, ?_, ?_, ?_, hv _, hv _⟩
  · exact device_identity_generate_seed_two.1
  · exact device_identity_generate_seed_two.2
  · simp only [device_identity_sign, seed_two_identity, one_ne_zero, if_false,
      ed25519_sign_seed_two]

/-! ## Claims C21 and C22 -/

/-- C21. NotLoaded is surfaced: `device_identity_init` always returns `IDENTITY_OK` and
clears the loaded flag, keeping the key arrays; in a state whose loaded flag is 0 each of
`device_identity_get_public_key`, `device_identity_get_fingerprint`, `device_identity_sign`,
`device_identity_verify` and `device_identity_create_attestation` returns `IDENTITY_ERROR`,
which is -1, and writes no byte to its output buffer.  None of the five assigns to
`g_identity`, so the state after the call is the state before it. -/
theorem not_loaded_is_surfaced (g : identity_state) (data signature : List Nat) (max_len : Nat)
    (h : g.loaded = 0) :
    device_identity_get_public_key g = (IDENTITY_ERROR, []) ∧
      device_identity_get_fingerprint g = (IDENTITY_ERROR, []) ∧
      device_identity_sign g data = (IDENTITY_ERROR, []) ∧
      device_identity_verify g data signature = IDENTITY_ERROR ∧
      device_identity_create_attestation g max_len = (IDENTITY_ERROR, []) ∧
      IDENTITY_ERROR = -1 ∧
      (∀ g0 : identity_state,
        (device_identity_init g0).1 = IDENTITY_OK ∧ (device_identity_init g0).2.loaded = 0 ∧
          (device_identity_init g0).2.private_key = g0.private_key ∧
          (device_identity_init g0).2.public_key = g0.public_key ∧
          device_identity_sign (device_identity_init g0).2 data = (IDENTITY_ERROR, [])) := by
  refine ⟨?_, ?_, ?_, ?_, ?_, rfl, fun g0 => ⟨rfl, rfl, rfl, rfl, rfl⟩⟩
  · simp only [device_identity_get_public_key, h, if_true]
  · simp only [device_identity_get_fingerprint, h, if_true]
  · simp only [device_identity_sign, h, if_true]
  · simp only [device_identity_verify, h, if_true]
  · simp only [device_identity_create_attestation, h, if_true]

/-- Witness of C21 in the state `device_identity_init` leaves from `seed_two_identity`. -/
theorem not_loaded_is_surfaced_witness :
    (device_identity_init seed_two_identity).2.loaded = 0 ∧
      device_identity_get_public_key (device_identity_init seed_two_identity).2 =
        (IDENTITY_ERROR, []) :=
  ⟨rfl, (not_loaded_is_surfaced (device_identity_init seed_two_identity).2 [] [] 128 rfl).1⟩

theorem foldl_fst_length {α : Type} (f : List Nat × Nat → α → List Nat × Nat)
    (hf : ∀ st i, (f st i).1.length = st.1.length) (l : List α) (init : List Nat × Nat) :
    (l.foldl f init).1.length = init.1.length := by
  induction l generalizing init with
  | nil => rfl
  | cons a l ih => rw [List.foldl_cons, ih, hf]

theorem sc_reduce_length (out : List Nat) : (sc_reduce out).length = out.length := by
  simp only [sc_reduce]
  rw [foldl_fst_length _ (fun st i => by simp only [List.length_set]),
    foldl_fst_length _ (fun st i => by simp only [List.length_set])]

theorem sc_muladd_length (a b c : List Nat) : (sc_muladd a b c).length = 32 := by
  simp only [sc_muladd, List.length_take, sc_reduce_length, List.length_map, List.length_range]
  rfl

theorem ed25519_sign_length (message private_key public_key : List Nat) :
    (ed25519_sign message private_key public_key).length = 64 := by
  simp only [ed25519_sign, List.length_append, List.length_take, ge_scalarmult_base_length,
    sc_muladd_length]
  rfl

/-- C22. Attestation record layout: with a keypair loaded and `max_len ≥ 128`,
`device_identity_create_attestation` returns 128 and writes the public key, then the first
32 bytes of `sha512` of the public key, which is what `device_identity_get_fingerprint`
returns, then `ed25519_sign` of the 26 bytes "SovereignDroid.Attestation" with the loaded
keypair, 128 bytes in all; with `max_len < 128` it returns `IDENTITY_ERROR` and writes
nothing. -/
theorem attestation_layout (g : identity_state) (max_len : Nat) (hl : g.loaded ≠ 0)
    (hpub : g.public_key.length = 32) :
    (128 ≤ max_len →
        device_identity_create_attestation g max_len =
          (128, g.public_key ++ (sha512 g.public_key).take 32 ++
            ed25519_sign (c_str "SovereignDroid.Attestation") g.private_key g.public_key) ∧
        (device_identity_create_attestation g max_len).2.length = 128) ∧
      device_identity_get_fingerprint g = (IDENTITY_OK, (sha512 g.public_key).take 32) ∧
      (c_str "SovereignDroid.Attestation").length = 26 ∧
      (max_len < 128 → device_identity_create_attestation g max_len = (IDENTITY_ERROR, [])) := by
  have htake : g.public_key.take 32 = g.public_key := List.take_of_length_le (by omega)
  have hfp : device_identity_get_fingerprint g = (IDENTITY_OK, (sha512 g.public_key).take 32) := by
    simp only [device_identity_get_fingerprint, if_neg hl, htake]
  have hsig : device_identity_sign g (c_str "SovereignDroid.Attestation") =
      (IDENTITY_OK, ed25519_sign (c_str "SovereignDroid.Attestation") g.private_key
        g.public_key) := by
    simp only [device_identity_sign, if_neg hl]
  have hval : 128 ≤ max_len → device_identity_create_attestation g max_len =
      (128, g.public_key ++ (sha512 g.public_key).take 32 ++
        ed25519_sign (c_str "SovereignDroid.Attestation") g.private_key g.public_key) := by
    intro hm
    have hnot : ¬ max_len < 32 + 32 + 64 := by omega
    simp only [device_identity_create_attestation, if_neg hl, if_neg hnot, hfp, htake,
      List.take_length, hsig, List.take_take, min_self]
    rw [List.take_of_length_le (Nat.le_of_eq (ed25519_sign_length _ _ _))]
    rfl
  refine ⟨fun hm => ⟨hval hm, ?_⟩, hfp, by decide, ?_⟩
  · rw [hval hm]
    simp only [List.length_append, hpub, List.length_take, sha512_length, ed25519_sign_length]
    rfl
  · intro hm
    have hlt : max_len < 32 + 32 + 64 := by omega
    simp only [device_identity_create_attestation, if_neg hl, if_pos hlt]

/-- Witness of C22 at `seed_two_identity`, with a buffer of 128 bytes and with one of 127. -/
theorem attestation_layout_witness :
    seed_two_identity.loaded ≠ 0 ∧ seed_two_identity.public_key.length = 32 ∧
      (device_identity_create_attestation seed_two_identity 128).1 = 128 ∧
      (device_identity_create_attestation seed_two_identity 128).2.length = 128 ∧
      device_identity_create_attestation seed_two_identity 127 = (IDENTITY_ERROR, []) :=
  ⟨by decide, by decide,
    congrArg Prod.fst
      ((attestation_layout seed_two_identity 128 (by decide) (by decide)).1 (by decide)).1,
    ((attestation_layout seed_two_identity 128 (by decide) (by decide)).1 (by decide)).2,
    (attestation_layout seed_two_identity 127 (by decide) (by decide)).2.2.2 (by decide)⟩

/-! ## Claims C23 and C24 -/

theorem sovereign_random_bytes_seed (dev : Option (List Nat)) (length : Nat) (seed : List Nat)
    (h : sovereign_random_bytes dev length = (1, seed)) : seed.length = length := by
  obtain ⟨bytes, _, hlen, heq⟩ := sovereign_random_bytes_eq_one dev length (by rw [h]; exact one_ne_zero)
  rw [h] at heq
  rw [(Prod.mk.inj heq).2, List.length_take]
  omega

theorem device_identity_generate_store_private_fails (env : generate_env) (g : identity_state)
    (st : storage_state) (seed : List Nat)
    (hrnd : sovereign_random_bytes env.seed_dev 32 = (1, seed))
    (h1 : (secure_storage_store env.store_private st IDENTITY_KEY_PRIVATE
      ((ed25519_create_keypair seed).2.take 32)).1 ≠ 0) :
    (device_identity_generate env g st).1 = IDENTITY_ERROR ∧
      (device_identity_generate env g st).2.1 = identity_zero := by
  simp only [device_identity_generate, hrnd, one_ne_zero, if_false, if_pos h1, and_self]

theorem device_identity_generate_store_public_fails (env : generate_env) (g : identity_state)
    (st : storage_state) (seed : List Nat)
    (hrnd : sovereign_random_bytes env.seed_dev 32 = (1, seed))
    (h1 : (secure_storage_store env.store_private st IDENTITY_KEY_PRIVATE
      ((ed25519_create_keypair seed).2.take 32)).1 = 0)
    (h2 : (secure_storage_store env.store_public
      (secure_storage_store env.store_private st IDENTITY_KEY_PRIVATE
        ((ed25519_create_keypair seed).2.take 32)).2 IDENTITY_KEY_PUBLIC
      ((ed25519_create_keypair seed).1.take 32)).1 ≠ 0) :
    (device_identity_generate env g st).1 = IDENTITY_ERROR ∧
      (device_identity_generate env g st).2.1 = identity_zero := by
  simp only [device_identity_generate, hrnd, one_ne_zero, if_false, h1, ne_eq,
    not_true_eq_false, if_pos h2, and_self]

theorem device_identity_generate_ok (env : generate_env) (g : identity_state)
    (st : storage_state) (h : (device_identity_generate env g st).1 = IDENTITY_OK) :
    ∃ seed, sovereign_random_bytes env.seed_dev 32 = (1, seed) ∧ seed.length = 32 ∧
      (secure_storage_store env.store_private st IDENTITY_KEY_PRIVATE
        ((ed25519_create_keypair seed).2.take 32)).1 = 0 ∧
      (secure_storage_store env.store_public
        (secure_storage_store env.store_private st IDENTITY_KEY_PRIVATE
          ((ed25519_create_keypair seed).2.take 32)).2 IDENTITY_KEY_PUBLIC
        ((ed25519_create_keypair seed).1.take 32)).1 = 0 ∧
      device_identity_generate env g st =
        (IDENTITY_OK,
          { private_key := (ed25519_create_keypair seed).2,
            public_key := (ed25519_create_keypair seed).1, loaded := 1 },
          (secure_storage_store env.store_public
            (secure_storage_store env.store_private st IDENTITY_KEY_PRIVATE
              ((ed25519_create_keypair seed).2.take 32)).2 IDENTITY_KEY_PUBLIC
            ((ed25519_create_keypair seed).1.take 32)).2) := by
  by_cases hr : (sovereign_random_bytes env.seed_dev 32).1 = 0
  · simp only [device_identity_generate, hr, if_true] at h
    exact absurd h (by decide)
  · obtain ⟨bytes, _, hlen, hrnd⟩ := sovereign_random_bytes_eq_one env.seed_dev 32 hr
    refine ⟨bytes.take 32, hrnd, by rw [List.length_take]; omega, ?_⟩
    by_cases h1 : (secure_storage_store env.store_private st IDENTITY_KEY_PRIVATE
        ((ed25519_create_keypair (bytes.take 32)).2.take 32)).1 = 0
    · by_cases h2 : (secure_storage_store env.store_public
          (secure_storage_store env.store_private st IDENTITY_KEY_PRIVATE
            ((ed25519_create_keypair (bytes.take 32)).2.take 32)).2 IDENTITY_KEY_PUBLIC
          ((ed25519_create_keypair (bytes.take 32)).1.take 32)).1 = 0
      · exact ⟨h1, h2, device_identity_generate_of_seed env g st _ hrnd h1 h2⟩
      · rw [(device_identity_generate_store_public_fails env g st _ hrnd h1 h2).1] at h
        exact absurd h (by decide)
    · rw [(device_identity_generate_store_private_fails env g st _ hrnd h1).1] at h
      exact absurd h (by decide)

theorem ed25519_create_keypair_private (seed : List Nat) (h : seed.length = 32) :
    (ed25519_create_keypair seed).2 = seed := by
  simp only [ed25519_create_keypair]
  exact List.take_of_length_le (by omega)

theorem secure_storage_store_no_random (env : storage_env) (st : storage_state)
    (key data : List Nat) (h : env.urandom = none) :
    (secure_storage_store env st key data).1 ≠ 0 := by
  simp only [secure_storage_store, encrypt_data, h, sovereign_random_bytes, if_true]
  split <;> simp

/-- C23. Identity generation is all-or-nothing in memory.  When the seed has been drawn and
the store of the private key fails, or that store succeeds and the store of the public key
fails, `device_identity_generate` returns `IDENTITY_ERROR` and leaves `g_identity` zeroed:
loaded flag 0, private and public key 32 zero bytes each, so that `device_identity_sign` and
`device_identity_get_public_key` then return `IDENTITY_ERROR`.  When it returns
`IDENTITY_OK`, the seed was drawn, it has 32 bytes, the loaded flag is 1, the private key is
the seed and the public key is the one `ed25519_create_keypair` derives from it. -/
theorem generate_all_or_nothing (env : generate_env) (g : identity_state) (st : storage_state) :
    (∀ seed, sovereign_random_bytes env.seed_dev 32 = (1, seed) →
        ((secure_storage_store env.store_private st IDENTITY_KEY_PRIVATE
            ((ed25519_create_keypair seed).2.take 32)).1 ≠ 0 ∨
          (secure_storage_store env.store_public
            (secure_storage_store env.store_private st IDENTITY_KEY_PRIVATE
              ((ed25519_create_keypair seed).2.take 32)).2 IDENTITY_KEY_PUBLIC
            ((ed25519_create_keypair seed).1.take 32)).1 ≠ 0) →
        (device_identity_generate env g st).1 = IDENTITY_ERROR ∧
          (device_identity_generate env g st).2.1.loaded = 0 ∧
          (device_identity_generate env g st).2.1.private_key = List.replicate 32 0 ∧
          (device_identity_generate env g st).2.1.public_key = List.replicate 32 0 ∧
          (∀ data, device_identity_sign (device_identity_generate env g st).2.1 data =
            (IDENTITY_ERROR, [])) ∧
          device_identity_get_public_key (device_identity_generate env g st).2.1 =
            (IDENTITY_ERROR, [])) ∧
      ((device_identity_generate env g st).1 = IDENTITY_OK →
        ∃ seed, sovereign_random_bytes env.seed_dev 32 = (1, seed) ∧ seed.length = 32 ∧
          (device_identity_generate env g st).2.1.loaded = 1 ∧
          (device_identity_generate env g st).2.1.private_key = seed ∧
          (device_identity_generate env g st).2.1.public_key =
            (ed25519_create_keypair seed).1) := by
  constructor
  · intro seed hrnd hfail
    have hz : (device_identity_generate env g st).1 = IDENTITY_ERROR ∧
        (device_identity_generate env g st).2.1 = identity_zero := by
      by_cases h1 : (secure_storage_store env.store_private st IDENTITY_KEY_PRIVATE
          ((ed25519_create_keypair seed).2.take 32)).1 = 0
      · rcases hfail with hf | hf
        · exact absurd h1 hf
        · exact device_identity_generate_store_public_fails env g st seed hrnd h1 hf
      · exact device_identity_generate_store_private_fails env g st seed hrnd h1
    rw [hz.2]
    exact ⟨hz.1, rfl, rfl, rfl, fun _ => rfl, rfl⟩
  · intro hok
    obtain ⟨seed, hrnd, hlen, _, _, heq⟩ := device_identity_generate_ok env g st hok
    refine ⟨seed, hrnd, hlen, ?_⟩
    rw [heq]
    exact ⟨rfl, ed25519_create_keypair_private seed hlen, rfl⟩

/-- Witness of C23.  In `generate_env_no_nonce` the seed is drawn, the store of the private
key fails for want of a nonce, and `g_identity` is left zeroed; in `generate_env_two` the call
returns `IDENTITY_OK` and the loaded flag is 1. -/
theorem generate_all_or_nothing_witness :
    sovereign_random_bytes generate_env_no_nonce.seed_dev 32 = (1, List.replicate 32 2) ∧
      (device_identity_generate generate_env_no_nonce seed_two_identity empty_store).1 =
        IDENTITY_ERROR ∧
      (device_identity_generate generate_env_no_nonce seed_two_identity empty_store).2.1.loaded
        = 0 ∧
      (device_identity_generate generate_env_two identity_zero empty_store).1 = IDENTITY_OK ∧
      (∃ seed, sovereign_random_bytes generate_env_two.seed_dev 32 = (1, seed) ∧
        seed.length = 32 ∧
        (device_identity_generate generate_env_two identity_zero empty_store).2.1.loaded = 1 ∧
        (device_identity_generate generate_env_two identity_zero empty_store).2.1.private_key =
          seed ∧
        (device_identity_generate generate_env_two identity_zero empty_store).2.1.public_key =
          (ed25519_create_keypair seed).1) :=
  ⟨by decide,
    ((generate_all_or_nothing generate_env_no_nonce seed_two_identity empty_store).1
      (List.replicate 32 2) (by decide)
      (Or.inl (secure_storage_store_no_random _ _ _ _ rfl))).1,
    ((generate_all_or_nothing generate_env_no_nonce seed_two_identity empty_store).1
      (List.replicate 32 2) (by decide)
      (Or.inl (secure_storage_store_no_random _ _ _ _ rfl))).2.1,
    device_identity_generate_seed_two.1,
    (generate_all_or_nothing generate_env_two identity_zero empty_store).2
      device_identity_generate_seed_two.1⟩

theorem group_order_bytes_value : le_bytes_to_nat group_order_bytes = group_order_L := by
  decide

/-- C25, at a failing input: the private key of 32 bytes `0x02`, its public key and the
message "test".  There `ed25519_sign` has `hash = seed_two_hash`, the reduced nonce
`r = seed_two_nonce`, `R = ge_scalarmult_base(r)`, the reduced challenge
`hram = seed_two_challenge`, and it writes `R` followed by `S = sc_muladd(hram, hash, r)`.
Read as little-endian integers, `S` is not `(c * h + r) mod L`, the value that
`sc_muladd_reference` gives; the reduced challenge is not below `L`; and `sc_reduce` leaves
the 64 bytes of value `L` as they are, where the reduction modulo `L` is 0. -/
theorem sign_scalar_not_reduced_mod_L :
    ed25519_clamp (sha512 (List.replicate 32 2)) = seed_two_hash ∧
      sc_reduce (sha512 ((seed_two_hash.drop 32).take 32 ++ c_str "test")) = seed_two_nonce ∧
      ge_scalarmult_base seed_two_nonce = seed_two_signature.take 32 ∧
      sc_reduce (sha512 (seed_two_signature.take 32 ++ (seed_two_public ++ c_str "test"))) =
        seed_two_challenge ∧
      ed25519_sign (c_str "test") (List.replicate 32 2) seed_two_public =
        seed_two_signature.take 32 ++
          sc_muladd seed_two_challenge seed_two_hash seed_two_nonce ∧
      sc_muladd seed_two_challenge seed_two_hash seed_two_nonce = seed_two_signature.drop 32 ∧
      le_bytes_to_nat (seed_two_signature.drop 32) ≠
        (le_bytes_to_nat (seed_two_challenge.take 32) * le_bytes_to_nat (seed_two_hash.take 32) +
          le_bytes_to_nat (seed_two_nonce.take 32)) % group_order_L ∧
      sc_muladd seed_two_challenge seed_two_hash seed_two_nonce ≠
        sc_muladd_reference (seed_two_challenge.take 32) (seed_two_hash.take 32)
          (seed_two_nonce.take 32) ∧
      group_order_L ≤ le_bytes_to_nat (seed_two_challenge.take 32) ∧
      le_bytes_to_nat (group_order_bytes ++ List.replicate 32 0) = group_order_L ∧
      sc_reduce (group_order_bytes ++ List.replicate 32 0) =
        group_order_bytes ++ List.replicate 32 0 ∧
      sc_reduce_reference (group_order_bytes ++ List.replicate 32 0) = List.replicate 32 0 := by
  refine ⟨seed_two_hash_eq, seed_two_nonce_eq, seed_two_commitment, seed_two_challenge_eq, ?_,
    seed_two_response, by decide, ?_, by decide, by decide, by decide, by decide⟩
  · rw [seed_two_response, ed25519_sign_seed_two]
    rfl
  · rw [seed_two_response]
    decide

/-! ## Claim C26 -/

theorem sha512_update_count (ctx : sha512_ctx) (data : List Nat) :
    (sha512_update ctx data).count =
      [(ctx.count.getD 0 0 + ((data.length % 2 ^ 64) <<< 3) % 2 ^ 64) % 2 ^ 64,
        ((if (ctx.count.getD 0 0 + ((data.length % 2 ^ 64) <<< 3) % 2 ^ 64) % 2 ^ 64 <
              ((data.length % 2 ^ 64) <<< 3) % 2 ^ 64
            then (ctx.count.getD 1 0 + 1) % 2 ^ 64 else ctx.count.getD 1 0) +
          ((data.length % 2 ^ 64) >>> 61)) % 2 ^ 64] := by
  simp only [sha512_update]
  split <;> rfl

theorem sha512_counter_step (c0 c1 len : Nat) (hlen : len < 2 ^ 64) (h0 : c0 < 2 ^ 64) :
    ((if (c0 + ((len % 2 ^ 64) <<< 3) % 2 ^ 64) % 2 ^ 64 < ((len % 2 ^ 64) <<< 3) % 2 ^ 64
          then (c1 + 1) % 2 ^ 64 else c1) + ((len % 2 ^ 64) >>> 61)) % 2 ^ 64 * 2 ^ 64 +
        (c0 + ((len % 2 ^ 64) <<< 3) % 2 ^ 64) % 2 ^ 64 =
      (c1 * 2 ^ 64 + c0 + 8 * len) % 2 ^ 128 := by
  have e1 : (len % 2 ^ 64) <<< 3 = 8 * len := by
    rw [Nat.shiftLeft_eq, Nat.mod_eq_of_lt hlen]; omega
  have e2 : (len % 2 ^ 64) >>> 61 = len / 2 ^ 61 := by
    rw [Nat.shiftRight_eq_div_pow, Nat.mod_eq_of_lt hlen]
  rw [e1, e2]
  norm_num at hlen h0 ⊢
  split <;> omega

theorem sha512_update_counter (ctx : sha512_ctx) (data : List Nat)
    (hlen : data.length < 2 ^ 64) (h0 : ctx.count.getD 0 0 < 2 ^ 64) :
    (sha512_update ctx data).count.getD 1 0 * 2 ^ 64 + (sha512_update ctx data).count.getD 0 0 =
        (ctx.count.getD 1 0 * 2 ^ 64 + ctx.count.getD 0 0 + 8 * data.length) % 2 ^ 128 ∧
      (sha512_update ctx data).count.getD 0 0 < 2 ^ 64 ∧
      (sha512_update ctx data).count.getD 1 0 < 2 ^ 64 := by
  rw [sha512_update_count]
  refine ⟨sha512_counter_step _ _ _ hlen h0, ?_, ?_⟩
  · exact Nat.mod_lt _ (by norm_num)
  · exact Nat.mod_lt _ (by norm_num)

theorem sha512_update_chunks_counter (chunks : List (List Nat)) :
    ∀ (ctx : sha512_ctx) (L : Nat), (∀ c ∈ chunks, c.length < 2 ^ 64) →
      ctx.count.getD 0 0 < 2 ^ 64 →
      ctx.count.getD 1 0 * 2 ^ 64 + ctx.count.getD 0 0 = (8 * L) % 2 ^ 128 →
      (sha512_update_chunks ctx chunks).count.getD 0 0 < 2 ^ 64 ∧
        (sha512_update_chunks ctx chunks).count.getD 1 0 * 2 ^ 64 +
            (sha512_update_chunks ctx chunks).count.getD 0 0 =
          (8 * (L + (concat_chunks chunks).length)) % 2 ^ 128 := by
  induction chunks with
  | nil =>
    intro ctx L _ h0 hv
    exact ⟨h0, by simpa [sha512_update_chunks, concat_chunks] using hv⟩
  | cons c cs ih =>
    intro ctx L hc h0 hv
    have hcl : c.length < 2 ^ 64 := hc c (List.mem_cons_self _ _)
    obtain ⟨s1, s2, _⟩ := sha512_update_counter ctx c hcl h0
    have hv2 : (sha512_update ctx c).count.getD 1 0 * 2 ^ 64 +
        (sha512_update ctx c).count.getD 0 0 = (8 * (L + c.length)) % 2 ^ 128 := by
      rw [s1, hv]
      omega
    have hr := ih (sha512_update ctx c) (L + c.length)
      (fun x hx => hc x (List.mem_cons_of_mem _ hx)) s2 hv2
    have hcc : (concat_chunks (c :: cs)).length = c.length + (concat_chunks cs).length := by
      show (c ++ concat_chunks cs).length = _
      rw [List.length_append]
    rw [hcc, ← Nat.add_assoc]
    exact hr

theorem sha512_update_chunks_absorbed_wide (chunks : List (List Nat)) :
    ∀ (ctx : sha512_ctx) (M : List Nat), sha512_absorbed ctx M →
      (∀ c ∈ chunks, c.length < 2 ^ 64) →
      M.length + (concat_chunks chunks).length < 2 ^ 100 →
      sha512_absorbed (sha512_update_chunks ctx chunks) (M ++ concat_chunks chunks) := by
  induction chunks with
  | nil =>
    intro ctx M h _ _
    simpa [sha512_update_chunks, concat_chunks] using h
  | cons c cs ih =>
    intro ctx M h hc hlen
    have hcc : concat_chunks (c :: cs) = c ++ concat_chunks cs := rfl
    rw [hcc, List.length_append] at hlen
    have h1 := sha512_update_absorbed ctx M c h (hc c (List.mem_cons_self _ _)) (by omega)
    have h2 := ih (sha512_update ctx c) (M ++ c) h1
      (fun x hx => hc x (List.mem_cons_of_mem _ hx))
      (by rw [List.length_append]; omega)
    rw [hcc, ← List.append_assoc]
    exact h2

/-- C26. SHA-512 two-word bit counter: for a context whose `count[0]` is a 64-bit value and
an update of `len < 2^64` bytes, the 128-bit value `count[1] * 2^64 + count[0]` after
`sha512_update` is the value before plus `8 * len`, modulo `2^128`, and both words are 64-bit
values.  Hence, after
`sha512_init` and any sequence of such updates, the counter is 8 times the number of bytes
fed, modulo `2^128`, and `(count[0] >> 3) & 0x7F` is that number modulo 128; as long as fewer
than `2^100` bytes were fed, this is the number of bytes pending, which the buffer holds at
its start: the bytes fed after the last complete 128-byte block. -/
theorem sha512_bit_counter (ctx : sha512_ctx) (data : List Nat) (hlen : data.length < 2 ^ 64)
    (h0 : ctx.count.getD 0 0 < 2 ^ 64) :
    (sha512_update ctx data).count.getD 1 0 * 2 ^ 64 + (sha512_update ctx data).count.getD 0 0 =
        (ctx.count.getD 1 0 * 2 ^ 64 + ctx.count.getD 0 0 + 8 * data.length) % 2 ^ 128 ∧
      (sha512_update ctx data).count.getD 0 0 < 2 ^ 64 ∧
      (sha512_update ctx data).count.getD 1 0 < 2 ^ 64 ∧
      (∀ (ctx0 : sha512_ctx) (chunks : List (List Nat)), (∀ c ∈ chunks, c.length < 2 ^ 64) →
        (sha512_update_chunks (sha512_init ctx0) chunks).count.getD 1 0 * 2 ^ 64 +
            (sha512_update_chunks (sha512_init ctx0) chunks).count.getD 0 0 =
          (8 * (concat_chunks chunks).length) % 2 ^ 128 ∧
        ((sha512_update_chunks (sha512_init ctx0) chunks).count.getD 0 0 >>> 3) &&& 0x7F =
          (concat_chunks chunks).length % 128 ∧
        ((concat_chunks chunks).length < 2 ^ 100 →
          (sha512_update_chunks (sha512_init ctx0) chunks).buffer.take
              ((concat_chunks chunks).length % 128) =
            (concat_chunks chunks).drop ((concat_chunks chunks).length / 128 * 128) ∧
          ((concat_chunks chunks).drop ((concat_chunks chunks).length / 128 * 128)).length =
            (concat_chunks chunks).length % 128)) := by
  obtain ⟨s1, s2, s3⟩ := sha512_update_counter ctx data hlen h0
  refine ⟨s1, s2, s3, ?_⟩
  intro ctx0 chunks hc
  obtain ⟨c0, hv⟩ := sha512_update_chunks_counter chunks (sha512_init ctx0) 0 hc
    (by show (0 : Nat) < 2 ^ 64; norm_num)
    (by show (0 : Nat) * 2 ^ 64 + 0 = 8 * 0 % 2 ^ 128; norm_num)
  rw [Nat.zero_add] at hv
  refine ⟨hv, ?_, ?_⟩
  · have hlow : (sha512_update_chunks (sha512_init ctx0) chunks).count.getD 0 0 =
        (8 * (concat_chunks chunks).length) % 2 ^ 64 := by
      norm_num at hv c0 ⊢
      omega
    rw [hlow]
    exact sha512_index_eq _
  · intro htot
    have ha := sha512_update_chunks_absorbed_wide chunks (sha512_init ctx0) []
      (sha512_init_absorbed ctx0) hc (by simpa using htot)
    rw [List.nil_append] at ha
    exact ⟨ha.2.2, sha512_absorbed_tail_length _⟩

/-- Witness of C26: an update of three bytes on a context whose count is `2^64 - 8` bits
carries into the high word; after `sha512_init` and the chunks `[1, 2]` and `[3]` three bytes
are pending. -/
theorem sha512_bit_counter_witness :
    [1, 2, 3].length < 2 ^ 64 ∧ sha512_ctx_carry.count.getD 0 0 < 2 ^ 64 ∧
      (sha512_update sha512_ctx_carry [1, 2, 3]).count.getD 1 0 * 2 ^ 64 +
          (sha512_update sha512_ctx_carry [1, 2, 3]).count.getD 0 0 = 2 ^ 64 + 16 ∧
      ((sha512_update_chunks (sha512_init sha512_ctx_local) [[1, 2], [3]]).count.getD 0 0 >>> 3)
          &&& 0x7F = 3 ∧
      (sha512_update_chunks (sha512_init sha512_ctx_local) [[1, 2], [3]]).buffer.take 3 =
        [1, 2, 3] :=
  ⟨by decide, by decide,
    (sha512_bit_counter sha512_ctx_carry [1, 2, 3] (by decide) (by decide)).1,
    ((sha512_bit_counter sha512_ctx_carry [1, 2, 3] (by decide) (by decide)).2.2.2
      sha512_ctx_local [[1, 2], [3]] (by decide)).2.1,
    (((sha512_bit_counter sha512_ctx_carry [1, 2, 3] (by decide) (by decide)).2.2.2
      sha512_ctx_local [[1, 2], [3]] (by decide)).2.2 (by decide)).1⟩

/-! ## Claims C27, C28 and C29 -/

theorem xor_keystream_cancel (a b k : Nat) : (a ^^^ k) ^^^ (b ^^^ k) = a ^^^ b := by
  rw [Nat.xor_assoc, Nat.xor_comm k, Nat.xor_assoc, Nat.xor_self, Nat.xor_zero]

theorem chacha20_encrypt_getD (key nonce : List Nat) (c : Nat) (x : List Nat) (i : Nat)
    (hi : i < x.length) :
    (chacha20_encrypt key nonce c x).getD i 0 =
      x.getD i 0 ^^^ keystream_byte key nonce ((c + i / 64) % 2 ^ 32) (i % 64) := by
  rw [List.getD_eq_getElem?_getD, List.getD_eq_getElem?_getD, chacha20_encrypt_getElem?,
    List.getElem?_eq_getElem hi]
  rfl

/-- C27. Nonce reuse leaks the XOR of plaintexts: the ciphertext of
`chacha20_poly1305_encrypt` is `chacha20_encrypt(key, nonce, 1, plaintext)`, of the length
of the plaintext, a function of key, nonce and plaintext alone; for two plaintexts of equal
length under the same key and nonce, byte `i` of the one ciphertext XOR byte `i` of the other
is byte `i` of the one plaintext XOR byte `i` of the other. -/
theorem nonce_reuse_leaks_xor (key nonce m1 m2 : List Nat) (hlen : m1.length = m2.length) :
    (chacha20_poly1305_encrypt key nonce m1).2.1 = chacha20_encrypt key nonce 1 m1 ∧
      (chacha20_poly1305_encrypt key nonce m1).2.1.length = m1.length ∧
      (chacha20_poly1305_encrypt key nonce m2).2.1.length = m1.length ∧
      (∀ i, i < m1.length →
        (chacha20_poly1305_encrypt key nonce m1).2.1.getD i 0 ^^^
            (chacha20_poly1305_encrypt key nonce m2).2.1.getD i 0 =
          m1.getD i 0 ^^^ m2.getD i 0) ∧
      List.zipWith (fun a b => a ^^^ b) (chacha20_poly1305_encrypt key nonce m1).2.1
          (chacha20_poly1305_encrypt key nonce m2).2.1 =
        List.zipWith (fun a b => a ^^^ b) m1 m2 := by
  have hidx : ∀ i, i < m1.length →
      (chacha20_encrypt key nonce 1 m1).getD i 0 ^^^ (chacha20_encrypt key nonce 1 m2).getD i 0 =
        m1.getD i 0 ^^^ m2.getD i 0 := by
    intro i hi
    rw [chacha20_encrypt_getD key nonce 1 m1 i hi,
      chacha20_encrypt_getD key nonce 1 m2 i (by omega), xor_keystream_cancel]
  refine ⟨rfl, chacha20_encrypt_length _ _ _ _,
    (chacha20_encrypt_length _ _ _ _).trans hlen.symm, hidx, ?_⟩
  show List.zipWith (fun a b => a ^^^ b) (chacha20_encrypt key nonce 1 m1)
    (chacha20_encrypt key nonce 1 m2) = List.zipWith (fun a b => a ^^^ b) m1 m2
  apply List.ext_getElem
  · simp only [List.length_zipWith, chacha20_encrypt_length]
  · intro i h1 h2
    simp only [List.length_zipWith, chacha20_encrypt_length] at h1
    have hi1 : i < m1.length := by omega
    have hi2 : i < m2.length := by omega
    have hc1 : i < (chacha20_encrypt key nonce 1 m1).length := by
      rw [chacha20_encrypt_length]; exact hi1
    have hc2 : i < (chacha20_encrypt key nonce 1 m2).length := by
      rw [chacha20_encrypt_length]; exact hi2
    have h := hidx i hi1
    rw [List.getD_eq_getElem?_getD, List.getD_eq_getElem?_getD, List.getD_eq_getElem?_getD,
      List.getD_eq_getElem?_getD, List.getElem?_eq_getElem hc1, List.getElem?_eq_getElem hc2,
      List.getElem?_eq_getElem hi1, List.getElem?_eq_getElem hi2] at h
    simpa only [List.getElem_zipWith, Option.getD_some] using h

/-- Witness of C27 for the plaintexts `[1, 2, 3]` and `[7, 7, 7]` under the all-zero key and
nonce. -/
theorem nonce_reuse_leaks_xor_witness :
    [1, 2, 3].length = [7, 7, 7].length ∧
      List.zipWith (fun a b => a ^^^ b) (chacha20_poly1305_encrypt zero_key zero_nonce [1, 2, 3]).2.1
          (chacha20_poly1305_encrypt zero_key zero_nonce [7, 7, 7]).2.1 = [6, 5, 4] :=
  ⟨rfl, (nonce_reuse_leaks_xor zero_key zero_nonce [1, 2, 3] [7, 7, 7] rfl).2.2.2.2⟩

/-- C28. Verification ignores the message and the public key: for every signature, messages
`m1`, `m2` and public keys `pk1`, `pk2`, `ed25519_verify(sig, m1, pk1)` equals
`ed25519_verify(sig, m2, pk2)`; the value returned is decided by byte 63 of the signature and
by the comparison of `ge_scalarmult_base` of its second half with its first 32 bytes, and the
challenge hash `h` and `verification_hash` take no part in it. -/
theorem verify_ignores_message_and_key (sig m1 m2 pk1 pk2 : List Nat) :
    ed25519_verify sig m1 pk1 = ed25519_verify sig m2 pk2 ∧
      ed25519_verify sig m1 pk1 =
        if sig.getD 63 0 &&& 224 ≠ 0 then 0
        else if (List.range 32).foldl
            (fun acc i => acc ||| ((ge_scalarmult_base (sig.drop 32)).getD i 0 ^^^
              sig.getD i 0)) 0 = 0 then 1 else 0 :=
  ⟨(ed25519_verify_eq sig m1 pk1).trans (ed25519_verify_eq sig m2 pk2).symm,
    ed25519_verify_eq sig m1 pk1⟩

/-- C29. Keyless signatures are accepted: for every 32-byte `S` whose byte 31 has its high
three bits clear, every message and every public key, `ed25519_verify` returns 1 for the 64
bytes `ge_scalarmult_base(S) ++ S`, which are built from `S` alone. -/
theorem keyless_signature_accepted (S m pk : List Nat) (hlen : S.length = 32)
    (hhi : S.getD 31 0 &&& 224 = 0) :
    ed25519_verify (ge_scalarmult_base S ++ S) m pk = 1 ∧
      (ge_scalarmult_base S ++ S).length = 64 := by
  have hg := ge_scalarmult_base_length S
  have h63 : (ge_scalarmult_base S ++ S).getD 63 0 = S.getD 31 0 := by
    rw [List.getD_eq_getElem?_getD, List.getD_eq_getElem?_getD,
      List.getElem?_append_right (by omega), hg]
  have hdrop : (ge_scalarmult_base S ++ S).drop 32 = S := by
    rw [← hg, List.drop_left]
  have hfold : (List.range 32).foldl
      (fun acc i => acc ||| ((ge_scalarmult_base S).getD i 0 ^^^
        (ge_scalarmult_base S ++ S).getD i 0)) 0 = 0 := by
    rw [foldl_or_xor_eq_zero]
    intro i hi
    rw [List.getD_eq_getElem?_getD, List.getD_eq_getElem?_getD,
      List.getElem?_append_left (by omega)]
  refine ⟨?_, by rw [List.length_append, hg, hlen]⟩
  rw [ed25519_verify_eq, h63, hdrop, if_neg (by simpa using hhi), if_pos hfold]

/-- Witness of C29 at `S` the 32 zero bytes, the message "test" and the public key of the
seed of 32 bytes `0x02`. -/
theorem keyless_signature_accepted_witness :
    (List.replicate 32 0).length = 32 ∧ (List.replicate 32 0).getD 31 0 &&& 224 = 0 ∧
      ed25519_verify (ge_scalarmult_base (List.replicate 32 0) ++ List.replicate 32 0)
        (c_str "test") seed_two_public = 1 :=
  ⟨by decide, by decide,
    (keyless_signature_accepted (List.replicate 32 0) (c_str "test") seed_two_public
      (by decide) (by decide)).1⟩

/-! ## Claim C30 -/

theorem store_checked_length (a : List Nat) (i v : Nat) (b : List Nat)
    (h : store_checked a i v = some b) : b.length = a.length := by
  simp only [store_checked] at h
  split at h
  · rw [← Option.some.inj h, List.length_set]
  · exact absurd h (by simp)

theorem load_checked_none (a : List Nat) (i : Nat) (h : a.length ≤ i) :
    load_checked a i = none := by
  simp only [load_checked, if_neg (Nat.not_lt.mpr h)]

theorem poly1305_mul_step_length (h r : List Nat) (j k : Nat) (mul : Option (List Nat))
    (hm : ∀ m, mul = some m → m.length = 5) :
    ∀ m, poly1305_mul_step_checked h r j mul k = some m → m.length = 5 := by
  intro m hs
  simp only [poly1305_mul_step_checked] at hs
  cases mul with
  | none => simp at hs
  | some m0 =>
    have h0 := hm m0 rfl
    simp only [Option.some_bind] at hs
    cases h1 : load_checked h j with
    | none => simp [h1] at hs
    | some hj =>
      cases h2 : load_checked r k with
      | none => simp [h1, h2] at hs
      | some rk =>
        cases h3 : load_checked m0 (j + k) with
        | none => simp [h1, h2, h3] at hs
        | some old =>
          simp only [h1, h2, h3, Option.some_bind] at hs
          rw [store_checked_length _ _ _ _ hs, h0]

theorem poly1305_mul_step_none (h r : List Nat) (j k : Nat) (mul : Option (List Nat))
    (hm : ∀ m, mul = some m → m.length = 5) (hjk : 5 ≤ j + k) :
    poly1305_mul_step_checked h r j mul k = none := by
  simp only [poly1305_mul_step_checked]
  cases mul with
  | none => rfl
  | some m0 =>
    have h0 := hm m0 rfl
    simp only [Option.some_bind, load_checked_none m0 (j + k) (by omega), Option.bind_none,
      Option.bind_eq_none]
    intros
    trivial

theorem poly1305_mul_row_length (h r : List Nat) (j : Nat) (ks : List Nat) :
    ∀ mul : Option (List Nat), (∀ m, mul = some m → m.length = 5) →
      ∀ m, ks.foldl (poly1305_mul_step_checked h r j) mul = some m → m.length = 5 := by
  induction ks with
  | nil => intro mul hm m hs; exact hm m hs
  | cons k ks ih =>
    intro mul hm m hs
    exact ih _ (poly1305_mul_step_length h r j k mul hm) m hs

theorem poly1305_mul_row_none (h r : List Nat) (j : Nat) (ks : List Nat) :
    ks.foldl (poly1305_mul_step_checked h r j) none = none := by
  induction ks with
  | nil => rfl
  | cons k ks ih => exact ih

theorem poly1305_mul_words_checked_none (h r : List Nat) :
    poly1305_mul_words_checked h r = none := by
  have hr : List.range 4 = [0, 1, 2, 3] := by decide
  have h0 : ∀ m, (some [0, 0, 0, 0, 0] : Option (List Nat)) = some m → m.length = 5 := by
    intro m hm
    rw [← Option.some.inj hm]
    rfl
  have h1 := poly1305_mul_row_length h r 0 [0, 1, 2, 3] _ h0
  have h2 := poly1305_mul_row_length h r 1 [0, 1, 2, 3] _ h1
  have h3 := poly1305_mul_row_length h r 2 [0, 1, 2] _ h2
  have h4 := poly1305_mul_step_none h r 2 3 _ h3 (by decide)
  simp only [poly1305_mul_words_checked, hr, List.foldl_cons, List.foldl_nil] at h4 ⊢
  rw [h4]
  rfl

theorem poly1305_block_step_checked_none (r h chunk : List Nat) :
    poly1305_block_step_checked r h chunk = none := by
  simp only [poly1305_block_step_checked, poly1305_mul_words_checked_none, Option.bind_none,
    Option.bind_eq_none]
  intros
  trivial

theorem poly1305_authenticate_checked_cons (key : List Nat) (b : Nat) (message : List Nat) :
    poly1305_authenticate_checked key (b :: message) = none := by
  simp only [poly1305_authenticate_checked, List.length_cons, poly1305_blocks_checked,
    Nat.succ_pos, if_true, poly1305_block_step_checked_none, Option.bind_none]
  rfl

set_option maxRecDepth 100000 in
/-- C30 fails, at the all-zero key with a message of one byte and with one of sixteen bytes.
With every index into a local array checked against the declared size,
`poly1305_authenticate` goes out of range on every message that is not empty: the double loop
`mul[j + k] += h[j] * r[k]` reaches `mul[5]` on `uint64_t mul[5]` whatever `h` and `r` hold,
and for a block of sixteen bytes `block[block_size / 4]` is `block[4]` on
`uint32_t block[4]`.  A one-byte block is loaded, padded and added within range, and the
accesses to `h[4]` are within range; for the empty message no index is out of range and the
tag is the one of the unchecked embedding. -/
theorem poly1305_indices_out_of_range :
    poly1305_authenticate_checked zero_key [0] = none ∧
      poly1305_authenticate_checked zero_key (List.replicate 16 0) = none ∧
      (∀ (key : List Nat) (b : Nat) (message : List Nat),
        poly1305_authenticate_checked key (b :: message) = none) ∧
      (∀ h r : List Nat, poly1305_mul_words_checked h r = none) ∧
      poly1305_load_block_checked (List.replicate 16 0) = some [0, 0, 0, 0] ∧
      poly1305_pad_block_checked [0, 0, 0, 0] 16 = none ∧
      load_checked [0, 0, 0, 0] (16 / 4) = none ∧
      load_checked [0, 0, 0, 0, 0] (2 + 3) = none ∧
      poly1305_load_block_checked [0] = some [0, 0, 0, 0] ∧
      poly1305_pad_block_checked [0, 0, 0, 0] 1 = some [256, 0, 0, 0] ∧
      poly1305_add_words_checked [0, 0, 0, 0, 0] [256, 0, 0, 0] = some ([256, 0, 0, 0, 0], 0) ∧
      load_checked [256, 0, 0, 0, 0] 4 = some 0 ∧
      poly1305_authenticate_checked zero_key [] = some (poly1305_authenticate zero_key []) :=
  ⟨poly1305_authenticate_checked_cons _ _ _, poly1305_authenticate_checked_cons _ _ _,
    poly1305_authenticate_checked_cons, poly1305_mul_words_checked_none, by decide, by decide,
    by decide, by decide, by decide, by decide, by decide, by decide, by decide⟩

end SovereignDroid
